import Mathlib

/-!
Shallow embedding of `src/main.rs` of the `calc` repository: a line-buffered
lexer, a recursive-descent parser for arithmetic expressions, an AST
evaluator, and the `main` driver.

Modelling conventions, chosen once and used throughout:

* Standard input is a pure value `input : List (List Char)`: the sequence of
  lines that `read_line` will deliver, each line including its trailing
  newline character when one is present in the stream.  `Stdin::read_line`
  at end of stream returns `Ok(0)` and leaves the buffer empty, so the model
  of a read past the last line yields the empty line; `read_line` returns
  `Err` only on a genuine I/O failure (for instance invalid UTF-8), which a
  pure `List Char` input cannot produce, so the two `unable to read line`
  panics of the source are unreachable in the model.
* Buffers are `List Char` with a byte offset, as in the Rust source
  (`String` plus `usize` offset); `utf8Len` mirrors `char::len_utf8`.
* Every `panic!`/`expect`/`unwrap` becomes an `Except Err` error; the `Err`
  constructors name the distinct panic sites of the source.
* `i32` values are `Int` with explicit two's-complement wrapping `i32wrap`
  applied where Rust arithmetic may overflow; this models release-mode
  (wrapping) overflow semantics for `+`, `-`, `*`.  Division panics on a
  zero divisor and on `i32::MIN / -1` in every build mode, so those are
  errors.
* The mutually recursive grammar productions take a fuel parameter and
  return `none` when fuel runs out; termination is then a theorem (claim
  C10): for every state some fuel suffices.
-/

/-- The tokens of the lexer (`enum Token` in the source).  `Num` carries the
raw digit text. -/
inductive Token where
  | Num (s : List Char)
  | Plus
  | Minus
  | Times
  | Divide
  | LParen
  | RParen
  | Semi
deriving DecidableEq, Repr

/-- The fatal-error outcomes of the program, one constructor per distinct
panic site of the source. -/
inductive Err where
  /-- `Lexer::new`: `read_line` failed ("Could not initialize lexer:  unable
  to read line").  Unreachable in the pure-input model. -/
  | initReadLine
  /-- `Lexer::advance`: `read_line` failed ("Could not advance lexer:  unable
  to read line").  Unreachable in the pure-input model. -/
  | advanceReadLine
  /-- `Lexer::current`: no character at the current offset ("Tried to get a
  nonsensical character"). -/
  | nonsensicalChar
  /-- `Lexer::get_token`: "unrecognized character: {x}". -/
  | unrecognizedChar (x : Char)
  /-- `Parser::eat`: "Syntax error: expected {t}, found {tok}". -/
  | syntaxEat (expected found : Token)
  /-- `Parser::factor`: "Syntax error: expected number or parenthesis". -/
  | syntaxFactor
  /-- `Parser::factor`: `x.parse::<i32>().unwrap()` failed (literal does not
  fit in `i32`). -/
  | literalOverflow (s : List Char)
  /-- `evaluate`: division by zero (`attempt to divide by zero`). -/
  | divByZero
  /-- `evaluate`: `i32::MIN / -1` (`attempt to divide with overflow`). -/
  | divOverflow
deriving DecidableEq, Repr

/-- Number of bytes of the UTF-8 encoding of a character: `char::len_utf8`.
(Equal to `Char.utf8Size`, restated so the branch conditions are plain `Nat`
comparisons.) -/
def utf8Len (c : Char) : Nat :=
  if c.val.toNat ≤ 127 then 1
  else if c.val.toNat ≤ 2047 then 2
  else if c.val.toNat ≤ 65535 then 3
  else 4

/-- Total number of bytes of a buffer: `String::len` of the Rust buffer. -/
def byteLen (l : List Char) : Nat := (l.map utf8Len).sum

/-- The character whose UTF-8 encoding starts at byte `n` of the buffer:
models `self.buffer[self.offset..].chars().next()`.  `none` both when the
offset is at or past the end and (unreachably) when it is not on a character
boundary — Rust panics in either case. -/
def charAtByte : List Char → Nat → Option Char
  | [], _ => none
  | c :: cs, n =>
    if n = 0 then some c
    else if n < utf8Len c then none
    else charAtByte cs (n - utf8Len c)

/-- `struct Lexer`: the unconsumed current line and a byte offset into it,
plus the remaining stdin lines and an instrumentation counter of performed
`read_line` calls (the counter is an observer used by the temporal claims;
no source behaviour depends on it). -/
structure LexState where
  buffer : List Char
  offset : Nat
  input : List (List Char)
  reads : Nat
deriving DecidableEq, Repr

/-- One `read_line`: the next stdin line, or the empty line at end of
stream (`read_line` returns `Ok(0)` at EOF). -/
def readLine (input : List (List Char)) : List Char × List (List Char) :=
  match input with
  | [] => ([], [])
  | l :: ls => (l, ls)

/-- `Lexer::new`: eagerly read the first line, offset 0. -/
def lexerNew (input : List (List Char)) : LexState :=
  { buffer := (readLine input).1
    offset := 0
    input := (readLine input).2
    reads := 1 }

/-- `Lexer::current`. -/
def current (st : LexState) : Option Char := charAtByte st.buffer st.offset

/-- `Lexer::advance`.  The condition `offset >= buffer.len() - 1` is the
source's `usize` expression; Lean's truncated `Nat` subtraction agrees with
it on every state where `advance` is actually invoked (the buffer is
non-empty there, since a `current` call has just succeeded). -/
def advance (st : LexState) : Except Err LexState :=
  if st.offset ≥ byteLen st.buffer - 1 then
    .ok { buffer := (readLine st.input).1
          offset := 0
          input := (readLine st.input).2
          reads := st.reads + 1 }
  else
    match current st with
    | none => .error .nonsensicalChar
    | some c => .ok { st with offset := st.offset + utf8Len c }

/-- Unconsumed bytes still ahead of the lexer: the rest of the current
buffer plus every remaining line (a pending line costs its bytes plus one
for the `read_line` that fetches it).  This is the termination measure. -/
def lexMeasure (st : LexState) : Nat :=
  (byteLen st.buffer - st.offset) + (st.input.map (fun l => byteLen l + 1)).sum

theorem utf8Len_pos (c : Char) : 0 < utf8Len c := by
  unfold utf8Len
  split
  · exact Nat.zero_lt_one
  · split
    · exact Nat.zero_lt_two
    · split
      · exact Nat.zero_lt_succ 2
      · exact Nat.zero_lt_succ 3

theorem charAtByte_lt (l : List Char) (n : Nat) (c : Char)
    (h : charAtByte l n = some c) : n < byteLen l := by
  induction l generalizing n with
  | nil => simp [charAtByte] at h
  | cons d ds ih =>
    unfold charAtByte at h
    by_cases h0 : n = 0
    · subst h0
      have := utf8Len_pos d
      simp [byteLen]
      omega
    · rw [if_neg h0] at h
      by_cases h1 : n < utf8Len d
      · rw [if_pos h1] at h
        exact absurd h (by simp)
      · rw [if_neg h1] at h
        have := ih (n - utf8Len d) h
        simp [byteLen] at this ⊢
        omega

theorem advance_lt (st : LexState) (c : Char) (st2 : LexState)
    (hc : current st = some c) (ha : advance st = .ok st2) :
    lexMeasure st2 < lexMeasure st := by
  have hlt : st.offset < byteLen st.buffer := charAtByte_lt _ _ _ hc
  obtain ⟨buf, off, inp, rd⟩ := st
  simp only at hlt
  unfold advance at ha
  simp only at ha
  by_cases hcond : off ≥ byteLen buf - 1
  · rw [if_pos hcond] at ha
    cases ha
    cases inp with
    | nil =>
      simp only [lexMeasure, readLine, List.map_nil, List.sum_nil, byteLen,
        List.map_nil]
      simp only [byteLen] at hlt hcond
      omega
    | cons l ls =>
      simp only [lexMeasure, readLine, List.map_cons, List.sum_cons]
      omega
  · rw [if_neg hcond] at ha
    simp only [current] at hc
    rw [show current ⟨buf, off, inp, rd⟩ = some c from hc] at ha
    cases ha
    have hp := utf8Len_pos c
    simp only [lexMeasure]
    omega

/-- The whitespace-skipping loop at the head of `Lexer::get_token`
(`while c.is_whitespace() { self.advance(); c = self.current(); }`),
with fuel: `none` when fuel runs out.  Each iteration strictly decreases
`lexMeasure`, so fuel `lexMeasure st + 1` always suffices
(`skipWsF_isSome`); `skipWs` below instantiates that bound. -/
def skipWsF : Nat → LexState → Option (Except Err (Char × LexState))
  | 0, _ => none
  | n + 1, st =>
    match current st with
    | none => some (.error .nonsensicalChar)
    | some c =>
      if c.isWhitespace then
        match advance st with
        | .error e => some (.error e)
        | .ok st2 => skipWsF n st2
      else some (.ok (c, st))

theorem skipWsF_isSome :
    ∀ (n : Nat) (st : LexState), lexMeasure st < n → (skipWsF n st).isSome := by
  intro n
  induction n with
  | zero => intro st h; omega
  | succ n ih =>
    intro st h
    unfold skipWsF
    cases hc : current st with
    | none => simp
    | some c =>
      simp only
      by_cases hw : c.isWhitespace
      · rw [if_pos hw]
        cases ha : advance st with
        | error e => simp
        | ok st2 =>
          have := advance_lt st c st2 hc ha
          exact ih st2 (by omega)
      · rw [if_neg hw]; simp

/-- The whitespace-skipping loop, as a total function. -/
def skipWs (st : LexState) : Except Err (Char × LexState) :=
  (skipWsF (lexMeasure st + 1) st).get
    (skipWsF_isSome (lexMeasure st + 1) st (Nat.lt_succ_self _))

/-- The digit-accumulation loop of `Lexer::get_token`
(`while c.is_digit(10) { t.push(c); self.advance(); c = self.current(); }`),
with fuel, which `takeDigits` below instantiates with the always-sufficient
bound `lexMeasure st + 1`. -/
def takeDigitsF :
    Nat → List Char → LexState → Option (Except Err (List Char × Char × LexState))
  | 0, _, _ => none
  | n + 1, acc, st =>
    match current st with
    | none => some (.error .nonsensicalChar)
    | some c =>
      if c.isDigit then
        match advance st with
        | .error e => some (.error e)
        | .ok st2 => takeDigitsF n (acc ++ [c]) st2
      else some (.ok (acc, c, st))

theorem takeDigitsF_isSome :
    ∀ (n : Nat) (acc : List Char) (st : LexState), lexMeasure st < n →
      (takeDigitsF n acc st).isSome := by
  intro n
  induction n with
  | zero => intro acc st h; omega
  | succ n ih =>
    intro acc st h
    unfold takeDigitsF
    cases hc : current st with
    | none => simp
    | some c =>
      simp only
      by_cases hd : c.isDigit
      · rw [if_pos hd]
        cases ha : advance st with
        | error e => simp
        | ok st2 =>
          have := advance_lt st c st2 hc ha
          exact ih (acc ++ [c]) st2 (by omega)
      · rw [if_neg hd]; simp

/-- The digit-accumulation loop, as a total function. -/
def takeDigits (acc : List Char) (st : LexState) :
    Except Err (List Char × Char × LexState) :=
  (takeDigitsF (lexMeasure st + 1) acc st).get
    (takeDigitsF_isSome (lexMeasure st + 1) acc st (Nat.lt_succ_self _))

/-- The single-character classification at the tail of `Lexer::get_token`:
the Rust `match c` arms, with `none` for the `panic!("unrecognized
character: {}", x)` arm. -/
def symTok (c : Char) : Option Token :=
  match c with
  | '+' => some .Plus
  | '-' => some .Minus
  | '*' => some .Times
  | '/' => some .Divide
  | '(' => some .LParen
  | ')' => some .RParen
  | ';' => some .Semi
  | _ => none

/-- `Lexer::get_token`. -/
def getToken (st : LexState) : Except Err (Token × LexState) :=
  match skipWs st with
  | .error e => .error e
  | .ok (c, st1) =>
    match takeDigits [] st1 with
    | .error e => .error e
    | .ok (t, c2, st2) =>
      if t ≠ [] then .ok (.Num t, st2)
      else
        match advance st2 with
        | .error e => .error e
        | .ok st3 =>
          match symTok c2 with
          | some tk => .ok (tk, st3)
          | none => .error (.unrecognizedChar c2)

/-- `enum AST`: the abstract syntax tree.  `Num` carries the parsed `i32`
value as an `Int` (the parser only ever stores values in
`[-2^31, 2^31)`). -/
inductive AST where
  | Num (x : Int)
  | Plus (l r : AST)
  | Minus (l r : AST)
  | Times (l r : AST)
  | Divide (l r : AST)
deriving DecidableEq, Repr

/-- `struct Parser`: the one-token lookahead and the owned lexer state. -/
structure ParserSt where
  tok : Token
  lex : LexState
deriving DecidableEq, Repr

/-- `Parser::get_token`: refill the lookahead from the lexer. -/
def pGetToken (p : ParserSt) : Except Err ParserSt :=
  match getToken p.lex with
  | .error e => .error e
  | .ok (t, st) => .ok ⟨t, st⟩

/-- `Parser::eat`. -/
def eat (t : Token) (p : ParserSt) : Except Err ParserSt :=
  if p.tok = t then pGetToken p
  else .error (.syntaxEat t p.tok)

/-- Base-10 value of a digit string: the mathematical reading that
`str::parse::<i32>` gives to a string of decimal digits. -/
def digitsToNat (l : List Char) : Nat :=
  l.foldl (fun a c => a * 10 + (c.toNat - 48)) 0

/-- `x.parse::<i32>().unwrap()` on the digit text of a `Num` token: the
value when it fits in `i32`, a fatal error otherwise.  (Lexer tokens are
non-empty all-digit strings, hence non-negative.) -/
def parseI32 (l : List Char) : Except Err Int :=
  if digitsToNat l ≤ 2147483647 then .ok (digitsToNat l : Int)
  else .error (.literalOverflow l)

/-- `Parser::semi`: the terminal production — it returns its argument and
touches nothing (in particular it does not check or consume a `;`). -/
def semi (a : AST) (p : ParserSt) : AST × ParserSt := (a, p)

/-- Results of a fueled grammar production: `none` when fuel ran out. -/
abbrev PRes := Option (Except Err (AST × ParserSt))

mutual

/-- `Parser::program` (fueled). -/
def programF : Nat → ParserSt → PRes
  | 0, _ => none
  | n + 1, p =>
    match expF n p with
    | none => none
    | some (.error e) => some (.error e)
    | some (.ok (a, p1)) => some (.ok (semi a p1))

/-- `Parser::exp` (fueled). -/
def expF : Nat → ParserSt → PRes
  | 0, _ => none
  | n + 1, p =>
    match termF n p with
    | none => none
    | some (.error e) => some (.error e)
    | some (.ok (t, p1)) => expRF n t p1

/-- `Parser::exp_` (fueled): the right-recursive helper for `+`/`-`. -/
def expRF : Nat → AST → ParserSt → PRes
  | 0, _, _ => none
  | n + 1, t, p =>
    match p.tok with
    | .Plus =>
      match eat .Plus p with
      | .error e => some (.error e)
      | .ok p1 =>
        match termF n p1 with
        | none => none
        | some (.error e) => some (.error e)
        | some (.ok (s, p2)) => expRF n (.Plus t s) p2
    | .Minus =>
      match eat .Minus p with
      | .error e => some (.error e)
      | .ok p1 =>
        match termF n p1 with
        | none => none
        | some (.error e) => some (.error e)
        | some (.ok (s, p2)) => expRF n (.Minus t s) p2
    | _ => some (.ok (t, p))

/-- `Parser::term` (fueled). -/
def termF : Nat → ParserSt → PRes
  | 0, _ => none
  | n + 1, p =>
    match factorF n p with
    | none => none
    | some (.error e) => some (.error e)
    | some (.ok (f, p1)) => termRF n f p1

/-- `Parser::term_` (fueled): the right-recursive helper for `*`/`/`. -/
def termRF : Nat → AST → ParserSt → PRes
  | 0, _, _ => none
  | n + 1, f, p =>
    match p.tok with
    | .Times =>
      match eat .Times p with
      | .error e => some (.error e)
      | .ok p1 =>
        match factorF n p1 with
        | none => none
        | some (.error e) => some (.error e)
        | some (.ok (g, p2)) => termRF n (.Times f g) p2
    | .Divide =>
      match eat .Divide p with
      | .error e => some (.error e)
      | .ok p1 =>
        match factorF n p1 with
        | none => none
        | some (.error e) => some (.error e)
        | some (.ok (g, p2)) => termRF n (.Divide f g) p2
    | _ => some (.ok (f, p))

/-- `Parser::factor` (fueled): a number, or a parenthesised expression;
anything else is the fatal "expected number or parenthesis" error. -/
def factorF : Nat → ParserSt → PRes
  | 0, _ => none
  | n + 1, p =>
    match p.tok with
    | .Num x =>
      match pGetToken p with
      | .error e => some (.error e)
      | .ok p1 =>
        match parseI32 x with
        | .error e => some (.error e)
        | .ok v => some (.ok (.Num v, p1))
    | .LParen =>
      match eat .LParen p with
      | .error e => some (.error e)
      | .ok p1 =>
        match expF n p1 with
        | none => none
        | some (.error e) => some (.error e)
        | some (.ok (a, p2)) =>
          match eat .RParen p2 with
          | .error e => some (.error e)
          | .ok p3 => some (.ok (a, p3))
    | _ => some (.error .syntaxFactor)

end

/-- Two's-complement wrap into `i32`: the value Rust's release-mode `i32`
arithmetic stores for a mathematical result `x`. -/
def i32wrap (x : Int) : Int := (x + 2147483648) % 4294967296 - 2147483648

/-- `evaluate`: post-order evaluation of the tree.  `+`, `-`, `*` wrap
(release-mode overflow semantics); `/` panics on a zero divisor and on
`i32::MIN / -1`, and otherwise truncates toward zero (`Int.tdiv`). -/
def evaluate : AST → Except Err Int
  | .Num x => .ok x
  | .Plus a b =>
    match evaluate a with
    | .error e => .error e
    | .ok x =>
      match evaluate b with
      | .error e => .error e
      | .ok y => .ok (i32wrap (x + y))
  | .Minus a b =>
    match evaluate a with
    | .error e => .error e
    | .ok x =>
      match evaluate b with
      | .error e => .error e
      | .ok y => .ok (i32wrap (x - y))
  | .Times a b =>
    match evaluate a with
    | .error e => .error e
    | .ok x =>
      match evaluate b with
      | .error e => .error e
      | .ok y => .ok (i32wrap (x * y))
  | .Divide a b =>
    match evaluate a with
    | .error e => .error e
    | .ok x =>
      match evaluate b with
      | .error e => .error e
      | .ok y =>
        if y = 0 then .error .divByZero
        else if x = -2147483648 ∧ y = -1 then .error .divOverflow
        else .ok (x.tdiv y)

/-- What `main` writes to standard output: the prompt line, and one line
per printed result (rendered here as the printed `i32` value). -/
inductive Out where
  | prompt
  | result (x : Int)
deriving DecidableEq, Repr

/-- `main`, as a function from the stdin lines to the stdout lines plus the
fatal error if one occurred: build the lexer (first `read_line`), build the
parser (first token fetch), print the prompt, parse one `program`, evaluate
it and print the result, then exit.  `none` when the parsing fuel ran out
(claim C10 shows enough fuel always exists). -/
def mainRun (fuel : Nat) (input : List (List Char)) :
    Option (List Out × Option Err) :=
  match getToken (lexerNew input) with
  | .error e => some ([], some e)
  | .ok (t, st1) =>
    match programF fuel ⟨t, st1⟩ with
    | none => none
    | some (.error e) => some ([.prompt], some e)
    | some (.ok (a, _)) =>
      match evaluate a with
      | .error e => some ([.prompt], some e)
      | .ok v => some ([.prompt, .result v], none)

/-- The number of `read_line` calls a successful run of `main` performs
(observer for the line-buffering claims). -/
def mainReads (fuel : Nat) (input : List (List Char)) : Option Nat :=
  match getToken (lexerNew input) with
  | .error _ => none
  | .ok (t, st1) =>
    match programF fuel ⟨t, st1⟩ with
    | some (.ok (_, pEnd)) => some pEnd.lex.reads
    | _ => none

/-- The number of `read_line` calls performed before `main` prints its
prompt (the prompt is printed right after `Lexer::new` and `Parser::new`);
`none` when the run dies before reaching the prompt. -/
def readsBeforePrompt (input : List (List Char)) : Option Nat :=
  match getToken (lexerNew input) with
  | .error _ => none
  | .ok (_, st1) => some st1.reads

/-- The AST produced by the single `parser.program()` call of `main`. -/
def parseAST (fuel : Nat) (input : List (List Char)) :
    Option (Except Err AST) :=
  match getToken (lexerNew input) with
  | .error e => some (.error e)
  | .ok (t, st1) =>
    match programF fuel ⟨t, st1⟩ with
    | none => none
    | some (.error e) => some (.error e)
    | some (.ok (a, _)) => some (.ok a)

deriving instance DecidableEq for Except

theorem termF_step (n : Nat) (p p1 : ParserSt) (f : AST) (r : PRes)
    (h1 : factorF n p = some (.ok (f, p1))) (h2 : termRF n f p1 = r) :
    termF (n + 1) p = r := by
  simp only [termF, h1]; exact h2

theorem termF_err (n : Nat) (p : ParserSt) (e : Err)
    (h : factorF n p = some (.error e)) : termF (n + 1) p = some (.error e) := by
  simp only [termF, h]

theorem expF_step (n : Nat) (p p1 : ParserSt) (t : AST) (r : PRes)
    (h1 : termF n p = some (.ok (t, p1))) (h2 : expRF n t p1 = r) :
    expF (n + 1) p = r := by
  simp only [expF, h1]; exact h2

theorem expF_err (n : Nat) (p : ParserSt) (e : Err)
    (h : termF n p = some (.error e)) : expF (n + 1) p = some (.error e) := by
  simp only [expF, h]

theorem programF_step (n : Nat) (p p1 : ParserSt) (a : AST)
    (h : expF n p = some (.ok (a, p1))) :
    programF (n + 1) p = some (.ok (a, p1)) := by
  simp only [programF, h, semi]

theorem programF_err (n : Nat) (p : ParserSt) (e : Err)
    (h : expF n p = some (.error e)) : programF (n + 1) p = some (.error e) := by
  simp only [programF, h]

theorem expRF_plus_step (n : Nat) (t s : AST) (p p1 p2 : ParserSt) (r : PRes)
    (hp : p.tok = .Plus) (hg : pGetToken p = .ok p1)
    (h1 : termF n p1 = some (.ok (s, p2)))
    (h2 : expRF n (.Plus t s) p2 = r) :
    expRF (n + 1) t p = r := by
  have he : eat .Plus p = .ok p1 := by simp only [eat, hp, if_pos]; exact hg
  simp only [expRF, hp, he, h1]; exact h2

theorem expRF_plus_step_err (n : Nat) (t : AST) (p p1 : ParserSt) (e : Err)
    (hp : p.tok = .Plus) (hg : pGetToken p = .ok p1)
    (h1 : termF n p1 = some (.error e)) :
    expRF (n + 1) t p = some (.error e) := by
  have he : eat .Plus p = .ok p1 := by simp only [eat, hp, if_pos]; exact hg
  simp only [expRF, hp, he, h1]

theorem expRF_minus_step (n : Nat) (t s : AST) (p p1 p2 : ParserSt) (r : PRes)
    (hp : p.tok = .Minus) (hg : pGetToken p = .ok p1)
    (h1 : termF n p1 = some (.ok (s, p2)))
    (h2 : expRF n (.Minus t s) p2 = r) :
    expRF (n + 1) t p = r := by
  have he : eat .Minus p = .ok p1 := by simp only [eat, hp, if_pos]; exact hg
  simp only [expRF, hp, he, h1]; exact h2

theorem expRF_minus_step_err (n : Nat) (t : AST) (p p1 : ParserSt) (e : Err)
    (hp : p.tok = .Minus) (hg : pGetToken p = .ok p1)
    (h1 : termF n p1 = some (.error e)) :
    expRF (n + 1) t p = some (.error e) := by
  have he : eat .Minus p = .ok p1 := by simp only [eat, hp, if_pos]; exact hg
  simp only [expRF, hp, he, h1]

theorem termRF_times_step (n : Nat) (f g : AST) (p p1 p2 : ParserSt) (r : PRes)
    (hp : p.tok = .Times) (hg : pGetToken p = .ok p1)
    (h1 : factorF n p1 = some (.ok (g, p2)))
    (h2 : termRF n (.Times f g) p2 = r) :
    termRF (n + 1) f p = r := by
  have he : eat .Times p = .ok p1 := by simp only [eat, hp, if_pos]; exact hg
  simp only [termRF, hp, he, h1]; exact h2

theorem termRF_times_step_err (n : Nat) (f : AST) (p p1 : ParserSt) (e : Err)
    (hp : p.tok = .Times) (hg : pGetToken p = .ok p1)
    (h1 : factorF n p1 = some (.error e)) :
    termRF (n + 1) f p = some (.error e) := by
  have he : eat .Times p = .ok p1 := by simp only [eat, hp, if_pos]; exact hg
  simp only [termRF, hp, he, h1]

theorem termRF_div_step (n : Nat) (f g : AST) (p p1 p2 : ParserSt) (r : PRes)
    (hp : p.tok = .Divide) (hg : pGetToken p = .ok p1)
    (h1 : factorF n p1 = some (.ok (g, p2)))
    (h2 : termRF n (.Divide f g) p2 = r) :
    termRF (n + 1) f p = r := by
  have he : eat .Divide p = .ok p1 := by simp only [eat, hp, if_pos]; exact hg
  simp only [termRF, hp, he, h1]; exact h2

theorem termRF_div_step_err (n : Nat) (f : AST) (p p1 : ParserSt) (e : Err)
    (hp : p.tok = .Divide) (hg : pGetToken p = .ok p1)
    (h1 : factorF n p1 = some (.error e)) :
    termRF (n + 1) f p = some (.error e) := by
  have he : eat .Divide p = .ok p1 := by simp only [eat, hp, if_pos]; exact hg
  simp only [termRF, hp, he, h1]

theorem factor_num_step (n : Nat) (ds : List Char) (p p1 : ParserSt) (v : Int)
    (hp : p.tok = .Num ds) (hg : pGetToken p = .ok p1)
    (hv : parseI32 ds = .ok v) :
    factorF (n + 1) p = some (.ok (.Num v, p1)) := by
  simp only [factorF, hp, hg, hv]

theorem factor_paren_step (n : Nat) (a : AST) (p p1 p2 p3 : ParserSt)
    (hp : p.tok = .LParen) (hg : pGetToken p = .ok p1)
    (h1 : expF n p1 = some (.ok (a, p2)))
    (hq : p2.tok = .RParen) (hg2 : pGetToken p2 = .ok p3) :
    factorF (n + 1) p = some (.ok (a, p3)) := by
  have he : eat .LParen p = .ok p1 := by simp only [eat, hp, if_pos]; exact hg
  have he2 : eat .RParen p2 = .ok p3 := by simp only [eat, hq, if_pos]; exact hg2
  simp only [factorF, hp, he, h1, he2]

theorem factor_lparen_err (n : Nat) (p p1 : ParserSt) (e : Err)
    (hp : p.tok = .LParen) (hg : pGetToken p = .ok p1)
    (h1 : expF n p1 = some (.error e)) :
    factorF (n + 1) p = some (.error e) := by
  have he : eat .LParen p = .ok p1 := by simp only [eat, hp, if_pos]; exact hg
  simp only [factorF, hp, he, h1]

theorem mainRun_ok (fuel : Nat) (input : List (List Char)) (t : Token)
    (st1 : LexState) (a : AST) (p : ParserSt) (v : Int)
    (hg : getToken (lexerNew input) = .ok (t, st1))
    (hp : programF fuel ⟨t, st1⟩ = some (.ok (a, p)))
    (he : evaluate a = .ok v) :
    mainRun fuel input = some ([.prompt, .result v], none) := by
  simp only [mainRun, hg, hp, he]

theorem mainRun_evalErr (fuel : Nat) (input : List (List Char)) (t : Token)
    (st1 : LexState) (a : AST) (p : ParserSt) (e : Err)
    (hg : getToken (lexerNew input) = .ok (t, st1))
    (hp : programF fuel ⟨t, st1⟩ = some (.ok (a, p)))
    (he : evaluate a = .error e) :
    mainRun fuel input = some ([.prompt], some e) := by
  simp only [mainRun, hg, hp, he]

theorem mainRun_parseErr (fuel : Nat) (input : List (List Char)) (t : Token)
    (st1 : LexState) (e : Err)
    (hg : getToken (lexerNew input) = .ok (t, st1))
    (hp : programF fuel ⟨t, st1⟩ = some (.error e)) :
    mainRun fuel input = some ([.prompt], some e) := by
  simp only [mainRun, hg, hp]

theorem mainRun_preErr (fuel : Nat) (input : List (List Char)) (e : Err)
    (hg : getToken (lexerNew input) = .error e) :
    mainRun fuel input = some ([], some e) := by
  simp only [mainRun, hg]

theorem mainReads_ok (fuel : Nat) (input : List (List Char)) (t : Token)
    (st1 : LexState) (a : AST) (p : ParserSt)
    (hg : getToken (lexerNew input) = .ok (t, st1))
    (hp : programF fuel ⟨t, st1⟩ = some (.ok (a, p))) :
    mainReads fuel input = some p.lex.reads := by
  simp only [mainReads, hg, hp]

theorem parseAST_ok (fuel : Nat) (input : List (List Char)) (t : Token)
    (st1 : LexState) (a : AST) (p : ParserSt)
    (hg : getToken (lexerNew input) = .ok (t, st1))
    (hp : programF fuel ⟨t, st1⟩ = some (.ok (a, p))) :
    parseAST fuel input = some (.ok a) := by
  simp only [parseAST, hg, hp]
example :
    mainRun 30 ["8-3-2;\n".toList] = some ([.prompt, .result (3)], none) := by
  have h1 : getToken (lexerNew ["8-3-2;\n".toList]) = .ok (Token.Num ['8'], ⟨"8-3-2;\n".toList, 1, [], 1⟩) := by decide
  have h2 : pGetToken (⟨Token.Num ['8'], ⟨"8-3-2;\n".toList, 1, [], 1⟩⟩ : ParserSt) = .ok (⟨Token.Minus, ⟨"8-3-2;\n".toList, 2, [], 1⟩⟩ : ParserSt) := by decide
  have h3 : factorF 27 (⟨Token.Num ['8'], ⟨"8-3-2;\n".toList, 1, [], 1⟩⟩ : ParserSt) = some (.ok ((AST.Num 8), (⟨Token.Minus, ⟨"8-3-2;\n".toList, 2, [], 1⟩⟩ : ParserSt))) := by decide
  have h4 : termRF 27 (AST.Num 8) (⟨Token.Minus, ⟨"8-3-2;\n".toList, 2, [], 1⟩⟩ : ParserSt) = some (.ok ((AST.Num 8), (⟨Token.Minus, ⟨"8-3-2;\n".toList, 2, [], 1⟩⟩ : ParserSt))) := by decide
  have h5 : termF 28 (⟨Token.Num ['8'], ⟨"8-3-2;\n".toList, 1, [], 1⟩⟩ : ParserSt) = some (.ok ((AST.Num 8), (⟨Token.Minus, ⟨"8-3-2;\n".toList, 2, [], 1⟩⟩ : ParserSt))) := termF_step 27 _ _ _ _ h3 h4
  have h6 : pGetToken (⟨Token.Minus, ⟨"8-3-2;\n".toList, 2, [], 1⟩⟩ : ParserSt) = .ok (⟨Token.Num ['3'], ⟨"8-3-2;\n".toList, 3, [], 1⟩⟩ : ParserSt) := by decide
  have h7 : pGetToken (⟨Token.Num ['3'], ⟨"8-3-2;\n".toList, 3, [], 1⟩⟩ : ParserSt) = .ok (⟨Token.Minus, ⟨"8-3-2;\n".toList, 4, [], 1⟩⟩ : ParserSt) := by decide
  have h8 : factorF 26 (⟨Token.Num ['3'], ⟨"8-3-2;\n".toList, 3, [], 1⟩⟩ : ParserSt) = some (.ok ((AST.Num 3), (⟨Token.Minus, ⟨"8-3-2;\n".toList, 4, [], 1⟩⟩ : ParserSt))) := by decide
  have h9 : termRF 26 (AST.Num 3) (⟨Token.Minus, ⟨"8-3-2;\n".toList, 4, [], 1⟩⟩ : ParserSt) = some (.ok ((AST.Num 3), (⟨Token.Minus, ⟨"8-3-2;\n".toList, 4, [], 1⟩⟩ : ParserSt))) := by decide
  have h10 : termF 27 (⟨Token.Num ['3'], ⟨"8-3-2;\n".toList, 3, [], 1⟩⟩ : ParserSt) = some (.ok ((AST.Num 3), (⟨Token.Minus, ⟨"8-3-2;\n".toList, 4, [], 1⟩⟩ : ParserSt))) := termF_step 26 _ _ _ _ h8 h9
  have h11 : pGetToken (⟨Token.Minus, ⟨"8-3-2;\n".toList, 4, [], 1⟩⟩ : ParserSt) = .ok (⟨Token.Num ['2'], ⟨"8-3-2;\n".toList, 5, [], 1⟩⟩ : ParserSt) := by decide
  have h12 : pGetToken (⟨Token.Num ['2'], ⟨"8-3-2;\n".toList, 5, [], 1⟩⟩ : ParserSt) = .ok (⟨Token.Semi, ⟨"8-3-2;\n".toList, 6, [], 1⟩⟩ : ParserSt) := by decide
  have h13 : factorF 25 (⟨Token.Num ['2'], ⟨"8-3-2;\n".toList, 5, [], 1⟩⟩ : ParserSt) = some (.ok ((AST.Num 2), (⟨Token.Semi, ⟨"8-3-2;\n".toList, 6, [], 1⟩⟩ : ParserSt))) := by decide
  have h14 : termRF 25 (AST.Num 2) (⟨Token.Semi, ⟨"8-3-2;\n".toList, 6, [], 1⟩⟩ : ParserSt) = some (.ok ((AST.Num 2), (⟨Token.Semi, ⟨"8-3-2;\n".toList, 6, [], 1⟩⟩ : ParserSt))) := by decide
  have h15 : termF 26 (⟨Token.Num ['2'], ⟨"8-3-2;\n".toList, 5, [], 1⟩⟩ : ParserSt) = some (.ok ((AST.Num 2), (⟨Token.Semi, ⟨"8-3-2;\n".toList, 6, [], 1⟩⟩ : ParserSt))) := termF_step 25 _ _ _ _ h13 h14
  have h16 : expRF 26 (AST.Minus (AST.Minus (AST.Num 8) (AST.Num 3)) (AST.Num 2)) (⟨Token.Semi, ⟨"8-3-2;\n".toList, 6, [], 1⟩⟩ : ParserSt) = some (.ok ((AST.Minus (AST.Minus (AST.Num 8) (AST.Num 3)) (AST.Num 2)), (⟨Token.Semi, ⟨"8-3-2;\n".toList, 6, [], 1⟩⟩ : ParserSt))) := by decide
  have h17 : expRF 27 (AST.Minus (AST.Num 8) (AST.Num 3)) (⟨Token.Minus, ⟨"8-3-2;\n".toList, 4, [], 1⟩⟩ : ParserSt) = some (.ok ((AST.Minus (AST.Minus (AST.Num 8) (AST.Num 3)) (AST.Num 2)), (⟨Token.Semi, ⟨"8-3-2;\n".toList, 6, [], 1⟩⟩ : ParserSt))) := expRF_minus_step 26 (AST.Minus (AST.Num 8) (AST.Num 3)) (AST.Num 2) _ _ _ _ (by decide) h11 h15 h16
  have h18 : expRF 28 (AST.Num 8) (⟨Token.Minus, ⟨"8-3-2;\n".toList, 2, [], 1⟩⟩ : ParserSt) = some (.ok ((AST.Minus (AST.Minus (AST.Num 8) (AST.Num 3)) (AST.Num 2)), (⟨Token.Semi, ⟨"8-3-2;\n".toList, 6, [], 1⟩⟩ : ParserSt))) := expRF_minus_step 27 (AST.Num 8) (AST.Num 3) _ _ _ _ (by decide) h6 h10 h17
  have h19 : expF 29 (⟨Token.Num ['8'], ⟨"8-3-2;\n".toList, 1, [], 1⟩⟩ : ParserSt) = some (.ok ((AST.Minus (AST.Minus (AST.Num 8) (AST.Num 3)) (AST.Num 2)), (⟨Token.Semi, ⟨"8-3-2;\n".toList, 6, [], 1⟩⟩ : ParserSt))) := expF_step 28 _ _ _ _ h5 h18
  have h20 : programF 30 (⟨Token.Num ['8'], ⟨"8-3-2;\n".toList, 1, [], 1⟩⟩ : ParserSt) = some (.ok ((AST.Minus (AST.Minus (AST.Num 8) (AST.Num 3)) (AST.Num 2)), (⟨Token.Semi, ⟨"8-3-2;\n".toList, 6, [], 1⟩⟩ : ParserSt))) := programF_step 29 _ _ _ h19
  have hev : evaluate (AST.Minus (AST.Minus (AST.Num 8) (AST.Num 3)) (AST.Num 2)) = .ok (3) := by decide
  exact mainRun_ok 30 _ _ _ _ _ _ h1 h20 hev

/-- Claim C1, counterexample: both literals `2147483647` and `1` fit in
`i32`, yet the printed result of `2147483647+1;` is the wrapped value
`-2147483648`, not the exact arithmetic result `2147483648` — the claim as
stated fails on overflowing `+` (and `*`). -/
theorem claim_C1_counterexample :
    mainRun 30 ["2147483647+1;\n".toList] = some ([.prompt, .result (-2147483648)], none) ∧
    (-2147483648 : Int) ≠ 2147483647 + 1 := by
  have a1 : getToken (lexerNew ["2147483647+1;\n".toList]) = .ok (Token.Num ['2', '1', '4', '7', '4', '8', '3', '6', '4', '7'], ⟨"2147483647+1;\n".toList, 10, [], 1⟩) := by decide
  have a2 : pGetToken (⟨Token.Num ['2', '1', '4', '7', '4', '8', '3', '6', '4', '7'], ⟨"2147483647+1;\n".toList, 10, [], 1⟩⟩ : ParserSt) = .ok (⟨Token.Plus, ⟨"2147483647+1;\n".toList, 11, [], 1⟩⟩ : ParserSt) := by decide
  have a3 : factorF 27 (⟨Token.Num ['2', '1', '4', '7', '4', '8', '3', '6', '4', '7'], ⟨"2147483647+1;\n".toList, 10, [], 1⟩⟩ : ParserSt) = some (.ok ((AST.Num 2147483647), (⟨Token.Plus, ⟨"2147483647+1;\n".toList, 11, [], 1⟩⟩ : ParserSt))) := by decide
  have a4 : termRF 27 (AST.Num 2147483647) (⟨Token.Plus, ⟨"2147483647+1;\n".toList, 11, [], 1⟩⟩ : ParserSt) = some (.ok ((AST.Num 2147483647), (⟨Token.Plus, ⟨"2147483647+1;\n".toList, 11, [], 1⟩⟩ : ParserSt))) := by decide
  have a5 : termF 28 (⟨Token.Num ['2', '1', '4', '7', '4', '8', '3', '6', '4', '7'], ⟨"2147483647+1;\n".toList, 10, [], 1⟩⟩ : ParserSt) = some (.ok ((AST.Num 2147483647), (⟨Token.Plus, ⟨"2147483647+1;\n".toList, 11, [], 1⟩⟩ : ParserSt))) := termF_step 27 _ _ _ _ a3 a4
  have a6 : pGetToken (⟨Token.Plus, ⟨"2147483647+1;\n".toList, 11, [], 1⟩⟩ : ParserSt) = .ok (⟨Token.Num ['1'], ⟨"2147483647+1;\n".toList, 12, [], 1⟩⟩ : ParserSt) := by decide
  have a7 : pGetToken (⟨Token.Num ['1'], ⟨"2147483647+1;\n".toList, 12, [], 1⟩⟩ : ParserSt) = .ok (⟨Token.Semi, ⟨"2147483647+1;\n".toList, 13, [], 1⟩⟩ : ParserSt) := by decide
  have a8 : factorF 26 (⟨Token.Num ['1'], ⟨"2147483647+1;\n".toList, 12, [], 1⟩⟩ : ParserSt) = some (.ok ((AST.Num 1), (⟨Token.Semi, ⟨"2147483647+1;\n".toList, 13, [], 1⟩⟩ : ParserSt))) := by decide
  have a9 : termRF 26 (AST.Num 1) (⟨Token.Semi, ⟨"2147483647+1;\n".toList, 13, [], 1⟩⟩ : ParserSt) = some (.ok ((AST.Num 1), (⟨Token.Semi, ⟨"2147483647+1;\n".toList, 13, [], 1⟩⟩ : ParserSt))) := by decide
  have a10 : termF 27 (⟨Token.Num ['1'], ⟨"2147483647+1;\n".toList, 12, [], 1⟩⟩ : ParserSt) = some (.ok ((AST.Num 1), (⟨Token.Semi, ⟨"2147483647+1;\n".toList, 13, [], 1⟩⟩ : ParserSt))) := termF_step 26 _ _ _ _ a8 a9
  have a11 : expRF 27 (AST.Plus (AST.Num 2147483647) (AST.Num 1)) (⟨Token.Semi, ⟨"2147483647+1;\n".toList, 13, [], 1⟩⟩ : ParserSt) = some (.ok ((AST.Plus (AST.Num 2147483647) (AST.Num 1)), (⟨Token.Semi, ⟨"2147483647+1;\n".toList, 13, [], 1⟩⟩ : ParserSt))) := by decide
  have a12 : expRF 28 (AST.Num 2147483647) (⟨Token.Plus, ⟨"2147483647+1;\n".toList, 11, [], 1⟩⟩ : ParserSt) = some (.ok ((AST.Plus (AST.Num 2147483647) (AST.Num 1)), (⟨Token.Semi, ⟨"2147483647+1;\n".toList, 13, [], 1⟩⟩ : ParserSt))) := expRF_plus_step 27 (AST.Num 2147483647) (AST.Num 1) _ _ _ _ (by decide) a6 a10 a11
  have a13 : expF 29 (⟨Token.Num ['2', '1', '4', '7', '4', '8', '3', '6', '4', '7'], ⟨"2147483647+1;\n".toList, 10, [], 1⟩⟩ : ParserSt) = some (.ok ((AST.Plus (AST.Num 2147483647) (AST.Num 1)), (⟨Token.Semi, ⟨"2147483647+1;\n".toList, 13, [], 1⟩⟩ : ParserSt))) := expF_step 28 _ _ _ _ a5 a12
  have a14 : programF 30 (⟨Token.Num ['2', '1', '4', '7', '4', '8', '3', '6', '4', '7'], ⟨"2147483647+1;\n".toList, 10, [], 1⟩⟩ : ParserSt) = some (.ok ((AST.Plus (AST.Num 2147483647) (AST.Num 1)), (⟨Token.Semi, ⟨"2147483647+1;\n".toList, 13, [], 1⟩⟩ : ParserSt))) := programF_step 29 _ _ _ a13
  have aEV : evaluate (AST.Plus (AST.Num 2147483647) (AST.Num 1)) = .ok (-2147483648) := by decide
  have aRUN : mainRun 30 ["2147483647+1;\n".toList] = some ([.prompt, .result (-2147483648)], none) := mainRun_ok 30 _ _ _ _ _ _ a1 a14 aEV
  exact ⟨aRUN, by decide⟩

/-- Claim C2, counterexample: the statement `1+1)` is not terminated by
`;`, yet no syntax error is raised and its result `2` is printed —
`Parser::semi` never checks the lookahead, so the claimed fatal
missing-terminator error does not exist. -/
theorem claim_C2_counterexample :
    mainRun 30 ["1+1)\n".toList] = some ([.prompt, .result (2)], none) := by
  have a1 : getToken (lexerNew ["1+1)\n".toList]) = .ok (Token.Num ['1'], ⟨"1+1)\n".toList, 1, [], 1⟩) := by decide
  have a2 : pGetToken (⟨Token.Num ['1'], ⟨"1+1)\n".toList, 1, [], 1⟩⟩ : ParserSt) = .ok (⟨Token.Plus, ⟨"1+1)\n".toList, 2, [], 1⟩⟩ : ParserSt) := by decide
  have a3 : factorF 27 (⟨Token.Num ['1'], ⟨"1+1)\n".toList, 1, [], 1⟩⟩ : ParserSt) = some (.ok ((AST.Num 1), (⟨Token.Plus, ⟨"1+1)\n".toList, 2, [], 1⟩⟩ : ParserSt))) := by decide
  have a4 : termRF 27 (AST.Num 1) (⟨Token.Plus, ⟨"1+1)\n".toList, 2, [], 1⟩⟩ : ParserSt) = some (.ok ((AST.Num 1), (⟨Token.Plus, ⟨"1+1)\n".toList, 2, [], 1⟩⟩ : ParserSt))) := by decide
  have a5 : termF 28 (⟨Token.Num ['1'], ⟨"1+1)\n".toList, 1, [], 1⟩⟩ : ParserSt) = some (.ok ((AST.Num 1), (⟨Token.Plus, ⟨"1+1)\n".toList, 2, [], 1⟩⟩ : ParserSt))) := termF_step 27 _ _ _ _ a3 a4
  have a6 : pGetToken (⟨Token.Plus, ⟨"1+1)\n".toList, 2, [], 1⟩⟩ : ParserSt) = .ok (⟨Token.Num ['1'], ⟨"1+1)\n".toList, 3, [], 1⟩⟩ : ParserSt) := by decide
  have a7 : pGetToken (⟨Token.Num ['1'], ⟨"1+1)\n".toList, 3, [], 1⟩⟩ : ParserSt) = .ok (⟨Token.RParen, ⟨"1+1)\n".toList, 4, [], 1⟩⟩ : ParserSt) := by decide
  have a8 : factorF 26 (⟨Token.Num ['1'], ⟨"1+1)\n".toList, 3, [], 1⟩⟩ : ParserSt) = some (.ok ((AST.Num 1), (⟨Token.RParen, ⟨"1+1)\n".toList, 4, [], 1⟩⟩ : ParserSt))) := by decide
  have a9 : termRF 26 (AST.Num 1) (⟨Token.RParen, ⟨"1+1)\n".toList, 4, [], 1⟩⟩ : ParserSt) = some (.ok ((AST.Num 1), (⟨Token.RParen, ⟨"1+1)\n".toList, 4, [], 1⟩⟩ : ParserSt))) := by decide
  have a10 : termF 27 (⟨Token.Num ['1'], ⟨"1+1)\n".toList, 3, [], 1⟩⟩ : ParserSt) = some (.ok ((AST.Num 1), (⟨Token.RParen, ⟨"1+1)\n".toList, 4, [], 1⟩⟩ : ParserSt))) := termF_step 26 _ _ _ _ a8 a9
  have a11 : expRF 27 (AST.Plus (AST.Num 1) (AST.Num 1)) (⟨Token.RParen, ⟨"1+1)\n".toList, 4, [], 1⟩⟩ : ParserSt) = some (.ok ((AST.Plus (AST.Num 1) (AST.Num 1)), (⟨Token.RParen, ⟨"1+1)\n".toList, 4, [], 1⟩⟩ : ParserSt))) := by decide
  have a12 : expRF 28 (AST.Num 1) (⟨Token.Plus, ⟨"1+1)\n".toList, 2, [], 1⟩⟩ : ParserSt) = some (.ok ((AST.Plus (AST.Num 1) (AST.Num 1)), (⟨Token.RParen, ⟨"1+1)\n".toList, 4, [], 1⟩⟩ : ParserSt))) := expRF_plus_step 27 (AST.Num 1) (AST.Num 1) _ _ _ _ (by decide) a6 a10 a11
  have a13 : expF 29 (⟨Token.Num ['1'], ⟨"1+1)\n".toList, 1, [], 1⟩⟩ : ParserSt) = some (.ok ((AST.Plus (AST.Num 1) (AST.Num 1)), (⟨Token.RParen, ⟨"1+1)\n".toList, 4, [], 1⟩⟩ : ParserSt))) := expF_step 28 _ _ _ _ a5 a12
  have a14 : programF 30 (⟨Token.Num ['1'], ⟨"1+1)\n".toList, 1, [], 1⟩⟩ : ParserSt) = some (.ok ((AST.Plus (AST.Num 1) (AST.Num 1)), (⟨Token.RParen, ⟨"1+1)\n".toList, 4, [], 1⟩⟩ : ParserSt))) := programF_step 29 _ _ _ a13
  have aEV : evaluate (AST.Plus (AST.Num 1) (AST.Num 1)) = .ok (2) := by decide
  have aRUN : mainRun 30 ["1+1)\n".toList] = some ([.prompt, .result (2)], none) := mainRun_ok 30 _ _ _ _ _ _ a1 a14 aEV
  exact aRUN

/-- Claim C2, amended: the parser never checks the statement terminator;
`Parser::semi` returns the expression unchanged, so a statement whose
expression is followed by a token other than `;` (and other than an
operator continuing the expression) behaves exactly as if it were
terminated by `;`: the run on `1+1)` equals the run on `1+1;`. -/
theorem claim_C2 :
    mainRun 30 ["1+1)\n".toList] = mainRun 30 ["1+1;\n".toList] := by
  have a1 : getToken (lexerNew ["1+1)\n".toList]) = .ok (Token.Num ['1'], ⟨"1+1)\n".toList, 1, [], 1⟩) := by decide
  have a2 : pGetToken (⟨Token.Num ['1'], ⟨"1+1)\n".toList, 1, [], 1⟩⟩ : ParserSt) = .ok (⟨Token.Plus, ⟨"1+1)\n".toList, 2, [], 1⟩⟩ : ParserSt) := by decide
  have a3 : factorF 27 (⟨Token.Num ['1'], ⟨"1+1)\n".toList, 1, [], 1⟩⟩ : ParserSt) = some (.ok ((AST.Num 1), (⟨Token.Plus, ⟨"1+1)\n".toList, 2, [], 1⟩⟩ : ParserSt))) := by decide
  have a4 : termRF 27 (AST.Num 1) (⟨Token.Plus, ⟨"1+1)\n".toList, 2, [], 1⟩⟩ : ParserSt) = some (.ok ((AST.Num 1), (⟨Token.Plus, ⟨"1+1)\n".toList, 2, [], 1⟩⟩ : ParserSt))) := by decide
  have a5 : termF 28 (⟨Token.Num ['1'], ⟨"1+1)\n".toList, 1, [], 1⟩⟩ : ParserSt) = some (.ok ((AST.Num 1), (⟨Token.Plus, ⟨"1+1)\n".toList, 2, [], 1⟩⟩ : ParserSt))) := termF_step 27 _ _ _ _ a3 a4
  have a6 : pGetToken (⟨Token.Plus, ⟨"1+1)\n".toList, 2, [], 1⟩⟩ : ParserSt) = .ok (⟨Token.Num ['1'], ⟨"1+1)\n".toList, 3, [], 1⟩⟩ : ParserSt) := by decide
  have a7 : pGetToken (⟨Token.Num ['1'], ⟨"1+1)\n".toList, 3, [], 1⟩⟩ : ParserSt) = .ok (⟨Token.RParen, ⟨"1+1)\n".toList, 4, [], 1⟩⟩ : ParserSt) := by decide
  have a8 : factorF 26 (⟨Token.Num ['1'], ⟨"1+1)\n".toList, 3, [], 1⟩⟩ : ParserSt) = some (.ok ((AST.Num 1), (⟨Token.RParen, ⟨"1+1)\n".toList, 4, [], 1⟩⟩ : ParserSt))) := by decide
  have a9 : termRF 26 (AST.Num 1) (⟨Token.RParen, ⟨"1+1)\n".toList, 4, [], 1⟩⟩ : ParserSt) = some (.ok ((AST.Num 1), (⟨Token.RParen, ⟨"1+1)\n".toList, 4, [], 1⟩⟩ : ParserSt))) := by decide
  have a10 : termF 27 (⟨Token.Num ['1'], ⟨"1+1)\n".toList, 3, [], 1⟩⟩ : ParserSt) = some (.ok ((AST.Num 1), (⟨Token.RParen, ⟨"1+1)\n".toList, 4, [], 1⟩⟩ : ParserSt))) := termF_step 26 _ _ _ _ a8 a9
  have a11 : expRF 27 (AST.Plus (AST.Num 1) (AST.Num 1)) (⟨Token.RParen, ⟨"1+1)\n".toList, 4, [], 1⟩⟩ : ParserSt) = some (.ok ((AST.Plus (AST.Num 1) (AST.Num 1)), (⟨Token.RParen, ⟨"1+1)\n".toList, 4, [], 1⟩⟩ : ParserSt))) := by decide
  have a12 : expRF 28 (AST.Num 1) (⟨Token.Plus, ⟨"1+1)\n".toList, 2, [], 1⟩⟩ : ParserSt) = some (.ok ((AST.Plus (AST.Num 1) (AST.Num 1)), (⟨Token.RParen, ⟨"1+1)\n".toList, 4, [], 1⟩⟩ : ParserSt))) := expRF_plus_step 27 (AST.Num 1) (AST.Num 1) _ _ _ _ (by decide) a6 a10 a11
  have a13 : expF 29 (⟨Token.Num ['1'], ⟨"1+1)\n".toList, 1, [], 1⟩⟩ : ParserSt) = some (.ok ((AST.Plus (AST.Num 1) (AST.Num 1)), (⟨Token.RParen, ⟨"1+1)\n".toList, 4, [], 1⟩⟩ : ParserSt))) := expF_step 28 _ _ _ _ a5 a12
  have a14 : programF 30 (⟨Token.Num ['1'], ⟨"1+1)\n".toList, 1, [], 1⟩⟩ : ParserSt) = some (.ok ((AST.Plus (AST.Num 1) (AST.Num 1)), (⟨Token.RParen, ⟨"1+1)\n".toList, 4, [], 1⟩⟩ : ParserSt))) := programF_step 29 _ _ _ a13
  have aEV : evaluate (AST.Plus (AST.Num 1) (AST.Num 1)) = .ok (2) := by decide
  have aRUN : mainRun 30 ["1+1)\n".toList] = some ([.prompt, .result (2)], none) := mainRun_ok 30 _ _ _ _ _ _ a1 a14 aEV
  have b1 : getToken (lexerNew ["1+1;\n".toList]) = .ok (Token.Num ['1'], ⟨"1+1;\n".toList, 1, [], 1⟩) := by decide
  have b2 : pGetToken (⟨Token.Num ['1'], ⟨"1+1;\n".toList, 1, [], 1⟩⟩ : ParserSt) = .ok (⟨Token.Plus, ⟨"1+1;\n".toList, 2, [], 1⟩⟩ : ParserSt) := by decide
  have b3 : factorF 27 (⟨Token.Num ['1'], ⟨"1+1;\n".toList, 1, [], 1⟩⟩ : ParserSt) = some (.ok ((AST.Num 1), (⟨Token.Plus, ⟨"1+1;\n".toList, 2, [], 1⟩⟩ : ParserSt))) := by decide
  have b4 : termRF 27 (AST.Num 1) (⟨Token.Plus, ⟨"1+1;\n".toList, 2, [], 1⟩⟩ : ParserSt) = some (.ok ((AST.Num 1), (⟨Token.Plus, ⟨"1+1;\n".toList, 2, [], 1⟩⟩ : ParserSt))) := by decide
  have b5 : termF 28 (⟨Token.Num ['1'], ⟨"1+1;\n".toList, 1, [], 1⟩⟩ : ParserSt) = some (.ok ((AST.Num 1), (⟨Token.Plus, ⟨"1+1;\n".toList, 2, [], 1⟩⟩ : ParserSt))) := termF_step 27 _ _ _ _ b3 b4
  have b6 : pGetToken (⟨Token.Plus, ⟨"1+1;\n".toList, 2, [], 1⟩⟩ : ParserSt) = .ok (⟨Token.Num ['1'], ⟨"1+1;\n".toList, 3, [], 1⟩⟩ : ParserSt) := by decide
  have b7 : pGetToken (⟨Token.Num ['1'], ⟨"1+1;\n".toList, 3, [], 1⟩⟩ : ParserSt) = .ok (⟨Token.Semi, ⟨"1+1;\n".toList, 4, [], 1⟩⟩ : ParserSt) := by decide
  have b8 : factorF 26 (⟨Token.Num ['1'], ⟨"1+1;\n".toList, 3, [], 1⟩⟩ : ParserSt) = some (.ok ((AST.Num 1), (⟨Token.Semi, ⟨"1+1;\n".toList, 4, [], 1⟩⟩ : ParserSt))) := by decide
  have b9 : termRF 26 (AST.Num 1) (⟨Token.Semi, ⟨"1+1;\n".toList, 4, [], 1⟩⟩ : ParserSt) = some (.ok ((AST.Num 1), (⟨Token.Semi, ⟨"1+1;\n".toList, 4, [], 1⟩⟩ : ParserSt))) := by decide
  have b10 : termF 27 (⟨Token.Num ['1'], ⟨"1+1;\n".toList, 3, [], 1⟩⟩ : ParserSt) = some (.ok ((AST.Num 1), (⟨Token.Semi, ⟨"1+1;\n".toList, 4, [], 1⟩⟩ : ParserSt))) := termF_step 26 _ _ _ _ b8 b9
  have b11 : expRF 27 (AST.Plus (AST.Num 1) (AST.Num 1)) (⟨Token.Semi, ⟨"1+1;\n".toList, 4, [], 1⟩⟩ : ParserSt) = some (.ok ((AST.Plus (AST.Num 1) (AST.Num 1)), (⟨Token.Semi, ⟨"1+1;\n".toList, 4, [], 1⟩⟩ : ParserSt))) := by decide
  have b12 : expRF 28 (AST.Num 1) (⟨Token.Plus, ⟨"1+1;\n".toList, 2, [], 1⟩⟩ : ParserSt) = some (.ok ((AST.Plus (AST.Num 1) (AST.Num 1)), (⟨Token.Semi, ⟨"1+1;\n".toList, 4, [], 1⟩⟩ : ParserSt))) := expRF_plus_step 27 (AST.Num 1) (AST.Num 1) _ _ _ _ (by decide) b6 b10 b11
  have b13 : expF 29 (⟨Token.Num ['1'], ⟨"1+1;\n".toList, 1, [], 1⟩⟩ : ParserSt) = some (.ok ((AST.Plus (AST.Num 1) (AST.Num 1)), (⟨Token.Semi, ⟨"1+1;\n".toList, 4, [], 1⟩⟩ : ParserSt))) := expF_step 28 _ _ _ _ b5 b12
  have b14 : programF 30 (⟨Token.Num ['1'], ⟨"1+1;\n".toList, 1, [], 1⟩⟩ : ParserSt) = some (.ok ((AST.Plus (AST.Num 1) (AST.Num 1)), (⟨Token.Semi, ⟨"1+1;\n".toList, 4, [], 1⟩⟩ : ParserSt))) := programF_step 29 _ _ _ b13
  have bEV : evaluate (AST.Plus (AST.Num 1) (AST.Num 1)) = .ok (2) := by decide
  have bRUN : mainRun 30 ["1+1;\n".toList] = some ([.prompt, .result (2)], none) := mainRun_ok 30 _ _ _ _ _ _ b1 b14 bEV
  rw [aRUN, bRUN]

/-- Claim C3, counterexample: on input `1+1;\n2*2;\n` the program prints
the single result line `2` and exits; no line `4` is ever printed, so the
output is not the claimed two lines `2` then `4`. -/
theorem claim_C3_counterexample :
    mainRun 30 ["1+1;\n".toList, "2*2;\n".toList] = some ([.prompt, .result (2)], none) ∧
    Out.result 4 ∉ [Out.prompt, Out.result (2 : Int)] := by
  have a1 : getToken (lexerNew ["1+1;\n".toList, "2*2;\n".toList]) = .ok (Token.Num ['1'], ⟨"1+1;\n".toList, 1, ["2*2;\n".toList], 1⟩) := by decide
  have a2 : pGetToken (⟨Token.Num ['1'], ⟨"1+1;\n".toList, 1, ["2*2;\n".toList], 1⟩⟩ : ParserSt) = .ok (⟨Token.Plus, ⟨"1+1;\n".toList, 2, ["2*2;\n".toList], 1⟩⟩ : ParserSt) := by decide
  have a3 : factorF 27 (⟨Token.Num ['1'], ⟨"1+1;\n".toList, 1, ["2*2;\n".toList], 1⟩⟩ : ParserSt) = some (.ok ((AST.Num 1), (⟨Token.Plus, ⟨"1+1;\n".toList, 2, ["2*2;\n".toList], 1⟩⟩ : ParserSt))) := by decide
  have a4 : termRF 27 (AST.Num 1) (⟨Token.Plus, ⟨"1+1;\n".toList, 2, ["2*2;\n".toList], 1⟩⟩ : ParserSt) = some (.ok ((AST.Num 1), (⟨Token.Plus, ⟨"1+1;\n".toList, 2, ["2*2;\n".toList], 1⟩⟩ : ParserSt))) := by decide
  have a5 : termF 28 (⟨Token.Num ['1'], ⟨"1+1;\n".toList, 1, ["2*2;\n".toList], 1⟩⟩ : ParserSt) = some (.ok ((AST.Num 1), (⟨Token.Plus, ⟨"1+1;\n".toList, 2, ["2*2;\n".toList], 1⟩⟩ : ParserSt))) := termF_step 27 _ _ _ _ a3 a4
  have a6 : pGetToken (⟨Token.Plus, ⟨"1+1;\n".toList, 2, ["2*2;\n".toList], 1⟩⟩ : ParserSt) = .ok (⟨Token.Num ['1'], ⟨"1+1;\n".toList, 3, ["2*2;\n".toList], 1⟩⟩ : ParserSt) := by decide
  have a7 : pGetToken (⟨Token.Num ['1'], ⟨"1+1;\n".toList, 3, ["2*2;\n".toList], 1⟩⟩ : ParserSt) = .ok (⟨Token.Semi, ⟨"1+1;\n".toList, 4, ["2*2;\n".toList], 1⟩⟩ : ParserSt) := by decide
  have a8 : factorF 26 (⟨Token.Num ['1'], ⟨"1+1;\n".toList, 3, ["2*2;\n".toList], 1⟩⟩ : ParserSt) = some (.ok ((AST.Num 1), (⟨Token.Semi, ⟨"1+1;\n".toList, 4, ["2*2;\n".toList], 1⟩⟩ : ParserSt))) := by decide
  have a9 : termRF 26 (AST.Num 1) (⟨Token.Semi, ⟨"1+1;\n".toList, 4, ["2*2;\n".toList], 1⟩⟩ : ParserSt) = some (.ok ((AST.Num 1), (⟨Token.Semi, ⟨"1+1;\n".toList, 4, ["2*2;\n".toList], 1⟩⟩ : ParserSt))) := by decide
  have a10 : termF 27 (⟨Token.Num ['1'], ⟨"1+1;\n".toList, 3, ["2*2;\n".toList], 1⟩⟩ : ParserSt) = some (.ok ((AST.Num 1), (⟨Token.Semi, ⟨"1+1;\n".toList, 4, ["2*2;\n".toList], 1⟩⟩ : ParserSt))) := termF_step 26 _ _ _ _ a8 a9
  have a11 : expRF 27 (AST.Plus (AST.Num 1) (AST.Num 1)) (⟨Token.Semi, ⟨"1+1;\n".toList, 4, ["2*2;\n".toList], 1⟩⟩ : ParserSt) = some (.ok ((AST.Plus (AST.Num 1) (AST.Num 1)), (⟨Token.Semi, ⟨"1+1;\n".toList, 4, ["2*2;\n".toList], 1⟩⟩ : ParserSt))) := by decide
  have a12 : expRF 28 (AST.Num 1) (⟨Token.Plus, ⟨"1+1;\n".toList, 2, ["2*2;\n".toList], 1⟩⟩ : ParserSt) = some (.ok ((AST.Plus (AST.Num 1) (AST.Num 1)), (⟨Token.Semi, ⟨"1+1;\n".toList, 4, ["2*2;\n".toList], 1⟩⟩ : ParserSt))) := expRF_plus_step 27 (AST.Num 1) (AST.Num 1) _ _ _ _ (by decide) a6 a10 a11
  have a13 : expF 29 (⟨Token.Num ['1'], ⟨"1+1;\n".toList, 1, ["2*2;\n".toList], 1⟩⟩ : ParserSt) = some (.ok ((AST.Plus (AST.Num 1) (AST.Num 1)), (⟨Token.Semi, ⟨"1+1;\n".toList, 4, ["2*2;\n".toList], 1⟩⟩ : ParserSt))) := expF_step 28 _ _ _ _ a5 a12
  have a14 : programF 30 (⟨Token.Num ['1'], ⟨"1+1;\n".toList, 1, ["2*2;\n".toList], 1⟩⟩ : ParserSt) = some (.ok ((AST.Plus (AST.Num 1) (AST.Num 1)), (⟨Token.Semi, ⟨"1+1;\n".toList, 4, ["2*2;\n".toList], 1⟩⟩ : ParserSt))) := programF_step 29 _ _ _ a13
  have aEV : evaluate (AST.Plus (AST.Num 1) (AST.Num 1)) = .ok (2) := by decide
  have aRUN : mainRun 30 ["1+1;\n".toList, "2*2;\n".toList] = some ([.prompt, .result (2)], none) := mainRun_ok 30 _ _ _ _ _ _ a1 a14 aEV
  have aRD : mainReads 30 ["1+1;\n".toList, "2*2;\n".toList] = some 1 := mainReads_ok 30 _ _ _ _ _ a1 a14
  exact ⟨aRUN, by decide⟩

/-- Claim C3, amended: `main` processes exactly one statement — it parses
the first statement, prints its result, and exits; on input
`1+1;\n2*2;\n` the output is the single result line `2`, and the second
line is never even read (`read_line` is called exactly once, for the first
line). -/
theorem claim_C3 :
    mainRun 30 ["1+1;\n".toList, "2*2;\n".toList] = some ([.prompt, .result (2)], none) ∧
    mainReads 30 ["1+1;\n".toList, "2*2;\n".toList] = some 1 := by
  have a1 : getToken (lexerNew ["1+1;\n".toList, "2*2;\n".toList]) = .ok (Token.Num ['1'], ⟨"1+1;\n".toList, 1, ["2*2;\n".toList], 1⟩) := by decide
  have a2 : pGetToken (⟨Token.Num ['1'], ⟨"1+1;\n".toList, 1, ["2*2;\n".toList], 1⟩⟩ : ParserSt) = .ok (⟨Token.Plus, ⟨"1+1;\n".toList, 2, ["2*2;\n".toList], 1⟩⟩ : ParserSt) := by decide
  have a3 : factorF 27 (⟨Token.Num ['1'], ⟨"1+1;\n".toList, 1, ["2*2;\n".toList], 1⟩⟩ : ParserSt) = some (.ok ((AST.Num 1), (⟨Token.Plus, ⟨"1+1;\n".toList, 2, ["2*2;\n".toList], 1⟩⟩ : ParserSt))) := by decide
  have a4 : termRF 27 (AST.Num 1) (⟨Token.Plus, ⟨"1+1;\n".toList, 2, ["2*2;\n".toList], 1⟩⟩ : ParserSt) = some (.ok ((AST.Num 1), (⟨Token.Plus, ⟨"1+1;\n".toList, 2, ["2*2;\n".toList], 1⟩⟩ : ParserSt))) := by decide
  have a5 : termF 28 (⟨Token.Num ['1'], ⟨"1+1;\n".toList, 1, ["2*2;\n".toList], 1⟩⟩ : ParserSt) = some (.ok ((AST.Num 1), (⟨Token.Plus, ⟨"1+1;\n".toList, 2, ["2*2;\n".toList], 1⟩⟩ : ParserSt))) := termF_step 27 _ _ _ _ a3 a4
  have a6 : pGetToken (⟨Token.Plus, ⟨"1+1;\n".toList, 2, ["2*2;\n".toList], 1⟩⟩ : ParserSt) = .ok (⟨Token.Num ['1'], ⟨"1+1;\n".toList, 3, ["2*2;\n".toList], 1⟩⟩ : ParserSt) := by decide
  have a7 : pGetToken (⟨Token.Num ['1'], ⟨"1+1;\n".toList, 3, ["2*2;\n".toList], 1⟩⟩ : ParserSt) = .ok (⟨Token.Semi, ⟨"1+1;\n".toList, 4, ["2*2;\n".toList], 1⟩⟩ : ParserSt) := by decide
  have a8 : factorF 26 (⟨Token.Num ['1'], ⟨"1+1;\n".toList, 3, ["2*2;\n".toList], 1⟩⟩ : ParserSt) = some (.ok ((AST.Num 1), (⟨Token.Semi, ⟨"1+1;\n".toList, 4, ["2*2;\n".toList], 1⟩⟩ : ParserSt))) := by decide
  have a9 : termRF 26 (AST.Num 1) (⟨Token.Semi, ⟨"1+1;\n".toList, 4, ["2*2;\n".toList], 1⟩⟩ : ParserSt) = some (.ok ((AST.Num 1), (⟨Token.Semi, ⟨"1+1;\n".toList, 4, ["2*2;\n".toList], 1⟩⟩ : ParserSt))) := by decide
  have a10 : termF 27 (⟨Token.Num ['1'], ⟨"1+1;\n".toList, 3, ["2*2;\n".toList], 1⟩⟩ : ParserSt) = some (.ok ((AST.Num 1), (⟨Token.Semi, ⟨"1+1;\n".toList, 4, ["2*2;\n".toList], 1⟩⟩ : ParserSt))) := termF_step 26 _ _ _ _ a8 a9
  have a11 : expRF 27 (AST.Plus (AST.Num 1) (AST.Num 1)) (⟨Token.Semi, ⟨"1+1;\n".toList, 4, ["2*2;\n".toList], 1⟩⟩ : ParserSt) = some (.ok ((AST.Plus (AST.Num 1) (AST.Num 1)), (⟨Token.Semi, ⟨"1+1;\n".toList, 4, ["2*2;\n".toList], 1⟩⟩ : ParserSt))) := by decide
  have a12 : expRF 28 (AST.Num 1) (⟨Token.Plus, ⟨"1+1;\n".toList, 2, ["2*2;\n".toList], 1⟩⟩ : ParserSt) = some (.ok ((AST.Plus (AST.Num 1) (AST.Num 1)), (⟨Token.Semi, ⟨"1+1;\n".toList, 4, ["2*2;\n".toList], 1⟩⟩ : ParserSt))) := expRF_plus_step 27 (AST.Num 1) (AST.Num 1) _ _ _ _ (by decide) a6 a10 a11
  have a13 : expF 29 (⟨Token.Num ['1'], ⟨"1+1;\n".toList, 1, ["2*2;\n".toList], 1⟩⟩ : ParserSt) = some (.ok ((AST.Plus (AST.Num 1) (AST.Num 1)), (⟨Token.Semi, ⟨"1+1;\n".toList, 4, ["2*2;\n".toList], 1⟩⟩ : ParserSt))) := expF_step 28 _ _ _ _ a5 a12
  have a14 : programF 30 (⟨Token.Num ['1'], ⟨"1+1;\n".toList, 1, ["2*2;\n".toList], 1⟩⟩ : ParserSt) = some (.ok ((AST.Plus (AST.Num 1) (AST.Num 1)), (⟨Token.Semi, ⟨"1+1;\n".toList, 4, ["2*2;\n".toList], 1⟩⟩ : ParserSt))) := programF_step 29 _ _ _ a13
  have aEV : evaluate (AST.Plus (AST.Num 1) (AST.Num 1)) = .ok (2) := by decide
  have aRUN : mainRun 30 ["1+1;\n".toList, "2*2;\n".toList] = some ([.prompt, .result (2)], none) := mainRun_ok 30 _ _ _ _ _ _ a1 a14 aEV
  have aRD : mainReads 30 ["1+1;\n".toList, "2*2;\n".toList] = some 1 := mainReads_ok 30 _ _ _ _ _ a1 a14
  exact ⟨aRUN, aRD⟩

/-- Claim C4: equal-precedence chains are left-associative: `8-3-2;`
parses to the tree `(8-3)-2` — the helper production `exp_` folds the
accumulated value with the next term at each repetition — and prints `3`,
not the right-associated `8-(3-2) = 7`. -/
theorem claim_C4 :
    parseAST 30 ["8-3-2;\n".toList] = some (.ok (AST.Minus (AST.Minus (AST.Num 8) (AST.Num 3)) (AST.Num 2))) ∧
    mainRun 30 ["8-3-2;\n".toList] = some ([.prompt, .result (3)], none) := by
  have a1 : getToken (lexerNew ["8-3-2;\n".toList]) = .ok (Token.Num ['8'], ⟨"8-3-2;\n".toList, 1, [], 1⟩) := by decide
  have a2 : pGetToken (⟨Token.Num ['8'], ⟨"8-3-2;\n".toList, 1, [], 1⟩⟩ : ParserSt) = .ok (⟨Token.Minus, ⟨"8-3-2;\n".toList, 2, [], 1⟩⟩ : ParserSt) := by decide
  have a3 : factorF 27 (⟨Token.Num ['8'], ⟨"8-3-2;\n".toList, 1, [], 1⟩⟩ : ParserSt) = some (.ok ((AST.Num 8), (⟨Token.Minus, ⟨"8-3-2;\n".toList, 2, [], 1⟩⟩ : ParserSt))) := by decide
  have a4 : termRF 27 (AST.Num 8) (⟨Token.Minus, ⟨"8-3-2;\n".toList, 2, [], 1⟩⟩ : ParserSt) = some (.ok ((AST.Num 8), (⟨Token.Minus, ⟨"8-3-2;\n".toList, 2, [], 1⟩⟩ : ParserSt))) := by decide
  have a5 : termF 28 (⟨Token.Num ['8'], ⟨"8-3-2;\n".toList, 1, [], 1⟩⟩ : ParserSt) = some (.ok ((AST.Num 8), (⟨Token.Minus, ⟨"8-3-2;\n".toList, 2, [], 1⟩⟩ : ParserSt))) := termF_step 27 _ _ _ _ a3 a4
  have a6 : pGetToken (⟨Token.Minus, ⟨"8-3-2;\n".toList, 2, [], 1⟩⟩ : ParserSt) = .ok (⟨Token.Num ['3'], ⟨"8-3-2;\n".toList, 3, [], 1⟩⟩ : ParserSt) := by decide
  have a7 : pGetToken (⟨Token.Num ['3'], ⟨"8-3-2;\n".toList, 3, [], 1⟩⟩ : ParserSt) = .ok (⟨Token.Minus, ⟨"8-3-2;\n".toList, 4, [], 1⟩⟩ : ParserSt) := by decide
  have a8 : factorF 26 (⟨Token.Num ['3'], ⟨"8-3-2;\n".toList, 3, [], 1⟩⟩ : ParserSt) = some (.ok ((AST.Num 3), (⟨Token.Minus, ⟨"8-3-2;\n".toList, 4, [], 1⟩⟩ : ParserSt))) := by decide
  have a9 : termRF 26 (AST.Num 3) (⟨Token.Minus, ⟨"8-3-2;\n".toList, 4, [], 1⟩⟩ : ParserSt) = some (.ok ((AST.Num 3), (⟨Token.Minus, ⟨"8-3-2;\n".toList, 4, [], 1⟩⟩ : ParserSt))) := by decide
  have a10 : termF 27 (⟨Token.Num ['3'], ⟨"8-3-2;\n".toList, 3, [], 1⟩⟩ : ParserSt) = some (.ok ((AST.Num 3), (⟨Token.Minus, ⟨"8-3-2;\n".toList, 4, [], 1⟩⟩ : ParserSt))) := termF_step 26 _ _ _ _ a8 a9
  have a11 : pGetToken (⟨Token.Minus, ⟨"8-3-2;\n".toList, 4, [], 1⟩⟩ : ParserSt) = .ok (⟨Token.Num ['2'], ⟨"8-3-2;\n".toList, 5, [], 1⟩⟩ : ParserSt) := by decide
  have a12 : pGetToken (⟨Token.Num ['2'], ⟨"8-3-2;\n".toList, 5, [], 1⟩⟩ : ParserSt) = .ok (⟨Token.Semi, ⟨"8-3-2;\n".toList, 6, [], 1⟩⟩ : ParserSt) := by decide
  have a13 : factorF 25 (⟨Token.Num ['2'], ⟨"8-3-2;\n".toList, 5, [], 1⟩⟩ : ParserSt) = some (.ok ((AST.Num 2), (⟨Token.Semi, ⟨"8-3-2;\n".toList, 6, [], 1⟩⟩ : ParserSt))) := by decide
  have a14 : termRF 25 (AST.Num 2) (⟨Token.Semi, ⟨"8-3-2;\n".toList, 6, [], 1⟩⟩ : ParserSt) = some (.ok ((AST.Num 2), (⟨Token.Semi, ⟨"8-3-2;\n".toList, 6, [], 1⟩⟩ : ParserSt))) := by decide
  have a15 : termF 26 (⟨Token.Num ['2'], ⟨"8-3-2;\n".toList, 5, [], 1⟩⟩ : ParserSt) = some (.ok ((AST.Num 2), (⟨Token.Semi, ⟨"8-3-2;\n".toList, 6, [], 1⟩⟩ : ParserSt))) := termF_step 25 _ _ _ _ a13 a14
  have a16 : expRF 26 (AST.Minus (AST.Minus (AST.Num 8) (AST.Num 3)) (AST.Num 2)) (⟨Token.Semi, ⟨"8-3-2;\n".toList, 6, [], 1⟩⟩ : ParserSt) = some (.ok ((AST.Minus (AST.Minus (AST.Num 8) (AST.Num 3)) (AST.Num 2)), (⟨Token.Semi, ⟨"8-3-2;\n".toList, 6, [], 1⟩⟩ : ParserSt))) := by decide
  have a17 : expRF 27 (AST.Minus (AST.Num 8) (AST.Num 3)) (⟨Token.Minus, ⟨"8-3-2;\n".toList, 4, [], 1⟩⟩ : ParserSt) = some (.ok ((AST.Minus (AST.Minus (AST.Num 8) (AST.Num 3)) (AST.Num 2)), (⟨Token.Semi, ⟨"8-3-2;\n".toList, 6, [], 1⟩⟩ : ParserSt))) := expRF_minus_step 26 (AST.Minus (AST.Num 8) (AST.Num 3)) (AST.Num 2) _ _ _ _ (by decide) a11 a15 a16
  have a18 : expRF 28 (AST.Num 8) (⟨Token.Minus, ⟨"8-3-2;\n".toList, 2, [], 1⟩⟩ : ParserSt) = some (.ok ((AST.Minus (AST.Minus (AST.Num 8) (AST.Num 3)) (AST.Num 2)), (⟨Token.Semi, ⟨"8-3-2;\n".toList, 6, [], 1⟩⟩ : ParserSt))) := expRF_minus_step 27 (AST.Num 8) (AST.Num 3) _ _ _ _ (by decide) a6 a10 a17
  have a19 : expF 29 (⟨Token.Num ['8'], ⟨"8-3-2;\n".toList, 1, [], 1⟩⟩ : ParserSt) = some (.ok ((AST.Minus (AST.Minus (AST.Num 8) (AST.Num 3)) (AST.Num 2)), (⟨Token.Semi, ⟨"8-3-2;\n".toList, 6, [], 1⟩⟩ : ParserSt))) := expF_step 28 _ _ _ _ a5 a18
  have a20 : programF 30 (⟨Token.Num ['8'], ⟨"8-3-2;\n".toList, 1, [], 1⟩⟩ : ParserSt) = some (.ok ((AST.Minus (AST.Minus (AST.Num 8) (AST.Num 3)) (AST.Num 2)), (⟨Token.Semi, ⟨"8-3-2;\n".toList, 6, [], 1⟩⟩ : ParserSt))) := programF_step 29 _ _ _ a19
  have aEV : evaluate (AST.Minus (AST.Minus (AST.Num 8) (AST.Num 3)) (AST.Num 2)) = .ok (3) := by decide
  have aRUN : mainRun 30 ["8-3-2;\n".toList] = some ([.prompt, .result (3)], none) := mainRun_ok 30 _ _ _ _ _ _ a1 a20 aEV
  have aAST : parseAST 30 ["8-3-2;\n".toList] = some (.ok (AST.Minus (AST.Minus (AST.Num 8) (AST.Num 3)) (AST.Num 2))) := parseAST_ok 30 _ _ _ _ _ a1 a20
  exact ⟨aAST, aRUN⟩

/-- Claim C5: an expression split across two input lines parses exactly
like the same tokens on one line — `1 +\n2;\n` and `1 + 2;` both print
`3` — and whitespace-skipping across the boundary performs exactly one
`read_line` per exhausted line (both runs perform 2 reads in total:
the initial one plus one per exhausted line). -/
theorem claim_C5 :
    mainRun 30 ["1 +\n".toList, "2;\n".toList] = some ([.prompt, .result (3)], none) ∧
    mainRun 30 ["1 + 2;".toList] = some ([.prompt, .result (3)], none) ∧
    mainReads 30 ["1 +\n".toList, "2;\n".toList] = some 2 ∧
    mainReads 30 ["1 + 2;".toList] = some 2 := by
  have a1 : getToken (lexerNew ["1 +\n".toList, "2;\n".toList]) = .ok (Token.Num ['1'], ⟨"1 +\n".toList, 1, ["2;\n".toList], 1⟩) := by decide
  have a2 : pGetToken (⟨Token.Num ['1'], ⟨"1 +\n".toList, 1, ["2;\n".toList], 1⟩⟩ : ParserSt) = .ok (⟨Token.Plus, ⟨"1 +\n".toList, 3, ["2;\n".toList], 1⟩⟩ : ParserSt) := by decide
  have a3 : factorF 27 (⟨Token.Num ['1'], ⟨"1 +\n".toList, 1, ["2;\n".toList], 1⟩⟩ : ParserSt) = some (.ok ((AST.Num 1), (⟨Token.Plus, ⟨"1 +\n".toList, 3, ["2;\n".toList], 1⟩⟩ : ParserSt))) := by decide
  have a4 : termRF 27 (AST.Num 1) (⟨Token.Plus, ⟨"1 +\n".toList, 3, ["2;\n".toList], 1⟩⟩ : ParserSt) = some (.ok ((AST.Num 1), (⟨Token.Plus, ⟨"1 +\n".toList, 3, ["2;\n".toList], 1⟩⟩ : ParserSt))) := by decide
  have a5 : termF 28 (⟨Token.Num ['1'], ⟨"1 +\n".toList, 1, ["2;\n".toList], 1⟩⟩ : ParserSt) = some (.ok ((AST.Num 1), (⟨Token.Plus, ⟨"1 +\n".toList, 3, ["2;\n".toList], 1⟩⟩ : ParserSt))) := termF_step 27 _ _ _ _ a3 a4
  have a6 : pGetToken (⟨Token.Plus, ⟨"1 +\n".toList, 3, ["2;\n".toList], 1⟩⟩ : ParserSt) = .ok (⟨Token.Num ['2'], ⟨"2;\n".toList, 1, [], 2⟩⟩ : ParserSt) := by decide
  have a7 : pGetToken (⟨Token.Num ['2'], ⟨"2;\n".toList, 1, [], 2⟩⟩ : ParserSt) = .ok (⟨Token.Semi, ⟨"2;\n".toList, 2, [], 2⟩⟩ : ParserSt) := by decide
  have a8 : factorF 26 (⟨Token.Num ['2'], ⟨"2;\n".toList, 1, [], 2⟩⟩ : ParserSt) = some (.ok ((AST.Num 2), (⟨Token.Semi, ⟨"2;\n".toList, 2, [], 2⟩⟩ : ParserSt))) := by decide
  have a9 : termRF 26 (AST.Num 2) (⟨Token.Semi, ⟨"2;\n".toList, 2, [], 2⟩⟩ : ParserSt) = some (.ok ((AST.Num 2), (⟨Token.Semi, ⟨"2;\n".toList, 2, [], 2⟩⟩ : ParserSt))) := by decide
  have a10 : termF 27 (⟨Token.Num ['2'], ⟨"2;\n".toList, 1, [], 2⟩⟩ : ParserSt) = some (.ok ((AST.Num 2), (⟨Token.Semi, ⟨"2;\n".toList, 2, [], 2⟩⟩ : ParserSt))) := termF_step 26 _ _ _ _ a8 a9
  have a11 : expRF 27 (AST.Plus (AST.Num 1) (AST.Num 2)) (⟨Token.Semi, ⟨"2;\n".toList, 2, [], 2⟩⟩ : ParserSt) = some (.ok ((AST.Plus (AST.Num 1) (AST.Num 2)), (⟨Token.Semi, ⟨"2;\n".toList, 2, [], 2⟩⟩ : ParserSt))) := by decide
  have a12 : expRF 28 (AST.Num 1) (⟨Token.Plus, ⟨"1 +\n".toList, 3, ["2;\n".toList], 1⟩⟩ : ParserSt) = some (.ok ((AST.Plus (AST.Num 1) (AST.Num 2)), (⟨Token.Semi, ⟨"2;\n".toList, 2, [], 2⟩⟩ : ParserSt))) := expRF_plus_step 27 (AST.Num 1) (AST.Num 2) _ _ _ _ (by decide) a6 a10 a11
  have a13 : expF 29 (⟨Token.Num ['1'], ⟨"1 +\n".toList, 1, ["2;\n".toList], 1⟩⟩ : ParserSt) = some (.ok ((AST.Plus (AST.Num 1) (AST.Num 2)), (⟨Token.Semi, ⟨"2;\n".toList, 2, [], 2⟩⟩ : ParserSt))) := expF_step 28 _ _ _ _ a5 a12
  have a14 : programF 30 (⟨Token.Num ['1'], ⟨"1 +\n".toList, 1, ["2;\n".toList], 1⟩⟩ : ParserSt) = some (.ok ((AST.Plus (AST.Num 1) (AST.Num 2)), (⟨Token.Semi, ⟨"2;\n".toList, 2, [], 2⟩⟩ : ParserSt))) := programF_step 29 _ _ _ a13
  have aEV : evaluate (AST.Plus (AST.Num 1) (AST.Num 2)) = .ok (3) := by decide
  have aRUN : mainRun 30 ["1 +\n".toList, "2;\n".toList] = some ([.prompt, .result (3)], none) := mainRun_ok 30 _ _ _ _ _ _ a1 a14 aEV
  have aRD : mainReads 30 ["1 +\n".toList, "2;\n".toList] = some 2 := mainReads_ok 30 _ _ _ _ _ a1 a14
  have b1 : getToken (lexerNew ["1 + 2;".toList]) = .ok (Token.Num ['1'], ⟨"1 + 2;".toList, 1, [], 1⟩) := by decide
  have b2 : pGetToken (⟨Token.Num ['1'], ⟨"1 + 2;".toList, 1, [], 1⟩⟩ : ParserSt) = .ok (⟨Token.Plus, ⟨"1 + 2;".toList, 3, [], 1⟩⟩ : ParserSt) := by decide
  have b3 : factorF 27 (⟨Token.Num ['1'], ⟨"1 + 2;".toList, 1, [], 1⟩⟩ : ParserSt) = some (.ok ((AST.Num 1), (⟨Token.Plus, ⟨"1 + 2;".toList, 3, [], 1⟩⟩ : ParserSt))) := by decide
  have b4 : termRF 27 (AST.Num 1) (⟨Token.Plus, ⟨"1 + 2;".toList, 3, [], 1⟩⟩ : ParserSt) = some (.ok ((AST.Num 1), (⟨Token.Plus, ⟨"1 + 2;".toList, 3, [], 1⟩⟩ : ParserSt))) := by decide
  have b5 : termF 28 (⟨Token.Num ['1'], ⟨"1 + 2;".toList, 1, [], 1⟩⟩ : ParserSt) = some (.ok ((AST.Num 1), (⟨Token.Plus, ⟨"1 + 2;".toList, 3, [], 1⟩⟩ : ParserSt))) := termF_step 27 _ _ _ _ b3 b4
  have b6 : pGetToken (⟨Token.Plus, ⟨"1 + 2;".toList, 3, [], 1⟩⟩ : ParserSt) = .ok (⟨Token.Num ['2'], ⟨"1 + 2;".toList, 5, [], 1⟩⟩ : ParserSt) := by decide
  have b7 : pGetToken (⟨Token.Num ['2'], ⟨"1 + 2;".toList, 5, [], 1⟩⟩ : ParserSt) = .ok (⟨Token.Semi, ⟨"".toList, 0, [], 2⟩⟩ : ParserSt) := by decide
  have b8 : factorF 26 (⟨Token.Num ['2'], ⟨"1 + 2;".toList, 5, [], 1⟩⟩ : ParserSt) = some (.ok ((AST.Num 2), (⟨Token.Semi, ⟨"".toList, 0, [], 2⟩⟩ : ParserSt))) := by decide
  have b9 : termRF 26 (AST.Num 2) (⟨Token.Semi, ⟨"".toList, 0, [], 2⟩⟩ : ParserSt) = some (.ok ((AST.Num 2), (⟨Token.Semi, ⟨"".toList, 0, [], 2⟩⟩ : ParserSt))) := by decide
  have b10 : termF 27 (⟨Token.Num ['2'], ⟨"1 + 2;".toList, 5, [], 1⟩⟩ : ParserSt) = some (.ok ((AST.Num 2), (⟨Token.Semi, ⟨"".toList, 0, [], 2⟩⟩ : ParserSt))) := termF_step 26 _ _ _ _ b8 b9
  have b11 : expRF 27 (AST.Plus (AST.Num 1) (AST.Num 2)) (⟨Token.Semi, ⟨"".toList, 0, [], 2⟩⟩ : ParserSt) = some (.ok ((AST.Plus (AST.Num 1) (AST.Num 2)), (⟨Token.Semi, ⟨"".toList, 0, [], 2⟩⟩ : ParserSt))) := by decide
  have b12 : expRF 28 (AST.Num 1) (⟨Token.Plus, ⟨"1 + 2;".toList, 3, [], 1⟩⟩ : ParserSt) = some (.ok ((AST.Plus (AST.Num 1) (AST.Num 2)), (⟨Token.Semi, ⟨"".toList, 0, [], 2⟩⟩ : ParserSt))) := expRF_plus_step 27 (AST.Num 1) (AST.Num 2) _ _ _ _ (by decide) b6 b10 b11
  have b13 : expF 29 (⟨Token.Num ['1'], ⟨"1 + 2;".toList, 1, [], 1⟩⟩ : ParserSt) = some (.ok ((AST.Plus (AST.Num 1) (AST.Num 2)), (⟨Token.Semi, ⟨"".toList, 0, [], 2⟩⟩ : ParserSt))) := expF_step 28 _ _ _ _ b5 b12
  have b14 : programF 30 (⟨Token.Num ['1'], ⟨"1 + 2;".toList, 1, [], 1⟩⟩ : ParserSt) = some (.ok ((AST.Plus (AST.Num 1) (AST.Num 2)), (⟨Token.Semi, ⟨"".toList, 0, [], 2⟩⟩ : ParserSt))) := programF_step 29 _ _ _ b13
  have bEV : evaluate (AST.Plus (AST.Num 1) (AST.Num 2)) = .ok (3) := by decide
  have bRUN : mainRun 30 ["1 + 2;".toList] = some ([.prompt, .result (3)], none) := mainRun_ok 30 _ _ _ _ _ _ b1 b14 bEV
  have bRD : mainReads 30 ["1 + 2;".toList] = some 2 := mainReads_ok 30 _ _ _ _ _ b1 b14
  exact ⟨aRUN, bRUN, aRD, bRD⟩

/-- Claim C6: division by zero (`5/0;`) is a fatal evaluation error and a
too-large literal (`2147483648;`) is a fatal parse error; in both runs the
process dies with no result line printed for the statement. -/
theorem claim_C6 :
    mainRun 30 ["5/0;\n".toList] = some ([.prompt], some .divByZero) ∧
    mainRun 30 ["2147483648;\n".toList] = some ([.prompt], some (.literalOverflow "2147483648".toList)) := by
  have a1 : getToken (lexerNew ["5/0;\n".toList]) = .ok (Token.Num ['5'], ⟨"5/0;\n".toList, 1, [], 1⟩) := by decide
  have a2 : pGetToken (⟨Token.Num ['5'], ⟨"5/0;\n".toList, 1, [], 1⟩⟩ : ParserSt) = .ok (⟨Token.Divide, ⟨"5/0;\n".toList, 2, [], 1⟩⟩ : ParserSt) := by decide
  have a3 : factorF 27 (⟨Token.Num ['5'], ⟨"5/0;\n".toList, 1, [], 1⟩⟩ : ParserSt) = some (.ok ((AST.Num 5), (⟨Token.Divide, ⟨"5/0;\n".toList, 2, [], 1⟩⟩ : ParserSt))) := by decide
  have a4 : pGetToken (⟨Token.Divide, ⟨"5/0;\n".toList, 2, [], 1⟩⟩ : ParserSt) = .ok (⟨Token.Num ['0'], ⟨"5/0;\n".toList, 3, [], 1⟩⟩ : ParserSt) := by decide
  have a5 : pGetToken (⟨Token.Num ['0'], ⟨"5/0;\n".toList, 3, [], 1⟩⟩ : ParserSt) = .ok (⟨Token.Semi, ⟨"5/0;\n".toList, 4, [], 1⟩⟩ : ParserSt) := by decide
  have a6 : factorF 26 (⟨Token.Num ['0'], ⟨"5/0;\n".toList, 3, [], 1⟩⟩ : ParserSt) = some (.ok ((AST.Num 0), (⟨Token.Semi, ⟨"5/0;\n".toList, 4, [], 1⟩⟩ : ParserSt))) := by decide
  have a7 : termRF 26 (AST.Divide (AST.Num 5) (AST.Num 0)) (⟨Token.Semi, ⟨"5/0;\n".toList, 4, [], 1⟩⟩ : ParserSt) = some (.ok ((AST.Divide (AST.Num 5) (AST.Num 0)), (⟨Token.Semi, ⟨"5/0;\n".toList, 4, [], 1⟩⟩ : ParserSt))) := by decide
  have a8 : termRF 27 (AST.Num 5) (⟨Token.Divide, ⟨"5/0;\n".toList, 2, [], 1⟩⟩ : ParserSt) = some (.ok ((AST.Divide (AST.Num 5) (AST.Num 0)), (⟨Token.Semi, ⟨"5/0;\n".toList, 4, [], 1⟩⟩ : ParserSt))) := termRF_div_step 26 (AST.Num 5) (AST.Num 0) _ _ _ _ (by decide) a4 a6 a7
  have a9 : termF 28 (⟨Token.Num ['5'], ⟨"5/0;\n".toList, 1, [], 1⟩⟩ : ParserSt) = some (.ok ((AST.Divide (AST.Num 5) (AST.Num 0)), (⟨Token.Semi, ⟨"5/0;\n".toList, 4, [], 1⟩⟩ : ParserSt))) := termF_step 27 _ _ _ _ a3 a8
  have a10 : expRF 28 (AST.Divide (AST.Num 5) (AST.Num 0)) (⟨Token.Semi, ⟨"5/0;\n".toList, 4, [], 1⟩⟩ : ParserSt) = some (.ok ((AST.Divide (AST.Num 5) (AST.Num 0)), (⟨Token.Semi, ⟨"5/0;\n".toList, 4, [], 1⟩⟩ : ParserSt))) := by decide
  have a11 : expF 29 (⟨Token.Num ['5'], ⟨"5/0;\n".toList, 1, [], 1⟩⟩ : ParserSt) = some (.ok ((AST.Divide (AST.Num 5) (AST.Num 0)), (⟨Token.Semi, ⟨"5/0;\n".toList, 4, [], 1⟩⟩ : ParserSt))) := expF_step 28 _ _ _ _ a9 a10
  have a12 : programF 30 (⟨Token.Num ['5'], ⟨"5/0;\n".toList, 1, [], 1⟩⟩ : ParserSt) = some (.ok ((AST.Divide (AST.Num 5) (AST.Num 0)), (⟨Token.Semi, ⟨"5/0;\n".toList, 4, [], 1⟩⟩ : ParserSt))) := programF_step 29 _ _ _ a11
  have aEV : evaluate (AST.Divide (AST.Num 5) (AST.Num 0)) = .error .divByZero := by decide
  have aRUN : mainRun 30 ["5/0;\n".toList] = some ([.prompt], some .divByZero) := mainRun_evalErr 30 _ _ _ _ _ _ a1 a12 aEV
  have b1 : getToken (lexerNew ["2147483648;\n".toList]) = .ok (Token.Num ['2', '1', '4', '7', '4', '8', '3', '6', '4', '8'], ⟨"2147483648;\n".toList, 10, [], 1⟩) := by decide
  have b2 : pGetToken (⟨Token.Num ['2', '1', '4', '7', '4', '8', '3', '6', '4', '8'], ⟨"2147483648;\n".toList, 10, [], 1⟩⟩ : ParserSt) = .ok (⟨Token.Semi, ⟨"2147483648;\n".toList, 11, [], 1⟩⟩ : ParserSt) := by decide
  have b3 : factorF 27 (⟨Token.Num ['2', '1', '4', '7', '4', '8', '3', '6', '4', '8'], ⟨"2147483648;\n".toList, 10, [], 1⟩⟩ : ParserSt) = some (.error (.literalOverflow "2147483648".toList)) := by decide
  have b4 : termF 28 (⟨Token.Num ['2', '1', '4', '7', '4', '8', '3', '6', '4', '8'], ⟨"2147483648;\n".toList, 10, [], 1⟩⟩ : ParserSt) = some (.error (.literalOverflow "2147483648".toList)) := termF_err 27 _ _ b3
  have b5 : expF 29 (⟨Token.Num ['2', '1', '4', '7', '4', '8', '3', '6', '4', '8'], ⟨"2147483648;\n".toList, 10, [], 1⟩⟩ : ParserSt) = some (.error (.literalOverflow "2147483648".toList)) := expF_err 28 _ _ b4
  have b6 : programF 30 (⟨Token.Num ['2', '1', '4', '7', '4', '8', '3', '6', '4', '8'], ⟨"2147483648;\n".toList, 10, [], 1⟩⟩ : ParserSt) = some (.error (.literalOverflow "2147483648".toList)) := programF_err 29 _ _ b5
  have bRUN : mainRun 30 ["2147483648;\n".toList] = some ([.prompt], some (.literalOverflow "2147483648".toList)) := mainRun_parseErr 30 _ _ _ _ b1 b6
  exact ⟨aRUN, bRUN⟩

/-- Claim C9: an expression beginning with `-` is rejected: on `-7/2;` the
`factor` production (which accepts only a number or `(`) fails fatally with
the "expected number or parenthesis" syntax error, and no result is
printed. -/
theorem claim_C9 :
    mainRun 30 ["-7/2;\n".toList] = some ([.prompt], some .syntaxFactor) := by
  have a1 : getToken (lexerNew ["-7/2;\n".toList]) = .ok (Token.Minus, ⟨"-7/2;\n".toList, 1, [], 1⟩) := by decide
  have a2 : factorF 27 (⟨Token.Minus, ⟨"-7/2;\n".toList, 1, [], 1⟩⟩ : ParserSt) = some (.error .syntaxFactor) := by decide
  have a3 : termF 28 (⟨Token.Minus, ⟨"-7/2;\n".toList, 1, [], 1⟩⟩ : ParserSt) = some (.error .syntaxFactor) := termF_err 27 _ _ a2
  have a4 : expF 29 (⟨Token.Minus, ⟨"-7/2;\n".toList, 1, [], 1⟩⟩ : ParserSt) = some (.error .syntaxFactor) := expF_err 28 _ _ a3
  have a5 : programF 30 (⟨Token.Minus, ⟨"-7/2;\n".toList, 1, [], 1⟩⟩ : ParserSt) = some (.error .syntaxFactor) := programF_err 29 _ _ a4
  have aRUN : mainRun 30 ["-7/2;\n".toList] = some ([.prompt], some .syntaxFactor) := mainRun_parseErr 30 _ _ _ _ a1 a5
  exact aRUN

/-- Claim C8, counterexample: on input `1+` the lexer must read a new line
at end of input; `read_line` reports EOF as success with an empty buffer,
and the process dies in `Lexer::current` with "Tried to get a nonsensical
character" (`Err.nonsensicalChar`) — not via the claimed "unable to read
line" I/O path (`Err.advanceReadLine`). -/
theorem claim_C8_counterexample :
    mainRun 30 ["1+\n".toList] = some ([.prompt], some .nonsensicalChar) ∧
    Err.nonsensicalChar ≠ Err.advanceReadLine := by
  have a1 : getToken (lexerNew ["1+\n".toList]) = .ok (Token.Num ['1'], ⟨"1+\n".toList, 1, [], 1⟩) := by decide
  have a2 : pGetToken (⟨Token.Num ['1'], ⟨"1+\n".toList, 1, [], 1⟩⟩ : ParserSt) = .ok (⟨Token.Plus, ⟨"1+\n".toList, 2, [], 1⟩⟩ : ParserSt) := by decide
  have a3 : factorF 27 (⟨Token.Num ['1'], ⟨"1+\n".toList, 1, [], 1⟩⟩ : ParserSt) = some (.ok ((AST.Num 1), (⟨Token.Plus, ⟨"1+\n".toList, 2, [], 1⟩⟩ : ParserSt))) := by decide
  have a4 : termRF 27 (AST.Num 1) (⟨Token.Plus, ⟨"1+\n".toList, 2, [], 1⟩⟩ : ParserSt) = some (.ok ((AST.Num 1), (⟨Token.Plus, ⟨"1+\n".toList, 2, [], 1⟩⟩ : ParserSt))) := by decide
  have a5 : termF 28 (⟨Token.Num ['1'], ⟨"1+\n".toList, 1, [], 1⟩⟩ : ParserSt) = some (.ok ((AST.Num 1), (⟨Token.Plus, ⟨"1+\n".toList, 2, [], 1⟩⟩ : ParserSt))) := termF_step 27 _ _ _ _ a3 a4
  have a6 : pGetToken (⟨Token.Plus, ⟨"1+\n".toList, 2, [], 1⟩⟩ : ParserSt) = .error .nonsensicalChar := by decide
  have a7 : expRF 28 (AST.Num 1) (⟨Token.Plus, ⟨"1+\n".toList, 2, [], 1⟩⟩ : ParserSt) = some (.error .nonsensicalChar) := by decide
  have a8 : expF 29 (⟨Token.Num ['1'], ⟨"1+\n".toList, 1, [], 1⟩⟩ : ParserSt) = some (.error .nonsensicalChar) := expF_step 28 _ _ _ _ a5 a7
  have a9 : programF 30 (⟨Token.Num ['1'], ⟨"1+\n".toList, 1, [], 1⟩⟩ : ParserSt) = some (.error .nonsensicalChar) := programF_err 29 _ _ a8
  have aRUN : mainRun 30 ["1+\n".toList] = some ([.prompt], some .nonsensicalChar) := mainRun_parseErr 30 _ _ _ _ a1 a9
  exact ⟨aRUN, by decide⟩

/-- Claim C7, behaviour at the failing input: one `read_line` (performed
by `Lexer::new`, together with the first token fetch of `Parser::new`)
precedes the prompt write on input `1+1;`, whereas the claim requires zero
reads before the prompt. -/
theorem claim_C7 :
    readsBeforePrompt ["1+1;\n".toList] = some 1 := by decide

theorem prodMonoSucc : ∀ n : Nat,
    (∀ p r, programF n p = some r → programF (n + 1) p = some r) ∧
    (∀ p r, expF n p = some r → expF (n + 1) p = some r) ∧
    (∀ t p r, expRF n t p = some r → expRF (n + 1) t p = some r) ∧
    (∀ p r, termF n p = some r → termF (n + 1) p = some r) ∧
    (∀ t p r, termRF n t p = some r → termRF (n + 1) t p = some r) ∧
    (∀ p r, factorF n p = some r → factorF (n + 1) p = some r) := by
  intro n
  induction n with
  | zero =>
    refine ⟨fun p r h => ?_, fun p r h => ?_, fun t p r h => ?_,
      fun p r h => ?_, fun t p r h => ?_, fun p r h => ?_⟩ <;>
      simp [programF, expF, expRF, termF, termRF, factorF] at h
  | succ n ih =>
    obtain ⟨ihP, ihE, ihER, ihT, ihTR, ihF⟩ := ih
    refine ⟨?_, ?_, ?_, ?_, ?_, ?_⟩
    · intro p r h
      rw [programF] at h ⊢
      cases hE : expF n p with
      | none => simp only [hE] at h; exact absurd h (by simp)
      | some x =>
        simp only [hE] at h
        simp only [ihE p x hE]
        cases x with
        | error e => exact h
        | ok ap => obtain ⟨a, p1⟩ := ap; exact h
    · intro p r h
      rw [expF] at h ⊢
      cases hT : termF n p with
      | none => simp only [hT] at h; exact absurd h (by simp)
      | some x =>
        simp only [hT] at h
        simp only [ihT p x hT]
        cases x with
        | error e => exact h
        | ok tp =>
          obtain ⟨t, p1⟩ := tp
          exact ihER t p1 r h
    · intro t p r h
      rw [expRF] at h ⊢
      cases htok : p.tok <;> simp only [htok] at h ⊢ <;> try exact h
      case Plus =>
        cases hE : eat .Plus p with
        | error e => simp only [hE] at h ⊢; exact h
        | ok p1 =>
          simp only [hE] at h ⊢
          cases hT : termF n p1 with
          | none => simp only [hT] at h; exact absurd h (by simp)
          | some x =>
            simp only [hT] at h
            simp only [ihT p1 x hT]
            cases x with
            | error e => exact h
            | ok sp =>
              obtain ⟨s, p2⟩ := sp
              exact ihER (.Plus t s) p2 r h
      case Minus =>
        cases hE : eat .Minus p with
        | error e => simp only [hE] at h ⊢; exact h
        | ok p1 =>
          simp only [hE] at h ⊢
          cases hT : termF n p1 with
          | none => simp only [hT] at h; exact absurd h (by simp)
          | some x =>
            simp only [hT] at h
            simp only [ihT p1 x hT]
            cases x with
            | error e => exact h
            | ok sp =>
              obtain ⟨s, p2⟩ := sp
              exact ihER (.Minus t s) p2 r h
    · intro p r h
      rw [termF] at h ⊢
      cases hF : factorF n p with
      | none => simp only [hF] at h; exact absurd h (by simp)
      | some x =>
        simp only [hF] at h
        simp only [ihF p x hF]
        cases x with
        | error e => exact h
        | ok fp =>
          obtain ⟨f, p1⟩ := fp
          exact ihTR f p1 r h
    · intro t p r h
      rw [termRF] at h ⊢
      cases htok : p.tok <;> simp only [htok] at h ⊢ <;> try exact h
      case Times =>
        cases hE : eat .Times p with
        | error e => simp only [hE] at h ⊢; exact h
        | ok p1 =>
          simp only [hE] at h ⊢
          cases hF : factorF n p1 with
          | none => simp only [hF] at h; exact absurd h (by simp)
          | some x =>
            simp only [hF] at h
            simp only [ihF p1 x hF]
            cases x with
            | error e => exact h
            | ok gp =>
              obtain ⟨g, p2⟩ := gp
              exact ihTR (.Times t g) p2 r h
      case Divide =>
        cases hE : eat .Divide p with
        | error e => simp only [hE] at h ⊢; exact h
        | ok p1 =>
          simp only [hE] at h ⊢
          cases hF : factorF n p1 with
          | none => simp only [hF] at h; exact absurd h (by simp)
          | some x =>
            simp only [hF] at h
            simp only [ihF p1 x hF]
            cases x with
            | error e => exact h
            | ok gp =>
              obtain ⟨g, p2⟩ := gp
              exact ihTR (.Divide t g) p2 r h
    · intro p r h
      rw [factorF] at h ⊢
      cases htok : p.tok <;> simp only [htok] at h ⊢ <;> try exact h
      case LParen =>
        cases hE : eat .LParen p with
        | error e => simp only [hE] at h ⊢; exact h
        | ok p1 =>
          simp only [hE] at h ⊢
          cases hX : expF n p1 with
          | none => simp only [hX] at h; exact absurd h (by simp)
          | some x =>
            simp only [hX] at h
            simp only [ihE p1 x hX]
            cases x with
            | error e => exact h
            | ok ap =>
              obtain ⟨a, p2⟩ := ap
              exact h

theorem programF_mono {n m : Nat} (hnm : n ≤ m) {p : ParserSt}
    {r : Except Err (AST × ParserSt)} (h : programF n p = some r) :
    programF m p = some r := by
  induction m with
  | zero => exact (Nat.le_zero.mp hnm) ▸ h
  | succ m ih =>
    rcases Nat.lt_or_ge n (m + 1) with hlt | hge
    · exact (prodMonoSucc m).1 p r (ih (Nat.lt_succ_iff.mp hlt))
    · exact (Nat.le_antisymm hnm hge) ▸ h

theorem expF_mono {n m : Nat} (hnm : n ≤ m) {p : ParserSt}
    {r : Except Err (AST × ParserSt)} (h : expF n p = some r) :
    expF m p = some r := by
  induction m with
  | zero => exact (Nat.le_zero.mp hnm) ▸ h
  | succ m ih =>
    rcases Nat.lt_or_ge n (m + 1) with hlt | hge
    · exact (prodMonoSucc m).2.1 p r (ih (Nat.lt_succ_iff.mp hlt))
    · exact (Nat.le_antisymm hnm hge) ▸ h

theorem expRF_mono {n m : Nat} (hnm : n ≤ m) {t : AST} {p : ParserSt}
    {r : Except Err (AST × ParserSt)} (h : expRF n t p = some r) :
    expRF m t p = some r := by
  induction m with
  | zero => exact (Nat.le_zero.mp hnm) ▸ h
  | succ m ih =>
    rcases Nat.lt_or_ge n (m + 1) with hlt | hge
    · exact (prodMonoSucc m).2.2.1 t p r (ih (Nat.lt_succ_iff.mp hlt))
    · exact (Nat.le_antisymm hnm hge) ▸ h

theorem termF_mono {n m : Nat} (hnm : n ≤ m) {p : ParserSt}
    {r : Except Err (AST × ParserSt)} (h : termF n p = some r) :
    termF m p = some r := by
  induction m with
  | zero => exact (Nat.le_zero.mp hnm) ▸ h
  | succ m ih =>
    rcases Nat.lt_or_ge n (m + 1) with hlt | hge
    · exact (prodMonoSucc m).2.2.2.1 p r (ih (Nat.lt_succ_iff.mp hlt))
    · exact (Nat.le_antisymm hnm hge) ▸ h

theorem termRF_mono {n m : Nat} (hnm : n ≤ m) {t : AST} {p : ParserSt}
    {r : Except Err (AST × ParserSt)} (h : termRF n t p = some r) :
    termRF m t p = some r := by
  induction m with
  | zero => exact (Nat.le_zero.mp hnm) ▸ h
  | succ m ih =>
    rcases Nat.lt_or_ge n (m + 1) with hlt | hge
    · exact (prodMonoSucc m).2.2.2.2.1 t p r (ih (Nat.lt_succ_iff.mp hlt))
    · exact (Nat.le_antisymm hnm hge) ▸ h

theorem factorF_mono {n m : Nat} (hnm : n ≤ m) {p : ParserSt}
    {r : Except Err (AST × ParserSt)} (h : factorF n p = some r) :
    factorF m p = some r := by
  induction m with
  | zero => exact (Nat.le_zero.mp hnm) ▸ h
  | succ m ih =>
    rcases Nat.lt_or_ge n (m + 1) with hlt | hge
    · exact (prodMonoSucc m).2.2.2.2.2 p r (ih (Nat.lt_succ_iff.mp hlt))
    · exact (Nat.le_antisymm hnm hge) ▸ h

theorem skipWsF_succ (n : Nat) (st : LexState) (r : Except Err (Char × LexState))
    (h : skipWsF n st = some r) : skipWsF (n + 1) st = some r := by
  induction n generalizing st with
  | zero => simp [skipWsF] at h
  | succ n ih =>
    rw [skipWsF] at h ⊢
    cases hc : current st with
    | none => simp only [hc] at h ⊢; exact h
    | some c =>
      simp only [hc] at h ⊢
      by_cases hw : c.isWhitespace
      · rw [if_pos hw] at h ⊢
        cases ha : advance st with
        | error e => simp only [ha] at h ⊢; exact h
        | ok st2 => simp only [ha] at h ⊢; exact ih st2 h
      · rw [if_neg hw] at h ⊢; exact h

theorem skipWsF_mono {n m : Nat} (hnm : n ≤ m) {st : LexState}
    {r : Except Err (Char × LexState)} (h : skipWsF n st = some r) :
    skipWsF m st = some r := by
  induction m with
  | zero => exact (Nat.le_zero.mp hnm) ▸ h
  | succ m ih =>
    rcases Nat.lt_or_ge n (m + 1) with hlt | hge
    · exact skipWsF_succ m st r (ih (Nat.lt_succ_iff.mp hlt))
    · exact (Nat.le_antisymm hnm hge) ▸ h

theorem skipWsF_eq_skipWs (n : Nat) (st : LexState) (h : lexMeasure st < n) :
    skipWsF n st = some (skipWs st) := by
  obtain ⟨r, hr⟩ := Option.isSome_iff_exists.mp (skipWsF_isSome n st h)
  have h1 : skipWsF (max n (lexMeasure st + 1)) st = some r :=
    skipWsF_mono (Nat.le_max_left _ _) hr
  obtain ⟨r2, hr2⟩ := Option.isSome_iff_exists.mp
    (skipWsF_isSome (lexMeasure st + 1) st (Nat.lt_succ_self _))
  have h2 : skipWsF (max n (lexMeasure st + 1)) st = some r2 :=
    skipWsF_mono (Nat.le_max_right _ _) hr2
  have hrr : r = r2 := by
    have := h1.symm.trans h2
    exact Option.some.inj this
  rw [hr, hrr]
  unfold skipWs
  simp [hr2]

theorem skipWs_unfold (st : LexState) :
    skipWs st =
      match current st with
      | none => .error .nonsensicalChar
      | some c =>
        if c.isWhitespace then
          match advance st with
          | .error e => .error e
          | .ok st2 => skipWs st2
        else .ok (c, st) := by
  have h0 : skipWsF (lexMeasure st + 1) st = some (skipWs st) :=
    skipWsF_eq_skipWs _ st (Nat.lt_succ_self _)
  rw [skipWsF] at h0
  cases hc : current st with
  | none => simp only [hc] at h0 ⊢; exact (Option.some.inj h0).symm
  | some c =>
    simp only [hc] at h0 ⊢
    by_cases hw : c.isWhitespace
    · rw [if_pos hw] at h0 ⊢
      cases ha : advance st with
      | error e => simp only [ha] at h0 ⊢; exact (Option.some.inj h0).symm
      | ok st2 =>
        simp only [ha] at h0 ⊢
        have hlt := advance_lt st c st2 hc ha
        rw [skipWsF_eq_skipWs (lexMeasure st) st2 hlt] at h0
        exact (Option.some.inj h0).symm
    · rw [if_neg hw] at h0 ⊢; exact (Option.some.inj h0).symm

theorem takeDigitsF_succ (n : Nat) (acc : List Char) (st : LexState)
    (r : Except Err (List Char × Char × LexState))
    (h : takeDigitsF n acc st = some r) : takeDigitsF (n + 1) acc st = some r := by
  induction n generalizing acc st with
  | zero => simp [takeDigitsF] at h
  | succ n ih =>
    rw [takeDigitsF] at h ⊢
    cases hc : current st with
    | none => simp only [hc] at h ⊢; exact h
    | some c =>
      simp only [hc] at h ⊢
      by_cases hd : c.isDigit
      · rw [if_pos hd] at h ⊢
        cases ha : advance st with
        | error e => simp only [ha] at h ⊢; exact h
        | ok st2 => simp only [ha] at h ⊢; exact ih (acc ++ [c]) st2 h
      · rw [if_neg hd] at h ⊢; exact h

theorem takeDigitsF_mono {n m : Nat} (hnm : n ≤ m) {acc : List Char}
    {st : LexState} {r : Except Err (List Char × Char × LexState)}
    (h : takeDigitsF n acc st = some r) : takeDigitsF m acc st = some r := by
  induction m with
  | zero => exact (Nat.le_zero.mp hnm) ▸ h
  | succ m ih =>
    rcases Nat.lt_or_ge n (m + 1) with hlt | hge
    · exact takeDigitsF_succ m acc st r (ih (Nat.lt_succ_iff.mp hlt))
    · exact (Nat.le_antisymm hnm hge) ▸ h

theorem takeDigitsF_eq_takeDigits (n : Nat) (acc : List Char) (st : LexState)
    (h : lexMeasure st < n) : takeDigitsF n acc st = some (takeDigits acc st) := by
  obtain ⟨r, hr⟩ := Option.isSome_iff_exists.mp (takeDigitsF_isSome n acc st h)
  have h1 : takeDigitsF (max n (lexMeasure st + 1)) acc st = some r :=
    takeDigitsF_mono (Nat.le_max_left _ _) hr
  obtain ⟨r2, hr2⟩ := Option.isSome_iff_exists.mp
    (takeDigitsF_isSome (lexMeasure st + 1) acc st (Nat.lt_succ_self _))
  have h2 : takeDigitsF (max n (lexMeasure st + 1)) acc st = some r2 :=
    takeDigitsF_mono (Nat.le_max_right _ _) hr2
  have hrr : r = r2 := Option.some.inj (h1.symm.trans h2)
  rw [hr, hrr]
  unfold takeDigits
  simp [hr2]

theorem takeDigits_unfold (acc : List Char) (st : LexState) :
    takeDigits acc st =
      match current st with
      | none => .error .nonsensicalChar
      | some c =>
        if c.isDigit then
          match advance st with
          | .error e => .error e
          | .ok st2 => takeDigits (acc ++ [c]) st2
        else .ok (acc, c, st) := by
  have h0 : takeDigitsF (lexMeasure st + 1) acc st = some (takeDigits acc st) :=
    takeDigitsF_eq_takeDigits _ acc st (Nat.lt_succ_self _)
  rw [takeDigitsF] at h0
  cases hc : current st with
  | none => simp only [hc] at h0 ⊢; exact (Option.some.inj h0).symm
  | some c =>
    simp only [hc] at h0 ⊢
    by_cases hd : c.isDigit
    · rw [if_pos hd] at h0 ⊢
      cases ha : advance st with
      | error e => simp only [ha] at h0 ⊢; exact (Option.some.inj h0).symm
      | ok st2 =>
        simp only [ha] at h0 ⊢
        have hlt := advance_lt st c st2 hc ha
        rw [takeDigitsF_eq_takeDigits (lexMeasure st) (acc ++ [c]) st2 hlt] at h0
        exact (Option.some.inj h0).symm
    · rw [if_neg hd] at h0 ⊢; exact (Option.some.inj h0).symm

theorem isDigit_utf8Len (c : Char) (h : c.isDigit = true) : utf8Len c = 1 := by
  simp only [Char.isDigit, Bool.and_eq_true, decide_eq_true_eq] at h
  have h2 : c.val.toNat ≤ 57 := by
    have := h.2
    rw [UInt32.le_def, BitVec.le_def] at this
    exact this
  unfold utf8Len
  rw [if_pos (by omega)]

theorem isDigit_not_ws (c : Char) (h : c.isDigit = true) :
    c.isWhitespace = false := by
  cases hw : c.isWhitespace with
  | false => rfl
  | true =>
    simp only [Char.isWhitespace, Bool.or_eq_true, decide_eq_true_eq] at hw
    rcases hw with ((rfl | rfl) | rfl) | rfl <;> exact absurd h (by decide)

theorem charAtByte_append (pre rest : List Char)
    (hpre : ∀ c ∈ pre, utf8Len c = 1) :
    charAtByte (pre ++ rest) pre.length = rest.head? := by
  induction pre with
  | nil =>
    cases rest with
    | nil => rfl
    | cons c cs => rfl
  | cons d ds ih =>
    have hd : utf8Len d = 1 := hpre d (List.mem_cons_self d ds)
    rw [List.cons_append, List.length_cons, charAtByte]
    rw [if_neg (by omega), if_neg (by omega), hd]
    simpa using ih (fun c hc => hpre c (List.mem_cons_of_mem d hc))

theorem byteLen_append (l1 l2 : List Char) :
    byteLen (l1 ++ l2) = byteLen l1 + byteLen l2 := by
  simp [byteLen]

theorem byteLen_cons (c : Char) (l : List Char) :
    byteLen (c :: l) = utf8Len c + byteLen l := by
  simp [byteLen]

theorem byteLen_nil : byteLen [] = 0 := rfl

theorem byteLen_ascii (l : List Char) (h : ∀ c ∈ l, utf8Len c = 1) :
    byteLen l = l.length := by
  induction l with
  | nil => rfl
  | cons d ds ih =>
    have hd : utf8Len d = 1 := h d (List.mem_cons_self d ds)
    simp only [byteLen, List.map_cons, List.sum_cons, List.length_cons] at *
    rw [hd, ih (fun c hc => h c (List.mem_cons_of_mem d hc))]
    omega

theorem current_view (pre rest : List Char) (inp : List (List Char)) (r : Nat)
    (hpre : ∀ c ∈ pre, utf8Len c = 1) :
    current ⟨pre ++ rest, pre.length, inp, r⟩ = rest.head? :=
  charAtByte_append pre rest hpre

theorem advance_mid (pre : List Char) (c c2 : Char) (rest : List Char)
    (inp : List (List Char)) (r : Nat)
    (hpre : ∀ x ∈ pre, utf8Len x = 1) (hc : utf8Len c = 1) :
    advance ⟨pre ++ c :: c2 :: rest, pre.length, inp, r⟩ =
      .ok ⟨pre ++ c :: c2 :: rest, pre.length + 1, inp, r⟩ := by
  have hp : byteLen pre = pre.length := byteLen_ascii pre hpre
  have hb : byteLen (pre ++ c :: c2 :: rest) =
      pre.length + (1 + (utf8Len c2 + byteLen rest)) := by
    rw [byteLen_append, byteLen_cons, byteLen_cons, hp, hc]
  have hc2 := utf8Len_pos c2
  rw [advance]
  rw [if_neg (show ¬ (pre.length ≥ byteLen (pre ++ c :: c2 :: rest) - 1) by omega)]
  rw [current_view pre _ inp r hpre]
  simp only [List.head?]
  rw [hc]

theorem advance_last (pre : List Char) (c : Char) (inp : List (List Char))
    (r : Nat) (hpre : ∀ x ∈ pre, utf8Len x = 1) (hc : utf8Len c = 1) :
    advance ⟨pre ++ [c], pre.length, inp, r⟩ =
      .ok ⟨(readLine inp).1, 0, (readLine inp).2, r + 1⟩ := by
  have hp : byteLen pre = pre.length := byteLen_ascii pre hpre
  have hb : byteLen (pre ++ [c]) = pre.length + (utf8Len c + 0) := by
    rw [byteLen_append, byteLen_cons, byteLen_nil, hp]
  rw [advance]
  rw [if_pos (show pre.length ≥ byteLen (pre ++ [c]) - 1 by omega)]

theorem advance_mid2 (pre : List Char) (c : Char) (rest : List Char)
    (inp : List (List Char)) (r : Nat) (hne : rest ≠ [])
    (hpre : ∀ x ∈ pre, utf8Len x = 1) (hc : utf8Len c = 1) :
    advance ⟨pre ++ c :: rest, pre.length, inp, r⟩ =
      .ok ⟨pre ++ c :: rest, pre.length + 1, inp, r⟩ := by
  cases rest with
  | nil => exact absurd rfl hne
  | cons c2 rest2 => exact advance_mid pre c c2 rest2 inp r hpre hc

theorem skipWs_now (st : LexState) (c : Char) (hc : current st = some c)
    (hw : c.isWhitespace = false) : skipWs st = .ok (c, st) := by
  rw [skipWs_unfold, hc]
  simp [hw]

theorem takeDigits_run (ds : List Char) : ∀ (acc pre : List Char)
    (inp : List (List Char)) (r : Nat) (nd : Char) (rest : List Char),
    (∀ x ∈ pre, utf8Len x = 1) → (∀ x ∈ ds, x.isDigit = true) →
    nd.isDigit = false →
    takeDigits acc ⟨pre ++ ds ++ nd :: rest, pre.length, inp, r⟩ =
      .ok (acc ++ ds, nd,
        ⟨pre ++ ds ++ nd :: rest, pre.length + ds.length, inp, r⟩) := by
  induction ds with
  | nil =>
    intro acc pre inp r nd rest hpre hds hnd
    rw [takeDigits_unfold]
    have hcur : current ⟨pre ++ [] ++ nd :: rest, pre.length, inp, r⟩ =
        some nd := by
      simpa using current_view pre (nd :: rest) inp r hpre
    rw [hcur]
    simp [hnd]
  | cons d ds ih =>
    intro acc pre inp r nd rest hpre hds hnd
    have hd : d.isDigit = true := hds d (List.mem_cons_self d ds)
    have hd1 : utf8Len d = 1 := isDigit_utf8Len d hd
    have hcur : current ⟨pre ++ (d :: ds) ++ nd :: rest, pre.length, inp, r⟩ =
        some d := by
      have := current_view pre ((d :: ds) ++ nd :: rest) inp r hpre
      simpa using this
    rw [takeDigits_unfold]
    simp only [hcur]
    rw [if_pos hd]
    have hadv : advance ⟨pre ++ (d :: ds) ++ nd :: rest, pre.length, inp, r⟩ =
        .ok ⟨pre ++ (d :: ds) ++ nd :: rest, pre.length + 1, inp, r⟩ := by
      have h2 : pre ++ (d :: ds) ++ nd :: rest =
          pre ++ d :: (ds ++ nd :: rest) := by simp
      rw [h2]
      exact advance_mid2 pre d (ds ++ nd :: rest) inp r (by simp) hpre hd1
    simp only [hadv]
    have hre : pre ++ (d :: ds) ++ nd :: rest =
        (pre ++ [d]) ++ ds ++ nd :: rest := by simp
    have hlen : pre.length + 1 = (pre ++ [d]).length := by simp
    rw [show (⟨pre ++ (d :: ds) ++ nd :: rest, pre.length + 1, inp, r⟩ :
          LexState) =
        ⟨(pre ++ [d]) ++ ds ++ nd :: rest, (pre ++ [d]).length, inp, r⟩ from by
      rw [hre, hlen]]
    rw [ih (acc ++ [d]) (pre ++ [d]) inp r nd rest
      (by intro x hx
          rcases List.mem_append.mp hx with h | h
          · exact hpre x h
          · rw [List.mem_singleton.mp h]; exact hd1)
      (fun x hx => hds x (List.mem_cons_of_mem d hx)) hnd]
    have e1 : acc ++ [d] ++ ds = acc ++ d :: ds := by simp
    have e2 : (pre ++ [d]).length + ds.length = pre.length + (d :: ds).length := by
      simp; omega
    rw [e1, e2]
    have e3 : (pre ++ [d]) ++ ds ++ nd :: rest = pre ++ (d :: ds) ++ nd :: rest := by
      simp
    rw [e3]

theorem getToken_num (pre ds : List Char) (nd : Char) (rest : List Char)
    (inp : List (List Char)) (r : Nat)
    (hpre : ∀ x ∈ pre, utf8Len x = 1) (hne : ds ≠ [])
    (hds : ∀ x ∈ ds, x.isDigit = true) (hnd : nd.isDigit = false) :
    getToken ⟨pre ++ ds ++ nd :: rest, pre.length, inp, r⟩ =
      .ok (.Num ds,
        ⟨pre ++ ds ++ nd :: rest, pre.length + ds.length, inp, r⟩) := by
  obtain ⟨d0, ds', rfl⟩ := List.exists_cons_of_ne_nil hne
  have hd0 : d0.isDigit = true := hds d0 (List.mem_cons_self d0 ds')
  have hcur : current ⟨pre ++ (d0 :: ds') ++ nd :: rest, pre.length, inp, r⟩ =
      some d0 := by
    have := current_view pre ((d0 :: ds') ++ nd :: rest) inp r hpre
    simpa using this
  have hskip := skipWs_now _ _ hcur (isDigit_not_ws d0 hd0)
  have htd := takeDigits_run (d0 :: ds') [] pre inp r nd rest hpre hds hnd
  rw [getToken]
  simp only [hskip, htd]
  simp

theorem getToken_sym (pre : List Char) (c : Char) (rest : List Char)
    (inp : List (List Char)) (r : Nat) (tk : Token)
    (hpre : ∀ x ∈ pre, utf8Len x = 1) (hc1 : utf8Len c = 1)
    (hw : c.isWhitespace = false) (hd : c.isDigit = false)
    (hs : symTok c = some tk) (hne : rest ≠ []) :
    getToken ⟨pre ++ c :: rest, pre.length, inp, r⟩ =
      .ok (tk, ⟨pre ++ c :: rest, pre.length + 1, inp, r⟩) := by
  have hcur : current ⟨pre ++ c :: rest, pre.length, inp, r⟩ = some c :=
    current_view pre (c :: rest) inp r hpre
  have hskip := skipWs_now _ _ hcur hw
  have htd : takeDigits [] ⟨pre ++ c :: rest, pre.length, inp, r⟩ =
      .ok ([], c, ⟨pre ++ c :: rest, pre.length, inp, r⟩) := by
    rw [takeDigits_unfold]
    simp only [hcur]
    simp [hd]
  have hadv := advance_mid2 pre c rest inp r hne hpre hc1
  rw [getToken]
  simp only [hskip, htd, hadv]
  simp [hs]

theorem i32wrap_eq (x : Int) (h1 : -2147483648 ≤ x) (h2 : x ≤ 2147483647) :
    i32wrap x = x := by
  unfold i32wrap
  omega

theorem termRF_stop (n : Nat) (t : AST) (p : ParserSt)
    (h : p.tok = .Plus ∨ p.tok = .Minus ∨ p.tok = .Semi) :
    termRF (n + 1) t p = some (.ok (t, p)) := by
  rw [termRF]
  rcases h with h | h | h <;> simp only [h]

theorem expRF_stop (n : Nat) (t : AST) (p : ParserSt) (h : p.tok = .Semi) :
    expRF (n + 1) t p = some (.ok (t, p)) := by
  rw [expRF]
  simp only [h]

theorem lexOp (da db : List Char) (c : Char) (tk : Token)
    (hda : ∀ x ∈ da, x.isDigit = true) (hnea : da ≠ [])
    (hdb : ∀ x ∈ db, x.isDigit = true) (hneb : db ≠ [])
    (hc1 : utf8Len c = 1) (hw : c.isWhitespace = false)
    (hd : c.isDigit = false) (hs : symTok c = some tk) :
    getToken (lexerNew [da ++ c :: db ++ [';', '\n']]) =
      .ok (.Num da, ⟨da ++ c :: db ++ [';', '\n'], da.length, [], 1⟩) ∧
    getToken ⟨da ++ c :: db ++ [';', '\n'], da.length, [], 1⟩ =
      .ok (tk, ⟨da ++ c :: db ++ [';', '\n'], da.length + 1, [], 1⟩) ∧
    getToken ⟨da ++ c :: db ++ [';', '\n'], da.length + 1, [], 1⟩ =
      .ok (.Num db,
        ⟨da ++ c :: db ++ [';', '\n'], da.length + 1 + db.length, [], 1⟩) ∧
    getToken ⟨da ++ c :: db ++ [';', '\n'], da.length + 1 + db.length, [], 1⟩ =
      .ok (.Semi,
        ⟨da ++ c :: db ++ [';', '\n'], da.length + 1 + db.length + 1, [], 1⟩) := by
  have hascii_da : ∀ x ∈ da, utf8Len x = 1 :=
    fun x hx => isDigit_utf8Len x (hda x hx)
  have hascii_dac : ∀ x ∈ da ++ [c], utf8Len x = 1 := by
    intro x hx
    rcases List.mem_append.mp hx with h | h
    · exact hascii_da x h
    · rw [List.mem_singleton.mp h]; exact hc1
  have hascii_dacdb : ∀ x ∈ da ++ c :: db, utf8Len x = 1 := by
    intro x hx
    rcases List.mem_append.mp hx with h | h
    · exact hascii_da x h
    · rcases List.mem_cons.mp h with h | h
      · rw [h]; exact hc1
      · exact isDigit_utf8Len x (hdb x h)
  refine ⟨?_, ?_, ?_, ?_⟩
  · have inst := getToken_num [] da c (db ++ [';', '\n']) [] 1
      (by intro x hx; simp at hx) hnea hda hd
    simpa [lexerNew, readLine] using inst
  · have inst := getToken_sym da c (db ++ [';', '\n']) [] 1 tk
      hascii_da hc1 hw hd hs (by simp)
    simpa using inst
  · have inst := getToken_num (da ++ [c]) db ';' ['\n'] [] 1
      hascii_dac hneb hdb (by decide)
    simpa using inst
  · have inst := getToken_sym (da ++ c :: db) ';' ['\n'] [] 1 .Semi
      hascii_dacdb (by decide) (by decide) (by decide) rfl (by simp)
    have hlen : (da ++ c :: db).length = da.length + 1 + db.length := by
      simp
      omega
    rw [hlen] at inst
    simpa using inst

theorem run_add (da db : List Char)
    (hnea : da ≠ []) (hda : ∀ x ∈ da, x.isDigit = true)
    (hneb : db ≠ []) (hdb : ∀ x ∈ db, x.isDigit = true)
    (hfa : digitsToNat da ≤ 2147483647) (hfb : digitsToNat db ≤ 2147483647)
    (hfab : digitsToNat da + digitsToNat db ≤ 2147483647) :
    mainRun 30 [da ++ '+' :: db ++ [';', '\n']] =
      some ([.prompt,
        .result ((digitsToNat da : Int) + (digitsToNat db : Int))], none) := by
  obtain ⟨h1, h2, h3, h4⟩ := lexOp da db '+' .Plus hda hnea hdb hneb
    (by decide) (by decide) (by decide) rfl
  have e1 : pGetToken ⟨.Num da, ⟨da ++ '+' :: db ++ [';', '\n'], da.length, [], 1⟩⟩ =
      .ok ⟨.Plus, ⟨da ++ '+' :: db ++ [';', '\n'], da.length + 1, [], 1⟩⟩ := by
    simp only [pGetToken]
    simp only [h2]
  have e2 : pGetToken ⟨.Plus, ⟨da ++ '+' :: db ++ [';', '\n'], da.length + 1, [], 1⟩⟩ =
      .ok ⟨.Num db, ⟨da ++ '+' :: db ++ [';', '\n'], da.length + 1 + db.length, [], 1⟩⟩ := by
    simp only [pGetToken]
    simp only [h3]
  have e3 : pGetToken ⟨.Num db,
      ⟨da ++ '+' :: db ++ [';', '\n'], da.length + 1 + db.length, [], 1⟩⟩ =
      .ok ⟨.Semi,
        ⟨da ++ '+' :: db ++ [';', '\n'], da.length + 1 + db.length + 1, [], 1⟩⟩ := by
    simp only [pGetToken]
    simp only [h4]
  have hva : parseI32 da = .ok (digitsToNat da : Int) := by
    rw [parseI32, if_pos hfa]
  have hvb : parseI32 db = .ok (digitsToNat db : Int) := by
    rw [parseI32, if_pos hfb]
  have f1 := factor_num_step 0 da _ _ _ rfl e1 hva
  have tr1 := termRF_stop 0 (AST.Num (digitsToNat da : Int))
    ⟨.Plus, ⟨da ++ '+' :: db ++ [';', '\n'], da.length + 1, [], 1⟩⟩ (Or.inl rfl)
  have t1 := termF_step 1 _ _ _ _ f1 tr1
  have f2 := factor_num_step 0 db _ _ _ rfl e3 hvb
  have tr2 := termRF_stop 0 (AST.Num (digitsToNat db : Int))
    ⟨.Semi, ⟨da ++ '+' :: db ++ [';', '\n'], da.length + 1 + db.length + 1, [], 1⟩⟩
    (Or.inr (Or.inr rfl))
  have t2 := termF_step 1 _ _ _ _ f2 tr2
  have x2 := expRF_stop 1
    (AST.Plus (AST.Num (digitsToNat da : Int)) (AST.Num (digitsToNat db : Int)))
    ⟨.Semi, ⟨da ++ '+' :: db ++ [';', '\n'], da.length + 1 + db.length + 1, [], 1⟩⟩
    rfl
  have x1 := expRF_plus_step 2 _ _ _ _ _ _ rfl e2 t2 x2
  have ht := termF_mono (show 2 ≤ 3 by omega) t1
  have hx := expF_step 3 _ _ _ _ ht x1
  have hp := programF_step 4 _ _ _ hx
  have hp30 := programF_mono (show 5 ≤ 30 by omega) hp
  have hwrap : i32wrap ((digitsToNat da : Int) + (digitsToNat db : Int)) =
      (digitsToNat da : Int) + (digitsToNat db : Int) := by
    apply i32wrap_eq <;> omega
  have hev : evaluate (AST.Plus (AST.Num (digitsToNat da : Int))
      (AST.Num (digitsToNat db : Int))) =
      .ok ((digitsToNat da : Int) + (digitsToNat db : Int)) := by
    rw [show evaluate (AST.Plus (AST.Num (digitsToNat da : Int))
        (AST.Num (digitsToNat db : Int))) =
      .ok (i32wrap ((digitsToNat da : Int) + (digitsToNat db : Int))) from rfl]
    rw [hwrap]
  exact mainRun_ok 30 _ _ _ _ _ _ h1 hp30 hev

theorem run_sub (da db : List Char)
    (hnea : da ≠ []) (hda : ∀ x ∈ da, x.isDigit = true)
    (hneb : db ≠ []) (hdb : ∀ x ∈ db, x.isDigit = true)
    (hfa : digitsToNat da ≤ 2147483647) (hfb : digitsToNat db ≤ 2147483647) :
    mainRun 30 [da ++ '-' :: db ++ [';', '\n']] =
      some ([.prompt,
        .result ((digitsToNat da : Int) - (digitsToNat db : Int))], none) := by
  obtain ⟨h1, h2, h3, h4⟩ := lexOp da db '-' .Minus hda hnea hdb hneb
    (by decide) (by decide) (by decide) rfl
  have e1 : pGetToken ⟨.Num da, ⟨da ++ '-' :: db ++ [';', '\n'], da.length, [], 1⟩⟩ =
      .ok ⟨.Minus, ⟨da ++ '-' :: db ++ [';', '\n'], da.length + 1, [], 1⟩⟩ := by
    simp only [pGetToken]
    simp only [h2]
  have e2 : pGetToken ⟨.Minus, ⟨da ++ '-' :: db ++ [';', '\n'], da.length + 1, [], 1⟩⟩ =
      .ok ⟨.Num db, ⟨da ++ '-' :: db ++ [';', '\n'], da.length + 1 + db.length, [], 1⟩⟩ := by
    simp only [pGetToken]
    simp only [h3]
  have e3 : pGetToken ⟨.Num db,
      ⟨da ++ '-' :: db ++ [';', '\n'], da.length + 1 + db.length, [], 1⟩⟩ =
      .ok ⟨.Semi,
        ⟨da ++ '-' :: db ++ [';', '\n'], da.length + 1 + db.length + 1, [], 1⟩⟩ := by
    simp only [pGetToken]
    simp only [h4]
  have hva : parseI32 da = .ok (digitsToNat da : Int) := by
    rw [parseI32, if_pos hfa]
  have hvb : parseI32 db = .ok (digitsToNat db : Int) := by
    rw [parseI32, if_pos hfb]
  have f1 := factor_num_step 0 da _ _ _ rfl e1 hva
  have tr1 := termRF_stop 0 (AST.Num (digitsToNat da : Int))
    ⟨.Minus, ⟨da ++ '-' :: db ++ [';', '\n'], da.length + 1, [], 1⟩⟩ (Or.inr (Or.inl rfl))
  have t1 := termF_step 1 _ _ _ _ f1 tr1
  have f2 := factor_num_step 0 db _ _ _ rfl e3 hvb
  have tr2 := termRF_stop 0 (AST.Num (digitsToNat db : Int))
    ⟨.Semi, ⟨da ++ '-' :: db ++ [';', '\n'], da.length + 1 + db.length + 1, [], 1⟩⟩
    (Or.inr (Or.inr rfl))
  have t2 := termF_step 1 _ _ _ _ f2 tr2
  have x2 := expRF_stop 1
    (AST.Minus (AST.Num (digitsToNat da : Int)) (AST.Num (digitsToNat db : Int)))
    ⟨.Semi, ⟨da ++ '-' :: db ++ [';', '\n'], da.length + 1 + db.length + 1, [], 1⟩⟩
    rfl
  have x1 := expRF_minus_step 2 _ _ _ _ _ _ rfl e2 t2 x2
  have ht := termF_mono (show 2 ≤ 3 by omega) t1
  have hx := expF_step 3 _ _ _ _ ht x1
  have hp := programF_step 4 _ _ _ hx
  have hp30 := programF_mono (show 5 ≤ 30 by omega) hp
  have hwrap : i32wrap ((digitsToNat da : Int) - (digitsToNat db : Int)) =
      (digitsToNat da : Int) - (digitsToNat db : Int) := by
    apply i32wrap_eq <;> omega
  have hev : evaluate (AST.Minus (AST.Num (digitsToNat da : Int))
      (AST.Num (digitsToNat db : Int))) =
      .ok ((digitsToNat da : Int) - (digitsToNat db : Int)) := by
    rw [show evaluate (AST.Minus (AST.Num (digitsToNat da : Int))
        (AST.Num (digitsToNat db : Int))) =
      .ok (i32wrap ((digitsToNat da : Int) - (digitsToNat db : Int))) from rfl]
    rw [hwrap]
  exact mainRun_ok 30 _ _ _ _ _ _ h1 hp30 hev

theorem run_mul (da db : List Char)
    (hnea : da ≠ []) (hda : ∀ x ∈ da, x.isDigit = true)
    (hneb : db ≠ []) (hdb : ∀ x ∈ db, x.isDigit = true)
    (hfa : digitsToNat da ≤ 2147483647) (hfb : digitsToNat db ≤ 2147483647)
    (hfab : digitsToNat da * digitsToNat db ≤ 2147483647) :
    mainRun 30 [da ++ '*' :: db ++ [';', '\n']] =
      some ([.prompt,
        .result ((digitsToNat da : Int) * (digitsToNat db : Int))], none) := by
  obtain ⟨h1, h2, h3, h4⟩ := lexOp da db '*' .Times hda hnea hdb hneb
    (by decide) (by decide) (by decide) rfl
  have e1 : pGetToken ⟨.Num da, ⟨da ++ '*' :: db ++ [';', '\n'], da.length, [], 1⟩⟩ =
      .ok ⟨.Times, ⟨da ++ '*' :: db ++ [';', '\n'], da.length + 1, [], 1⟩⟩ := by
    simp only [pGetToken]
    simp only [h2]
  have e2 : pGetToken ⟨.Times, ⟨da ++ '*' :: db ++ [';', '\n'], da.length + 1, [], 1⟩⟩ =
      .ok ⟨.Num db, ⟨da ++ '*' :: db ++ [';', '\n'], da.length + 1 + db.length, [], 1⟩⟩ := by
    simp only [pGetToken]
    simp only [h3]
  have e3 : pGetToken ⟨.Num db,
      ⟨da ++ '*' :: db ++ [';', '\n'], da.length + 1 + db.length, [], 1⟩⟩ =
      .ok ⟨.Semi,
        ⟨da ++ '*' :: db ++ [';', '\n'], da.length + 1 + db.length + 1, [], 1⟩⟩ := by
    simp only [pGetToken]
    simp only [h4]
  have hva : parseI32 da = .ok (digitsToNat da : Int) := by
    rw [parseI32, if_pos hfa]
  have hvb : parseI32 db = .ok (digitsToNat db : Int) := by
    rw [parseI32, if_pos hfb]
  have f1 := factor_num_step 0 da _ _ _ rfl e1 hva
  have f2 := factor_num_step 0 db _ _ _ rfl e3 hvb
  have trIn := termRF_stop 0
    (AST.Times (AST.Num (digitsToNat da : Int)) (AST.Num (digitsToNat db : Int)))
    ⟨.Semi, ⟨da ++ '*' :: db ++ [';', '\n'], da.length + 1 + db.length + 1, [], 1⟩⟩
    (Or.inr (Or.inr rfl))
  have tr1 := termRF_times_step 1 _ _ _ _ _ _ rfl e2 f2 trIn
  have f1up := factorF_mono (show 1 ≤ 2 by omega) f1
  have t1 := termF_step 2 _ _ _ _ f1up tr1
  have x1 := expRF_stop 2
    (AST.Times (AST.Num (digitsToNat da : Int)) (AST.Num (digitsToNat db : Int)))
    ⟨.Semi, ⟨da ++ '*' :: db ++ [';', '\n'], da.length + 1 + db.length + 1, [], 1⟩⟩
    rfl
  have hx := expF_step 3 _ _ _ _ t1 x1
  have hp := programF_step 4 _ _ _ hx
  have hp30 := programF_mono (show 5 ≤ 30 by omega) hp
  have hprod : (digitsToNat da : Int) * (digitsToNat db : Int) =
      ((digitsToNat da * digitsToNat db : Nat) : Int) := by
    push_cast
    ring
  have hwrap : i32wrap ((digitsToNat da : Int) * (digitsToNat db : Int)) =
      (digitsToNat da : Int) * (digitsToNat db : Int) := by
    rw [hprod]
    apply i32wrap_eq <;> omega
  have hev : evaluate (AST.Times (AST.Num (digitsToNat da : Int))
      (AST.Num (digitsToNat db : Int))) =
      .ok ((digitsToNat da : Int) * (digitsToNat db : Int)) := by
    rw [show evaluate (AST.Times (AST.Num (digitsToNat da : Int))
        (AST.Num (digitsToNat db : Int))) =
      .ok (i32wrap ((digitsToNat da : Int) * (digitsToNat db : Int))) from rfl]
    rw [hwrap]
  exact mainRun_ok 30 _ _ _ _ _ _ h1 hp30 hev

theorem run_div (da db : List Char)
    (hnea : da ≠ []) (hda : ∀ x ∈ da, x.isDigit = true)
    (hneb : db ≠ []) (hdb : ∀ x ∈ db, x.isDigit = true)
    (hfa : digitsToNat da ≤ 2147483647) (hfb : digitsToNat db ≤ 2147483647)
    (hb0 : 0 < digitsToNat db) :
    mainRun 30 [da ++ '/' :: db ++ [';', '\n']] =
      some ([.prompt,
        .result ((digitsToNat da / digitsToNat db : Nat) : Int)], none) := by
  obtain ⟨h1, h2, h3, h4⟩ := lexOp da db '/' .Divide hda hnea hdb hneb
    (by decide) (by decide) (by decide) rfl
  have e1 : pGetToken ⟨.Num da, ⟨da ++ '/' :: db ++ [';', '\n'], da.length, [], 1⟩⟩ =
      .ok ⟨.Divide, ⟨da ++ '/' :: db ++ [';', '\n'], da.length + 1, [], 1⟩⟩ := by
    simp only [pGetToken]
    simp only [h2]
  have e2 : pGetToken ⟨.Divide, ⟨da ++ '/' :: db ++ [';', '\n'], da.length + 1, [], 1⟩⟩ =
      .ok ⟨.Num db, ⟨da ++ '/' :: db ++ [';', '\n'], da.length + 1 + db.length, [], 1⟩⟩ := by
    simp only [pGetToken]
    simp only [h3]
  have e3 : pGetToken ⟨.Num db,
      ⟨da ++ '/' :: db ++ [';', '\n'], da.length + 1 + db.length, [], 1⟩⟩ =
      .ok ⟨.Semi,
        ⟨da ++ '/' :: db ++ [';', '\n'], da.length + 1 + db.length + 1, [], 1⟩⟩ := by
    simp only [pGetToken]
    simp only [h4]
  have hva : parseI32 da = .ok (digitsToNat da : Int) := by
    rw [parseI32, if_pos hfa]
  have hvb : parseI32 db = .ok (digitsToNat db : Int) := by
    rw [parseI32, if_pos hfb]
  have f1 := factor_num_step 0 da _ _ _ rfl e1 hva
  have f2 := factor_num_step 0 db _ _ _ rfl e3 hvb
  have trIn := termRF_stop 0
    (AST.Divide (AST.Num (digitsToNat da : Int)) (AST.Num (digitsToNat db : Int)))
    ⟨.Semi, ⟨da ++ '/' :: db ++ [';', '\n'], da.length + 1 + db.length + 1, [], 1⟩⟩
    (Or.inr (Or.inr rfl))
  have tr1 := termRF_div_step 1 _ _ _ _ _ _ rfl e2 f2 trIn
  have f1up := factorF_mono (show 1 ≤ 2 by omega) f1
  have t1 := termF_step 2 _ _ _ _ f1up tr1
  have x1 := expRF_stop 2
    (AST.Divide (AST.Num (digitsToNat da : Int)) (AST.Num (digitsToNat db : Int)))
    ⟨.Semi, ⟨da ++ '/' :: db ++ [';', '\n'], da.length + 1 + db.length + 1, [], 1⟩⟩
    rfl
  have hx := expF_step 3 _ _ _ _ t1 x1
  have hp := programF_step 4 _ _ _ hx
  have hp30 := programF_mono (show 5 ≤ 30 by omega) hp
  have hy0 : ¬ ((digitsToNat db : Int) = 0) := by omega
  have hxy : ¬ ((digitsToNat da : Int) = -2147483648 ∧
      (digitsToNat db : Int) = -1) := by omega
  have hev : evaluate (AST.Divide (AST.Num (digitsToNat da : Int))
      (AST.Num (digitsToNat db : Int))) =
      .ok ((digitsToNat da / digitsToNat db : Nat) : Int) := by
    rw [show evaluate (AST.Divide (AST.Num (digitsToNat da : Int))
        (AST.Num (digitsToNat db : Int))) =
      (if (digitsToNat db : Int) = 0 then .error .divByZero
       else if (digitsToNat da : Int) = -2147483648 ∧ (digitsToNat db : Int) = -1
         then .error .divOverflow
       else .ok (Int.tdiv (digitsToNat da : Int) (digitsToNat db : Int)))
        from rfl]
    rw [if_neg hy0, if_neg hxy]
    rfl
  exact mainRun_ok 30 _ _ _ _ _ _ h1 hp30 hev

theorem run_single (da : List Char)
    (hnea : da ≠ []) (hda : ∀ x ∈ da, x.isDigit = true)
    (hfa : digitsToNat da ≤ 2147483647) :
    mainRun 30 [da ++ [';', '\n']] =
      some ([.prompt, .result (digitsToNat da : Int)], none) := by
  have hascii_da : ∀ x ∈ da, utf8Len x = 1 :=
    fun x hx => isDigit_utf8Len x (hda x hx)
  have h1 : getToken (lexerNew [da ++ [';', '\n']]) =
      .ok (.Num da, ⟨da ++ [';', '\n'], da.length, [], 1⟩) := by
    have inst := getToken_num [] da ';' ['\n'] [] 1
      (by intro x hx; simp at hx) hnea hda (by decide)
    simpa [lexerNew, readLine] using inst
  have h2 : getToken ⟨da ++ [';', '\n'], da.length, [], 1⟩ =
      .ok (.Semi, ⟨da ++ [';', '\n'], da.length + 1, [], 1⟩) := by
    have inst := getToken_sym da ';' ['\n'] [] 1 .Semi
      hascii_da (by decide) (by decide) (by decide) rfl (by simp)
    simpa using inst
  have e1 : pGetToken ⟨.Num da, ⟨da ++ [';', '\n'], da.length, [], 1⟩⟩ =
      .ok ⟨.Semi, ⟨da ++ [';', '\n'], da.length + 1, [], 1⟩⟩ := by
    simp only [pGetToken]
    simp only [h2]
  have hva : parseI32 da = .ok (digitsToNat da : Int) := by
    rw [parseI32, if_pos hfa]
  have f1 := factor_num_step 0 da _ _ _ rfl e1 hva
  have tr1 := termRF_stop 0 (AST.Num (digitsToNat da : Int))
    ⟨.Semi, ⟨da ++ [';', '\n'], da.length + 1, [], 1⟩⟩ (Or.inr (Or.inr rfl))
  have t1 := termF_step 1 _ _ _ _ f1 tr1
  have x1 := expRF_stop 1 (AST.Num (digitsToNat da : Int))
    ⟨.Semi, ⟨da ++ [';', '\n'], da.length + 1, [], 1⟩⟩ rfl
  have hx := expF_step 2 _ _ _ _ t1 x1
  have hp := programF_step 3 _ _ _ hx
  have hp30 := programF_mono (show 4 ≤ 30 by omega) hp
  exact mainRun_ok 30 _ _ _ _ _ _ h1 hp30 rfl

/-- Claim C1, amended: for single-statement inputs `a;`, `a+b;`, `a-b;`,
`a*b;`, `a/b;` with digit-literal texts whose values fit in `i32` (`b`
nonzero for division, and the exact sum/product also fitting in `i32` for
`+` and `*`), the printed result is the exact arithmetic result, with `/`
truncating toward zero (on the grammar's non-negative operands, `Nat`
division), `*`/`/` binding tighter than `+`/`-`, and parentheses overriding
precedence: `2+3*4;` prints `14` and `(2+3)*4;` prints `20`. -/
theorem claim_C1 :
    (∀ da : List Char, da ≠ [] → (∀ c ∈ da, c.isDigit = true) →
      digitsToNat da ≤ 2147483647 →
      mainRun 30 [da ++ [';', '\n']] =
        some ([.prompt, .result (digitsToNat da : Int)], none)) ∧
    (∀ da db : List Char, da ≠ [] → (∀ c ∈ da, c.isDigit = true) →
      db ≠ [] → (∀ c ∈ db, c.isDigit = true) →
      digitsToNat da ≤ 2147483647 → digitsToNat db ≤ 2147483647 →
      digitsToNat da + digitsToNat db ≤ 2147483647 →
      mainRun 30 [da ++ '+' :: db ++ [';', '\n']] =
        some ([.prompt,
          .result ((digitsToNat da : Int) + (digitsToNat db : Int))], none)) ∧
    (∀ da db : List Char, da ≠ [] → (∀ c ∈ da, c.isDigit = true) →
      db ≠ [] → (∀ c ∈ db, c.isDigit = true) →
      digitsToNat da ≤ 2147483647 → digitsToNat db ≤ 2147483647 →
      mainRun 30 [da ++ '-' :: db ++ [';', '\n']] =
        some ([.prompt,
          .result ((digitsToNat da : Int) - (digitsToNat db : Int))], none)) ∧
    (∀ da db : List Char, da ≠ [] → (∀ c ∈ da, c.isDigit = true) →
      db ≠ [] → (∀ c ∈ db, c.isDigit = true) →
      digitsToNat da ≤ 2147483647 → digitsToNat db ≤ 2147483647 →
      digitsToNat da * digitsToNat db ≤ 2147483647 →
      mainRun 30 [da ++ '*' :: db ++ [';', '\n']] =
        some ([.prompt,
          .result ((digitsToNat da : Int) * (digitsToNat db : Int))], none)) ∧
    (∀ da db : List Char, da ≠ [] → (∀ c ∈ da, c.isDigit = true) →
      db ≠ [] → (∀ c ∈ db, c.isDigit = true) →
      digitsToNat da ≤ 2147483647 → digitsToNat db ≤ 2147483647 →
      0 < digitsToNat db →
      mainRun 30 [da ++ '/' :: db ++ [';', '\n']] =
        some ([.prompt,
          .result ((digitsToNat da / digitsToNat db : Nat) : Int)], none)) ∧
    mainRun 30 ["2+3*4;\n".toList] = some ([.prompt, .result (14)], none) ∧
    mainRun 30 ["(2+3)*4;\n".toList] = some ([.prompt, .result (20)], none) := by
  refine ⟨fun da h1 h2 h3 => run_single da h1 h2 h3,
    fun da db a1 a2 b1 b2 fa fb fab => run_add da db a1 a2 b1 b2 fa fb fab,
    fun da db a1 a2 b1 b2 fa fb => run_sub da db a1 a2 b1 b2 fa fb,
    fun da db a1 a2 b1 b2 fa fb fab => run_mul da db a1 a2 b1 b2 fa fb fab,
    fun da db a1 a2 b1 b2 fa fb h0 => run_div da db a1 a2 b1 b2 fa fb h0,
    ?_, ?_⟩
  ·
    have x1 : getToken (lexerNew ["2+3*4;\n".toList]) = .ok (Token.Num ['2'], ⟨"2+3*4;\n".toList, 1, [], 1⟩) := by decide
    have x2 : pGetToken (⟨Token.Num ['2'], ⟨"2+3*4;\n".toList, 1, [], 1⟩⟩ : ParserSt) = .ok (⟨Token.Plus, ⟨"2+3*4;\n".toList, 2, [], 1⟩⟩ : ParserSt) := by decide
    have x3 : factorF 27 (⟨Token.Num ['2'], ⟨"2+3*4;\n".toList, 1, [], 1⟩⟩ : ParserSt) = some (.ok ((AST.Num 2), (⟨Token.Plus, ⟨"2+3*4;\n".toList, 2, [], 1⟩⟩ : ParserSt))) := by decide
    have x4 : termRF 27 (AST.Num 2) (⟨Token.Plus, ⟨"2+3*4;\n".toList, 2, [], 1⟩⟩ : ParserSt) = some (.ok ((AST.Num 2), (⟨Token.Plus, ⟨"2+3*4;\n".toList, 2, [], 1⟩⟩ : ParserSt))) := by decide
    have x5 : termF 28 (⟨Token.Num ['2'], ⟨"2+3*4;\n".toList, 1, [], 1⟩⟩ : ParserSt) = some (.ok ((AST.Num 2), (⟨Token.Plus, ⟨"2+3*4;\n".toList, 2, [], 1⟩⟩ : ParserSt))) := termF_step 27 _ _ _ _ x3 x4
    have x6 : pGetToken (⟨Token.Plus, ⟨"2+3*4;\n".toList, 2, [], 1⟩⟩ : ParserSt) = .ok (⟨Token.Num ['3'], ⟨"2+3*4;\n".toList, 3, [], 1⟩⟩ : ParserSt) := by decide
    have x7 : pGetToken (⟨Token.Num ['3'], ⟨"2+3*4;\n".toList, 3, [], 1⟩⟩ : ParserSt) = .ok (⟨Token.Times, ⟨"2+3*4;\n".toList, 4, [], 1⟩⟩ : ParserSt) := by decide
    have x8 : factorF 26 (⟨Token.Num ['3'], ⟨"2+3*4;\n".toList, 3, [], 1⟩⟩ : ParserSt) = some (.ok ((AST.Num 3), (⟨Token.Times, ⟨"2+3*4;\n".toList, 4, [], 1⟩⟩ : ParserSt))) := by decide
    have x9 : pGetToken (⟨Token.Times, ⟨"2+3*4;\n".toList, 4, [], 1⟩⟩ : ParserSt) = .ok (⟨Token.Num ['4'], ⟨"2+3*4;\n".toList, 5, [], 1⟩⟩ : ParserSt) := by decide
    have x10 : pGetToken (⟨Token.Num ['4'], ⟨"2+3*4;\n".toList, 5, [], 1⟩⟩ : ParserSt) = .ok (⟨Token.Semi, ⟨"2+3*4;\n".toList, 6, [], 1⟩⟩ : ParserSt) := by decide
    have x11 : factorF 25 (⟨Token.Num ['4'], ⟨"2+3*4;\n".toList, 5, [], 1⟩⟩ : ParserSt) = some (.ok ((AST.Num 4), (⟨Token.Semi, ⟨"2+3*4;\n".toList, 6, [], 1⟩⟩ : ParserSt))) := by decide
    have x12 : termRF 25 (AST.Times (AST.Num 3) (AST.Num 4)) (⟨Token.Semi, ⟨"2+3*4;\n".toList, 6, [], 1⟩⟩ : ParserSt) = some (.ok ((AST.Times (AST.Num 3) (AST.Num 4)), (⟨Token.Semi, ⟨"2+3*4;\n".toList, 6, [], 1⟩⟩ : ParserSt))) := by decide
    have x13 : termRF 26 (AST.Num 3) (⟨Token.Times, ⟨"2+3*4;\n".toList, 4, [], 1⟩⟩ : ParserSt) = some (.ok ((AST.Times (AST.Num 3) (AST.Num 4)), (⟨Token.Semi, ⟨"2+3*4;\n".toList, 6, [], 1⟩⟩ : ParserSt))) := termRF_times_step 25 (AST.Num 3) (AST.Num 4) _ _ _ _ (by decide) x9 x11 x12
    have x14 : termF 27 (⟨Token.Num ['3'], ⟨"2+3*4;\n".toList, 3, [], 1⟩⟩ : ParserSt) = some (.ok ((AST.Times (AST.Num 3) (AST.Num 4)), (⟨Token.Semi, ⟨"2+3*4;\n".toList, 6, [], 1⟩⟩ : ParserSt))) := termF_step 26 _ _ _ _ x8 x13
    have x15 : expRF 27 (AST.Plus (AST.Num 2) (AST.Times (AST.Num 3) (AST.Num 4))) (⟨Token.Semi, ⟨"2+3*4;\n".toList, 6, [], 1⟩⟩ : ParserSt) = some (.ok ((AST.Plus (AST.Num 2) (AST.Times (AST.Num 3) (AST.Num 4))), (⟨Token.Semi, ⟨"2+3*4;\n".toList, 6, [], 1⟩⟩ : ParserSt))) := by decide
    have x16 : expRF 28 (AST.Num 2) (⟨Token.Plus, ⟨"2+3*4;\n".toList, 2, [], 1⟩⟩ : ParserSt) = some (.ok ((AST.Plus (AST.Num 2) (AST.Times (AST.Num 3) (AST.Num 4))), (⟨Token.Semi, ⟨"2+3*4;\n".toList, 6, [], 1⟩⟩ : ParserSt))) := expRF_plus_step 27 (AST.Num 2) (AST.Times (AST.Num 3) (AST.Num 4)) _ _ _ _ (by decide) x6 x14 x15
    have x17 : expF 29 (⟨Token.Num ['2'], ⟨"2+3*4;\n".toList, 1, [], 1⟩⟩ : ParserSt) = some (.ok ((AST.Plus (AST.Num 2) (AST.Times (AST.Num 3) (AST.Num 4))), (⟨Token.Semi, ⟨"2+3*4;\n".toList, 6, [], 1⟩⟩ : ParserSt))) := expF_step 28 _ _ _ _ x5 x16
    have x18 : programF 30 (⟨Token.Num ['2'], ⟨"2+3*4;\n".toList, 1, [], 1⟩⟩ : ParserSt) = some (.ok ((AST.Plus (AST.Num 2) (AST.Times (AST.Num 3) (AST.Num 4))), (⟨Token.Semi, ⟨"2+3*4;\n".toList, 6, [], 1⟩⟩ : ParserSt))) := programF_step 29 _ _ _ x17
    have xEV : evaluate (AST.Plus (AST.Num 2) (AST.Times (AST.Num 3) (AST.Num 4))) = .ok (14) := by decide
    have xRUN : mainRun 30 ["2+3*4;\n".toList] = some ([.prompt, .result (14)], none) := mainRun_ok 30 _ _ _ _ _ _ x1 x18 xEV
    exact xRUN
  ·
    have y1 : getToken (lexerNew ["(2+3)*4;\n".toList]) = .ok (Token.LParen, ⟨"(2+3)*4;\n".toList, 1, [], 1⟩) := by decide
    have y2 : pGetToken (⟨Token.LParen, ⟨"(2+3)*4;\n".toList, 1, [], 1⟩⟩ : ParserSt) = .ok (⟨Token.Num ['2'], ⟨"(2+3)*4;\n".toList, 2, [], 1⟩⟩ : ParserSt) := by decide
    have y3 : pGetToken (⟨Token.Num ['2'], ⟨"(2+3)*4;\n".toList, 2, [], 1⟩⟩ : ParserSt) = .ok (⟨Token.Plus, ⟨"(2+3)*4;\n".toList, 3, [], 1⟩⟩ : ParserSt) := by decide
    have y4 : factorF 24 (⟨Token.Num ['2'], ⟨"(2+3)*4;\n".toList, 2, [], 1⟩⟩ : ParserSt) = some (.ok ((AST.Num 2), (⟨Token.Plus, ⟨"(2+3)*4;\n".toList, 3, [], 1⟩⟩ : ParserSt))) := by decide
    have y5 : termRF 24 (AST.Num 2) (⟨Token.Plus, ⟨"(2+3)*4;\n".toList, 3, [], 1⟩⟩ : ParserSt) = some (.ok ((AST.Num 2), (⟨Token.Plus, ⟨"(2+3)*4;\n".toList, 3, [], 1⟩⟩ : ParserSt))) := by decide
    have y6 : termF 25 (⟨Token.Num ['2'], ⟨"(2+3)*4;\n".toList, 2, [], 1⟩⟩ : ParserSt) = some (.ok ((AST.Num 2), (⟨Token.Plus, ⟨"(2+3)*4;\n".toList, 3, [], 1⟩⟩ : ParserSt))) := termF_step 24 _ _ _ _ y4 y5
    have y7 : pGetToken (⟨Token.Plus, ⟨"(2+3)*4;\n".toList, 3, [], 1⟩⟩ : ParserSt) = .ok (⟨Token.Num ['3'], ⟨"(2+3)*4;\n".toList, 4, [], 1⟩⟩ : ParserSt) := by decide
    have y8 : pGetToken (⟨Token.Num ['3'], ⟨"(2+3)*4;\n".toList, 4, [], 1⟩⟩ : ParserSt) = .ok (⟨Token.RParen, ⟨"(2+3)*4;\n".toList, 5, [], 1⟩⟩ : ParserSt) := by decide
    have y9 : factorF 23 (⟨Token.Num ['3'], ⟨"(2+3)*4;\n".toList, 4, [], 1⟩⟩ : ParserSt) = some (.ok ((AST.Num 3), (⟨Token.RParen, ⟨"(2+3)*4;\n".toList, 5, [], 1⟩⟩ : ParserSt))) := by decide
    have y10 : termRF 23 (AST.Num 3) (⟨Token.RParen, ⟨"(2+3)*4;\n".toList, 5, [], 1⟩⟩ : ParserSt) = some (.ok ((AST.Num 3), (⟨Token.RParen, ⟨"(2+3)*4;\n".toList, 5, [], 1⟩⟩ : ParserSt))) := by decide
    have y11 : termF 24 (⟨Token.Num ['3'], ⟨"(2+3)*4;\n".toList, 4, [], 1⟩⟩ : ParserSt) = some (.ok ((AST.Num 3), (⟨Token.RParen, ⟨"(2+3)*4;\n".toList, 5, [], 1⟩⟩ : ParserSt))) := termF_step 23 _ _ _ _ y9 y10
    have y12 : expRF 24 (AST.Plus (AST.Num 2) (AST.Num 3)) (⟨Token.RParen, ⟨"(2+3)*4;\n".toList, 5, [], 1⟩⟩ : ParserSt) = some (.ok ((AST.Plus (AST.Num 2) (AST.Num 3)), (⟨Token.RParen, ⟨"(2+3)*4;\n".toList, 5, [], 1⟩⟩ : ParserSt))) := by decide
    have y13 : expRF 25 (AST.Num 2) (⟨Token.Plus, ⟨"(2+3)*4;\n".toList, 3, [], 1⟩⟩ : ParserSt) = some (.ok ((AST.Plus (AST.Num 2) (AST.Num 3)), (⟨Token.RParen, ⟨"(2+3)*4;\n".toList, 5, [], 1⟩⟩ : ParserSt))) := expRF_plus_step 24 (AST.Num 2) (AST.Num 3) _ _ _ _ (by decide) y7 y11 y12
    have y14 : expF 26 (⟨Token.Num ['2'], ⟨"(2+3)*4;\n".toList, 2, [], 1⟩⟩ : ParserSt) = some (.ok ((AST.Plus (AST.Num 2) (AST.Num 3)), (⟨Token.RParen, ⟨"(2+3)*4;\n".toList, 5, [], 1⟩⟩ : ParserSt))) := expF_step 25 _ _ _ _ y6 y13
    have y15 : pGetToken (⟨Token.RParen, ⟨"(2+3)*4;\n".toList, 5, [], 1⟩⟩ : ParserSt) = .ok (⟨Token.Times, ⟨"(2+3)*4;\n".toList, 6, [], 1⟩⟩ : ParserSt) := by decide
    have y16 : factorF 27 (⟨Token.LParen, ⟨"(2+3)*4;\n".toList, 1, [], 1⟩⟩ : ParserSt) = some (.ok ((AST.Plus (AST.Num 2) (AST.Num 3)), (⟨Token.Times, ⟨"(2+3)*4;\n".toList, 6, [], 1⟩⟩ : ParserSt))) := factor_paren_step 26 _ _ _ _ _ (by decide) y2 y14 (by decide) y15
    have y17 : pGetToken (⟨Token.Times, ⟨"(2+3)*4;\n".toList, 6, [], 1⟩⟩ : ParserSt) = .ok (⟨Token.Num ['4'], ⟨"(2+3)*4;\n".toList, 7, [], 1⟩⟩ : ParserSt) := by decide
    have y18 : pGetToken (⟨Token.Num ['4'], ⟨"(2+3)*4;\n".toList, 7, [], 1⟩⟩ : ParserSt) = .ok (⟨Token.Semi, ⟨"(2+3)*4;\n".toList, 8, [], 1⟩⟩ : ParserSt) := by decide
    have y19 : factorF 26 (⟨Token.Num ['4'], ⟨"(2+3)*4;\n".toList, 7, [], 1⟩⟩ : ParserSt) = some (.ok ((AST.Num 4), (⟨Token.Semi, ⟨"(2+3)*4;\n".toList, 8, [], 1⟩⟩ : ParserSt))) := by decide
    have y20 : termRF 26 (AST.Times (AST.Plus (AST.Num 2) (AST.Num 3)) (AST.Num 4)) (⟨Token.Semi, ⟨"(2+3)*4;\n".toList, 8, [], 1⟩⟩ : ParserSt) = some (.ok ((AST.Times (AST.Plus (AST.Num 2) (AST.Num 3)) (AST.Num 4)), (⟨Token.Semi, ⟨"(2+3)*4;\n".toList, 8, [], 1⟩⟩ : ParserSt))) := by decide
    have y21 : termRF 27 (AST.Plus (AST.Num 2) (AST.Num 3)) (⟨Token.Times, ⟨"(2+3)*4;\n".toList, 6, [], 1⟩⟩ : ParserSt) = some (.ok ((AST.Times (AST.Plus (AST.Num 2) (AST.Num 3)) (AST.Num 4)), (⟨Token.Semi, ⟨"(2+3)*4;\n".toList, 8, [], 1⟩⟩ : ParserSt))) := termRF_times_step 26 (AST.Plus (AST.Num 2) (AST.Num 3)) (AST.Num 4) _ _ _ _ (by decide) y17 y19 y20
    have y22 : termF 28 (⟨Token.LParen, ⟨"(2+3)*4;\n".toList, 1, [], 1⟩⟩ : ParserSt) = some (.ok ((AST.Times (AST.Plus (AST.Num 2) (AST.Num 3)) (AST.Num 4)), (⟨Token.Semi, ⟨"(2+3)*4;\n".toList, 8, [], 1⟩⟩ : ParserSt))) := termF_step 27 _ _ _ _ y16 y21
    have y23 : expRF 28 (AST.Times (AST.Plus (AST.Num 2) (AST.Num 3)) (AST.Num 4)) (⟨Token.Semi, ⟨"(2+3)*4;\n".toList, 8, [], 1⟩⟩ : ParserSt) = some (.ok ((AST.Times (AST.Plus (AST.Num 2) (AST.Num 3)) (AST.Num 4)), (⟨Token.Semi, ⟨"(2+3)*4;\n".toList, 8, [], 1⟩⟩ : ParserSt))) := by decide
    have y24 : expF 29 (⟨Token.LParen, ⟨"(2+3)*4;\n".toList, 1, [], 1⟩⟩ : ParserSt) = some (.ok ((AST.Times (AST.Plus (AST.Num 2) (AST.Num 3)) (AST.Num 4)), (⟨Token.Semi, ⟨"(2+3)*4;\n".toList, 8, [], 1⟩⟩ : ParserSt))) := expF_step 28 _ _ _ _ y22 y23
    have y25 : programF 30 (⟨Token.LParen, ⟨"(2+3)*4;\n".toList, 1, [], 1⟩⟩ : ParserSt) = some (.ok ((AST.Times (AST.Plus (AST.Num 2) (AST.Num 3)) (AST.Num 4)), (⟨Token.Semi, ⟨"(2+3)*4;\n".toList, 8, [], 1⟩⟩ : ParserSt))) := programF_step 29 _ _ _ y24
    have yEV : evaluate (AST.Times (AST.Plus (AST.Num 2) (AST.Num 3)) (AST.Num 4)) = .ok (20) := by decide
    have yRUN : mainRun 30 ["(2+3)*4;\n".toList] = some ([.prompt, .result (20)], none) := mainRun_ok 30 _ _ _ _ _ _ y1 y25 yEV
    exact yRUN

/-- Claim C1, witness: the amended claim instantiated at concrete inputs
`7;`, `2+3;`, `8-3;`, `2*3;`, `7/2;`. -/
theorem claim_C1_witness :
    mainRun 30 [['7'] ++ [';', '\n']] =
      some ([.prompt, .result 7], none) ∧
    mainRun 30 [['2'] ++ '+' :: ['3'] ++ [';', '\n']] =
      some ([.prompt, .result 5], none) ∧
    mainRun 30 [['8'] ++ '-' :: ['3'] ++ [';', '\n']] =
      some ([.prompt, .result 5], none) ∧
    mainRun 30 [['2'] ++ '*' :: ['3'] ++ [';', '\n']] =
      some ([.prompt, .result 6], none) ∧
    mainRun 30 [['7'] ++ '/' :: ['2'] ++ [';', '\n']] =
      some ([.prompt, .result 3], none) :=
  ⟨claim_C1.1 ['7'] (by decide) (by decide) (by decide),
   claim_C1.2.1 ['2'] ['3'] (by decide) (by decide) (by decide) (by decide)
     (by decide) (by decide) (by decide),
   claim_C1.2.2.1 ['8'] ['3'] (by decide) (by decide) (by decide) (by decide)
     (by decide) (by decide),
   claim_C1.2.2.2.1 ['2'] ['3'] (by decide) (by decide) (by decide) (by decide)
     (by decide) (by decide) (by decide),
   claim_C1.2.2.2.2.1 ['7'] ['2'] (by decide) (by decide) (by decide)
     (by decide) (by decide) (by decide) (by decide)⟩

theorem skipWsF_inv (n : Nat) : ∀ (st st2 : LexState) (c : Char),
    skipWsF n st = some (.ok (c, st2)) →
    current st2 = some c ∧ lexMeasure st2 ≤ lexMeasure st := by
  induction n with
  | zero => intro st st2 c h; simp [skipWsF] at h
  | succ n ih =>
    intro st st2 c h
    rw [skipWsF] at h
    cases hc : current st with
    | none => simp only [hc] at h; exact absurd h (by simp)
    | some c0 =>
      simp only [hc] at h
      by_cases hw : c0.isWhitespace
      · rw [if_pos hw] at h
        cases ha : advance st with
        | error e => simp only [ha] at h; exact absurd h (by simp)
        | ok st1 =>
          simp only [ha] at h
          have hlt := advance_lt st c0 st1 hc ha
          obtain ⟨h1, h2⟩ := ih st1 st2 c h
          exact ⟨h1, by omega⟩
      · rw [if_neg hw] at h
        simp only [Option.some.injEq, Except.ok.injEq, Prod.mk.injEq] at h
        obtain ⟨h1, h2⟩ := h
        subst h1; subst h2
        exact ⟨hc, Nat.le_refl _⟩

theorem skipWs_inv (st st2 : LexState) (c : Char)
    (h : skipWs st = .ok (c, st2)) :
    current st2 = some c ∧ lexMeasure st2 ≤ lexMeasure st := by
  have h0 : skipWsF (lexMeasure st + 1) st = some (skipWs st) :=
    skipWsF_eq_skipWs _ st (Nat.lt_succ_self _)
  rw [h] at h0
  exact skipWsF_inv (lexMeasure st + 1) st st2 c h0

theorem takeDigitsF_inv (n : Nat) : ∀ (acc : List Char) (st st2 : LexState)
    (t : List Char) (c : Char),
    takeDigitsF n acc st = some (.ok (t, c, st2)) →
    current st2 = some c ∧
      ((t = acc ∧ st2 = st) ∨ lexMeasure st2 < lexMeasure st) := by
  induction n with
  | zero => intro acc st st2 t c h; simp [takeDigitsF] at h
  | succ n ih =>
    intro acc st st2 t c h
    rw [takeDigitsF] at h
    cases hc : current st with
    | none => simp only [hc] at h; exact absurd h (by simp)
    | some c0 =>
      simp only [hc] at h
      by_cases hd : c0.isDigit
      · rw [if_pos hd] at h
        cases ha : advance st with
        | error e => simp only [ha] at h; exact absurd h (by simp)
        | ok st1 =>
          simp only [ha] at h
          have hlt := advance_lt st c0 st1 hc ha
          obtain ⟨h1, h2⟩ := ih (acc ++ [c0]) st1 st2 t c h
          refine ⟨h1, Or.inr ?_⟩
          rcases h2 with ⟨_, rfl⟩ | h2 <;> omega
      · rw [if_neg hd] at h
        simp only [Option.some.injEq, Except.ok.injEq, Prod.mk.injEq] at h
        obtain ⟨h1, h2, h3⟩ := h
        subst h1; subst h2; subst h3
        exact ⟨hc, Or.inl ⟨rfl, rfl⟩⟩

theorem takeDigits_inv (acc : List Char) (st st2 : LexState) (t : List Char)
    (c : Char) (h : takeDigits acc st = .ok (t, c, st2)) :
    current st2 = some c ∧
      ((t = acc ∧ st2 = st) ∨ lexMeasure st2 < lexMeasure st) := by
  have h0 : takeDigitsF (lexMeasure st + 1) acc st = some (takeDigits acc st) :=
    takeDigitsF_eq_takeDigits _ acc st (Nat.lt_succ_self _)
  rw [h] at h0
  exact takeDigitsF_inv (lexMeasure st + 1) acc st st2 t c h0

theorem getToken_lt (st st2 : LexState) (tk : Token)
    (h : getToken st = .ok (tk, st2)) : lexMeasure st2 < lexMeasure st := by
  rw [getToken] at h
  cases hs : skipWs st with
  | error e => simp only [hs] at h; exact absurd h (by simp)
  | ok cs =>
    obtain ⟨c, st1⟩ := cs
    simp only [hs] at h
    obtain ⟨hcur1, hle1⟩ := skipWs_inv st st1 c hs
    cases htd : takeDigits [] st1 with
    | error e => simp only [htd] at h; exact absurd h (by simp)
    | ok tcs =>
      obtain ⟨t, c2, stm⟩ := tcs
      simp only [htd] at h
      obtain ⟨hcur2, hdisj⟩ := takeDigits_inv [] st1 stm t c2 htd
      by_cases ht : t ≠ []
      · rw [if_pos ht] at h
        simp only [Option.some.injEq, Except.ok.injEq, Prod.mk.injEq] at h
        · obtain ⟨_, h2⟩ := h
          subst h2
          rcases hdisj with ⟨rfl, _⟩ | h2
          · exact absurd rfl ht
          · omega
      · rw [if_neg ht] at h
        cases ha : advance stm with
        | error e => simp only [ha] at h; exact absurd h (by simp)
        | ok st3 =>
          simp only [ha] at h
          have hlt := advance_lt stm c2 st3 hcur2 ha
          cases hsym : symTok c2 with
          | none => simp only [hsym] at h; exact absurd h (by simp)
          | some tk2 =>
            simp only [hsym, Option.some.injEq, Except.ok.injEq,
              Prod.mk.injEq] at h
            obtain ⟨_, h2⟩ := h
            subst h2
            rcases hdisj with ⟨_, rfl⟩ | h2 <;> omega

theorem pGetToken_lt (p p2 : ParserSt) (h : pGetToken p = .ok p2) :
    lexMeasure p2.lex < lexMeasure p.lex := by
  rw [pGetToken] at h
  cases hg : getToken p.lex with
  | error e => simp only [hg] at h; exact absurd h (by simp)
  | ok ts =>
    obtain ⟨t, st⟩ := ts
    simp only [hg, Except.ok.injEq] at h
    subst h
    exact getToken_lt p.lex st t hg

theorem eat_lt (t : Token) (p p2 : ParserSt) (h : eat t p = .ok p2) :
    lexMeasure p2.lex < lexMeasure p.lex := by
  rw [eat] at h
  by_cases ht : p.tok = t
  · rw [if_pos ht] at h
    exact pGetToken_lt p p2 h
  · rw [if_neg ht] at h
    exact absurd h (by simp)

theorem prodMeasureLe : ∀ n : Nat,
    (∀ p a p2, programF n p = some (.ok (a, p2)) →
      lexMeasure p2.lex ≤ lexMeasure p.lex) ∧
    (∀ p a p2, expF n p = some (.ok (a, p2)) →
      lexMeasure p2.lex ≤ lexMeasure p.lex) ∧
    (∀ t p a p2, expRF n t p = some (.ok (a, p2)) →
      lexMeasure p2.lex ≤ lexMeasure p.lex) ∧
    (∀ p a p2, termF n p = some (.ok (a, p2)) →
      lexMeasure p2.lex ≤ lexMeasure p.lex) ∧
    (∀ t p a p2, termRF n t p = some (.ok (a, p2)) →
      lexMeasure p2.lex ≤ lexMeasure p.lex) ∧
    (∀ p a p2, factorF n p = some (.ok (a, p2)) →
      lexMeasure p2.lex ≤ lexMeasure p.lex) := by
  intro n
  induction n with
  | zero =>
    refine ⟨fun p a p2 h => ?_, fun p a p2 h => ?_, fun t p a p2 h => ?_,
      fun p a p2 h => ?_, fun t p a p2 h => ?_, fun p a p2 h => ?_⟩ <;>
      simp [programF, expF, expRF, termF, termRF, factorF] at h
  | succ n ih =>
    obtain ⟨ihP, ihE, ihER, ihT, ihTR, ihF⟩ := ih
    refine ⟨?_, ?_, ?_, ?_, ?_, ?_⟩
    · intro p a p2 h
      rw [programF] at h
      cases hE : expF n p with
      | none => simp only [hE] at h; exact absurd h (by simp)
      | some x =>
        simp only [hE] at h
        cases x with
        | error e => exact absurd h (by simp)
        | ok ap =>
          obtain ⟨a1, p1⟩ := ap
          simp only [semi, Option.some.injEq, Except.ok.injEq,
            Prod.mk.injEq] at h
          obtain ⟨h1, h2⟩ := h
          exact h2 ▸ ihE p a1 p1 hE
    · intro p a p2 h
      rw [expF] at h
      cases hT : termF n p with
      | none => simp only [hT] at h; exact absurd h (by simp)
      | some x =>
        simp only [hT] at h
        cases x with
        | error e => exact absurd h (by simp)
        | ok tp =>
          obtain ⟨t, p1⟩ := tp
          have h1 := ihT p t p1 hT
          have h2 := ihER t p1 a p2 h
          omega
    · intro t p a p2 h
      rw [expRF] at h
      cases htok : p.tok <;> simp only [htok] at h <;>
        try (simp only [Option.some.injEq, Except.ok.injEq,
              Prod.mk.injEq] at h
             obtain ⟨h1, h2⟩ := h
             subst h2
             exact Nat.le_refl _)
      case Plus =>
        cases hE : eat .Plus p with
        | error e => simp only [hE] at h; exact absurd h (by simp)
        | ok p1 =>
          simp only [hE] at h
          have hlt := eat_lt .Plus p p1 hE
          cases hT : termF n p1 with
          | none => simp only [hT] at h; exact absurd h (by simp)
          | some x =>
            simp only [hT] at h
            cases x with
            | error e => exact absurd h (by simp)
            | ok sp =>
              obtain ⟨s, p2x⟩ := sp
              have h1 := ihT p1 s p2x hT
              have h2 := ihER (.Plus t s) p2x a p2 h
              omega
      case Minus =>
        cases hE : eat .Minus p with
        | error e => simp only [hE] at h; exact absurd h (by simp)
        | ok p1 =>
          simp only [hE] at h
          have hlt := eat_lt .Minus p p1 hE
          cases hT : termF n p1 with
          | none => simp only [hT] at h; exact absurd h (by simp)
          | some x =>
            simp only [hT] at h
            cases x with
            | error e => exact absurd h (by simp)
            | ok sp =>
              obtain ⟨s, p2x⟩ := sp
              have h1 := ihT p1 s p2x hT
              have h2 := ihER (.Minus t s) p2x a p2 h
              omega
    · intro p a p2 h
      rw [termF] at h
      cases hF : factorF n p with
      | none => simp only [hF] at h; exact absurd h (by simp)
      | some x =>
        simp only [hF] at h
        cases x with
        | error e => exact absurd h (by simp)
        | ok fp =>
          obtain ⟨f, p1⟩ := fp
          have h1 := ihF p f p1 hF
          have h2 := ihTR f p1 a p2 h
          omega
    · intro t p a p2 h
      rw [termRF] at h
      cases htok : p.tok <;> simp only [htok] at h <;>
        try (simp only [Option.some.injEq, Except.ok.injEq,
              Prod.mk.injEq] at h
             obtain ⟨h1, h2⟩ := h
             subst h2
             exact Nat.le_refl _)
      case Times =>
        cases hE : eat .Times p with
        | error e => simp only [hE] at h; exact absurd h (by simp)
        | ok p1 =>
          simp only [hE] at h
          have hlt := eat_lt .Times p p1 hE
          cases hF : factorF n p1 with
          | none => simp only [hF] at h; exact absurd h (by simp)
          | some x =>
            simp only [hF] at h
            cases x with
            | error e => exact absurd h (by simp)
            | ok gp =>
              obtain ⟨g, p2x⟩ := gp
              have h1 := ihF p1 g p2x hF
              have h2 := ihTR (.Times t g) p2x a p2 h
              omega
      case Divide =>
        cases hE : eat .Divide p with
        | error e => simp only [hE] at h; exact absurd h (by simp)
        | ok p1 =>
          simp only [hE] at h
          have hlt := eat_lt .Divide p p1 hE
          cases hF : factorF n p1 with
          | none => simp only [hF] at h; exact absurd h (by simp)
          | some x =>
            simp only [hF] at h
            cases x with
            | error e => exact absurd h (by simp)
            | ok gp =>
              obtain ⟨g, p2x⟩ := gp
              have h1 := ihF p1 g p2x hF
              have h2 := ihTR (.Divide t g) p2x a p2 h
              omega
    · intro p a p2 h
      rw [factorF] at h
      cases htok : p.tok <;> simp only [htok] at h <;>
        try (exact absurd h (by simp))
      case Num ds =>
        cases hq : pGetToken p with
        | error e => simp only [hq] at h; exact absurd h (by simp)
        | ok p1 =>
          simp only [hq] at h
          have hlt := pGetToken_lt p p1 hq
          cases hv : parseI32 ds with
          | error e => simp only [hv] at h; exact absurd h (by simp)
          | ok v =>
            simp only [hv, Option.some.injEq, Except.ok.injEq,
              Prod.mk.injEq] at h
            obtain ⟨h1, h2⟩ := h
            subst h2
            omega
      case LParen =>
        cases hE : eat .LParen p with
        | error e => simp only [hE] at h; exact absurd h (by simp)
        | ok p1 =>
          simp only [hE] at h
          have hlt := eat_lt .LParen p p1 hE
          cases hX : expF n p1 with
          | none => simp only [hX] at h; exact absurd h (by simp)
          | some x =>
            simp only [hX] at h
            cases x with
            | error e => exact absurd h (by simp)
            | ok ap =>
              obtain ⟨a1, p2x⟩ := ap
              have h1 := ihE p1 a1 p2x hX
              cases hE2 : eat .RParen p2x with
              | error e => simp only [hE2] at h; exact absurd h (by simp)
              | ok p3 =>
                simp only [hE2, Option.some.injEq, Except.ok.injEq,
                  Prod.mk.injEq] at h
                obtain ⟨h2, h3⟩ := h
                subst h3
                have hlt2 := eat_lt .RParen p2x p3 hE2
                omega

/-- Claim C10: the mutually recursive productions terminate on every finite
input: for every parser state (and accumulated tree for the helper
productions) some fuel value makes all six fueled productions return a
result, by strong induction on the number of unconsumed input bytes, which
every successful token fetch strictly decreases. -/
theorem claim_C10 (p : ParserSt) (t : AST) :
    ∃ n, (programF n p).isSome ∧ (expF n p).isSome ∧ (expRF n t p).isSome ∧
      (termF n p).isSome ∧ (termRF n t p).isSome ∧ (factorF n p).isSome := by
  suffices H : ∀ m : Nat, ∀ p : ParserSt, lexMeasure p.lex < m →
      ∀ u : AST,
        (∃ n, (factorF n p).isSome) ∧ (∃ n, (termRF n u p).isSome) ∧
        (∃ n, (termF n p).isSome) ∧ (∃ n, (expRF n u p).isSome) ∧
        (∃ n, (expF n p).isSome) ∧ (∃ n, (programF n p).isSome) by
    obtain ⟨⟨n1, h1⟩, ⟨n2, h2⟩, ⟨n3, h3⟩, ⟨n4, h4⟩, ⟨n5, h5⟩, ⟨n6, h6⟩⟩ :=
      H (lexMeasure p.lex + 1) p (Nat.lt_succ_self _) t
    obtain ⟨r1, hr1⟩ := Option.isSome_iff_exists.mp h1
    obtain ⟨r2, hr2⟩ := Option.isSome_iff_exists.mp h2
    obtain ⟨r3, hr3⟩ := Option.isSome_iff_exists.mp h3
    obtain ⟨r4, hr4⟩ := Option.isSome_iff_exists.mp h4
    obtain ⟨r5, hr5⟩ := Option.isSome_iff_exists.mp h5
    obtain ⟨r6, hr6⟩ := Option.isSome_iff_exists.mp h6
    refine ⟨n1 + n2 + n3 + n4 + n5 + n6, ?_, ?_, ?_, ?_, ?_, ?_⟩
    · exact Option.isSome_iff_exists.mpr ⟨r6, programF_mono (by omega) hr6⟩
    · exact Option.isSome_iff_exists.mpr ⟨r5, expF_mono (by omega) hr5⟩
    · exact Option.isSome_iff_exists.mpr ⟨r4, expRF_mono (by omega) hr4⟩
    · exact Option.isSome_iff_exists.mpr ⟨r3, termF_mono (by omega) hr3⟩
    · exact Option.isSome_iff_exists.mpr ⟨r2, termRF_mono (by omega) hr2⟩
    · exact Option.isSome_iff_exists.mpr ⟨r1, factorF_mono (by omega) hr1⟩
  intro m
  induction m with
  | zero => intro p h; omega
  | succ m ih =>
    intro p hp
    have Hfac : ∀ q : ParserSt, lexMeasure q.lex < m + 1 →
        ∃ n, (factorF n q).isSome := by
      intro q hq
      cases htok : q.tok
      case Num ds =>
        refine ⟨0 + 1, ?_⟩
        rw [factorF]
        simp only [htok]
        cases hg : pGetToken q with
        | error e => simp
        | ok p1 =>
          simp only
          cases hv : parseI32 ds <;> simp
      case LParen =>
        cases hE : eat .LParen q with
        | error e => exact ⟨0 + 1, by rw [factorF]; simp [htok, hE]⟩
        | ok p1 =>
          have hlt := eat_lt _ _ _ hE
          obtain ⟨n1, h1⟩ := (ih p1 (by omega) (AST.Num 0)).2.2.2.2.1
          obtain ⟨r, hr⟩ := Option.isSome_iff_exists.mp h1
          refine ⟨n1 + 1, ?_⟩
          rw [factorF]
          simp only [htok, hE, hr]
          cases r with
          | error e => simp
          | ok ap =>
            obtain ⟨a, p2⟩ := ap
            simp only
            cases hE2 : eat .RParen p2 <;> simp
      all_goals exact ⟨0 + 1, by rw [factorF]; simp [htok]⟩
    have HtR : ∀ (q : ParserSt) (u : AST), lexMeasure q.lex < m + 1 →
        ∃ n, (termRF n u q).isSome := by
      intro q u hq
      cases htok : q.tok
      case Times =>
        cases hE : eat .Times q with
        | error e => exact ⟨0 + 1, by rw [termRF]; simp [htok, hE]⟩
        | ok p1 =>
          have hlt := eat_lt _ _ _ hE
          obtain ⟨n1, h1⟩ := (ih p1 (by omega) u).1
          obtain ⟨r, hr⟩ := Option.isSome_iff_exists.mp h1
          cases r with
          | error e => exact ⟨n1 + 1, by rw [termRF]; simp [htok, hE, hr]⟩
          | ok gp =>
            obtain ⟨g, p2⟩ := gp
            have hle2 := (prodMeasureLe n1).2.2.2.2.2 p1 g p2 hr
            obtain ⟨n2, h2⟩ := (ih p2 (by omega) (AST.Times u g)).2.1
            obtain ⟨r2, hr2⟩ := Option.isSome_iff_exists.mp h2
            have hrA := factorF_mono (Nat.le_max_left n1 n2) hr
            have hrB := termRF_mono (Nat.le_max_right n1 n2) hr2
            refine ⟨max n1 n2 + 1, ?_⟩
            rw [termRF]
            simp only [htok, hE, hrA, hrB]
            simp
      case Divide =>
        cases hE : eat .Divide q with
        | error e => exact ⟨0 + 1, by rw [termRF]; simp [htok, hE]⟩
        | ok p1 =>
          have hlt := eat_lt _ _ _ hE
          obtain ⟨n1, h1⟩ := (ih p1 (by omega) u).1
          obtain ⟨r, hr⟩ := Option.isSome_iff_exists.mp h1
          cases r with
          | error e => exact ⟨n1 + 1, by rw [termRF]; simp [htok, hE, hr]⟩
          | ok gp =>
            obtain ⟨g, p2⟩ := gp
            have hle2 := (prodMeasureLe n1).2.2.2.2.2 p1 g p2 hr
            obtain ⟨n2, h2⟩ := (ih p2 (by omega) (AST.Divide u g)).2.1
            obtain ⟨r2, hr2⟩ := Option.isSome_iff_exists.mp h2
            have hrA := factorF_mono (Nat.le_max_left n1 n2) hr
            have hrB := termRF_mono (Nat.le_max_right n1 n2) hr2
            refine ⟨max n1 n2 + 1, ?_⟩
            rw [termRF]
            simp only [htok, hE, hrA, hrB]
            simp
      all_goals exact ⟨0 + 1, by rw [termRF]; simp [htok]⟩
    have Hterm : ∀ q : ParserSt, lexMeasure q.lex < m + 1 →
        ∃ n, (termF n q).isSome := by
      intro q hq
      obtain ⟨n1, h1⟩ := Hfac q hq
      obtain ⟨r, hr⟩ := Option.isSome_iff_exists.mp h1
      cases r with
      | error e => exact ⟨n1 + 1, by rw [termF]; simp [hr]⟩
      | ok fp =>
        obtain ⟨f, p1⟩ := fp
        have hle := (prodMeasureLe n1).2.2.2.2.2 q f p1 hr
        obtain ⟨n2, h2⟩ := HtR p1 f (by omega)
        obtain ⟨r2, hr2⟩ := Option.isSome_iff_exists.mp h2
        have hrA := factorF_mono (Nat.le_max_left n1 n2) hr
        have hrB := termRF_mono (Nat.le_max_right n1 n2) hr2
        refine ⟨max n1 n2 + 1, ?_⟩
        rw [termF]
        simp only [hrA, hrB]
        simp
    have HxR : ∀ (q : ParserSt) (u : AST), lexMeasure q.lex < m + 1 →
        ∃ n, (expRF n u q).isSome := by
      intro q u hq
      cases htok : q.tok
      case Plus =>
        cases hE : eat .Plus q with
        | error e => exact ⟨0 + 1, by rw [expRF]; simp [htok, hE]⟩
        | ok p1 =>
          have hlt := eat_lt _ _ _ hE
          obtain ⟨n1, h1⟩ := Hterm p1 (by omega)
          obtain ⟨r, hr⟩ := Option.isSome_iff_exists.mp h1
          cases r with
          | error e => exact ⟨n1 + 1, by rw [expRF]; simp [htok, hE, hr]⟩
          | ok sp =>
            obtain ⟨s, p2⟩ := sp
            have hle2 := (prodMeasureLe n1).2.2.2.1 p1 s p2 hr
            obtain ⟨n2, h2⟩ := (ih p2 (by omega) (AST.Plus u s)).2.2.2.1
            obtain ⟨r2, hr2⟩ := Option.isSome_iff_exists.mp h2
            have hrA := termF_mono (Nat.le_max_left n1 n2) hr
            have hrB := expRF_mono (Nat.le_max_right n1 n2) hr2
            refine ⟨max n1 n2 + 1, ?_⟩
            rw [expRF]
            simp only [htok, hE, hrA, hrB]
            simp
      case Minus =>
        cases hE : eat .Minus q with
        | error e => exact ⟨0 + 1, by rw [expRF]; simp [htok, hE]⟩
        | ok p1 =>
          have hlt := eat_lt _ _ _ hE
          obtain ⟨n1, h1⟩ := Hterm p1 (by omega)
          obtain ⟨r, hr⟩ := Option.isSome_iff_exists.mp h1
          cases r with
          | error e => exact ⟨n1 + 1, by rw [expRF]; simp [htok, hE, hr]⟩
          | ok sp =>
            obtain ⟨s, p2⟩ := sp
            have hle2 := (prodMeasureLe n1).2.2.2.1 p1 s p2 hr
            obtain ⟨n2, h2⟩ := (ih p2 (by omega) (AST.Minus u s)).2.2.2.1
            obtain ⟨r2, hr2⟩ := Option.isSome_iff_exists.mp h2
            have hrA := termF_mono (Nat.le_max_left n1 n2) hr
            have hrB := expRF_mono (Nat.le_max_right n1 n2) hr2
            refine ⟨max n1 n2 + 1, ?_⟩
            rw [expRF]
            simp only [htok, hE, hrA, hrB]
            simp
      all_goals exact ⟨0 + 1, by rw [expRF]; simp [htok]⟩
    have Hexp : ∀ q : ParserSt, lexMeasure q.lex < m + 1 →
        ∃ n, (expF n q).isSome := by
      intro q hq
      obtain ⟨n1, h1⟩ := Hterm q hq
      obtain ⟨r, hr⟩ := Option.isSome_iff_exists.mp h1
      cases r with
      | error e => exact ⟨n1 + 1, by rw [expF]; simp [hr]⟩
      | ok tp =>
        obtain ⟨tt, p1⟩ := tp
        have hle := (prodMeasureLe n1).2.2.2.1 q tt p1 hr
        obtain ⟨n2, h2⟩ := HxR p1 tt (by omega)
        obtain ⟨r2, hr2⟩ := Option.isSome_iff_exists.mp h2
        have hrA := termF_mono (Nat.le_max_left n1 n2) hr
        have hrB := expRF_mono (Nat.le_max_right n1 n2) hr2
        refine ⟨max n1 n2 + 1, ?_⟩
        rw [expF]
        simp only [hrA, hrB]
        simp
    have Hprog : ∀ q : ParserSt, lexMeasure q.lex < m + 1 →
        ∃ n, (programF n q).isSome := by
      intro q hq
      obtain ⟨n1, h1⟩ := Hexp q hq
      obtain ⟨r, hr⟩ := Option.isSome_iff_exists.mp h1
      cases r with
      | error e => exact ⟨n1 + 1, by rw [programF]; simp [hr]⟩
      | ok ap =>
        obtain ⟨a, p1⟩ := ap
        exact ⟨n1 + 1, by rw [programF]; simp [hr]⟩
    exact fun u => ⟨Hfac p hp, HtR p u hp, Hterm p hp, HxR p u hp,
      Hexp p hp, Hprog p hp⟩

theorem advance_err (st : LexState) (e : Err) (h : advance st = .error e) :
    e = .nonsensicalChar := by
  rw [advance] at h
  by_cases hc : st.offset ≥ byteLen st.buffer - 1
  · rw [if_pos hc] at h
    exact absurd h (by simp)
  · rw [if_neg hc] at h
    cases hcur : current st with
    | none => simp only [hcur, Except.error.injEq] at h; exact h.symm
    | some c => simp only [hcur] at h; exact absurd h (by simp)

theorem skipWsF_err (n : Nat) : ∀ (st : LexState) (e : Err),
    skipWsF n st = some (.error e) → e = .nonsensicalChar := by
  induction n with
  | zero => intro st e h; simp [skipWsF] at h
  | succ n ih =>
    intro st e h
    rw [skipWsF] at h
    cases hc : current st with
    | none =>
      simp only [hc, Option.some.injEq, Except.error.injEq] at h
      exact h.symm
    | some c =>
      simp only [hc] at h
      by_cases hw : c.isWhitespace
      · rw [if_pos hw] at h
        cases ha : advance st with
        | error e2 =>
          simp only [ha, Option.some.injEq, Except.error.injEq] at h
          exact h ▸ advance_err st e2 ha
        | ok st2 => simp only [ha] at h; exact ih st2 e h
      · rw [if_neg hw] at h; exact absurd h (by simp)

theorem skipWs_err (st : LexState) (e : Err) (h : skipWs st = .error e) :
    e = .nonsensicalChar := by
  have h0 : skipWsF (lexMeasure st + 1) st = some (skipWs st) :=
    skipWsF_eq_skipWs _ st (Nat.lt_succ_self _)
  rw [h] at h0
  exact skipWsF_err _ st e h0

theorem takeDigitsF_err (n : Nat) : ∀ (acc : List Char) (st : LexState) (e : Err),
    takeDigitsF n acc st = some (.error e) → e = .nonsensicalChar := by
  induction n with
  | zero => intro acc st e h; simp [takeDigitsF] at h
  | succ n ih =>
    intro acc st e h
    rw [takeDigitsF] at h
    cases hc : current st with
    | none =>
      simp only [hc, Option.some.injEq, Except.error.injEq] at h
      exact h.symm
    | some c =>
      simp only [hc] at h
      by_cases hd : c.isDigit
      · rw [if_pos hd] at h
        cases ha : advance st with
        | error e2 =>
          simp only [ha, Option.some.injEq, Except.error.injEq] at h
          exact h ▸ advance_err st e2 ha
        | ok st2 => simp only [ha] at h; exact ih (acc ++ [c]) st2 e h
      · rw [if_neg hd] at h; exact absurd h (by simp)

theorem takeDigits_err (acc : List Char) (st : LexState) (e : Err)
    (h : takeDigits acc st = .error e) : e = .nonsensicalChar := by
  have h0 : takeDigitsF (lexMeasure st + 1) acc st = some (takeDigits acc st) :=
    takeDigitsF_eq_takeDigits _ acc st (Nat.lt_succ_self _)
  rw [h] at h0
  exact takeDigitsF_err _ acc st e h0

theorem getToken_err (st : LexState) (e : Err) (h : getToken st = .error e) :
    e = .nonsensicalChar ∨ ∃ c, e = .unrecognizedChar c := by
  rw [getToken] at h
  cases hs : skipWs st with
  | error e2 =>
    simp only [hs, Except.error.injEq] at h
    exact Or.inl (h ▸ skipWs_err st e2 hs)
  | ok cs =>
    obtain ⟨c, st1⟩ := cs
    simp only [hs] at h
    cases htd : takeDigits [] st1 with
    | error e2 =>
      simp only [htd, Except.error.injEq] at h
      exact Or.inl (h ▸ takeDigits_err [] st1 e2 htd)
    | ok tcs =>
      obtain ⟨t, c2, stm⟩ := tcs
      simp only [htd] at h
      by_cases ht : t ≠ []
      · rw [if_pos ht] at h; exact absurd h (by simp)
      · rw [if_neg ht] at h
        cases ha : advance stm with
        | error e2 =>
          simp only [ha, Except.error.injEq] at h
          exact Or.inl (h ▸ advance_err stm e2 ha)
        | ok st3 =>
          simp only [ha] at h
          cases hsym : symTok c2 with
          | none =>
            simp only [hsym, Except.error.injEq] at h
            exact Or.inr ⟨c2, h.symm⟩
          | some tk => simp only [hsym] at h; exact absurd h (by simp)

theorem pGetToken_err (p : ParserSt) (e : Err) (h : pGetToken p = .error e) :
    e ≠ .initReadLine ∧ e ≠ .advanceReadLine := by
  rw [pGetToken] at h
  cases hg : getToken p.lex with
  | error e2 =>
    simp only [hg, Except.error.injEq] at h
    subst h
    rcases getToken_err p.lex e2 hg with h2 | ⟨c, h2⟩ <;> subst h2 <;>
      exact ⟨by simp, by simp⟩
  | ok ts => obtain ⟨t, s⟩ := ts; simp only [hg] at h; exact absurd h (by simp)

theorem eat_err (t : Token) (p : ParserSt) (e : Err) (h : eat t p = .error e) :
    e ≠ .initReadLine ∧ e ≠ .advanceReadLine := by
  rw [eat] at h
  by_cases ht : p.tok = t
  · rw [if_pos ht] at h; exact pGetToken_err p e h
  · rw [if_neg ht] at h
    simp only [Except.error.injEq] at h
    subst h
    exact ⟨by simp, by simp⟩

theorem parseI32_err (l : List Char) (e : Err) (h : parseI32 l = .error e) :
    e ≠ .initReadLine ∧ e ≠ .advanceReadLine := by
  rw [parseI32] at h
  by_cases hf : digitsToNat l ≤ 2147483647
  · rw [if_pos hf] at h; exact absurd h (by simp)
  · rw [if_neg hf] at h
    simp only [Except.error.injEq] at h
    subst h
    exact ⟨by simp, by simp⟩

theorem evaluate_err (a : AST) : ∀ (e : Err), evaluate a = .error e →
    e ≠ .initReadLine ∧ e ≠ .advanceReadLine := by
  induction a with
  | Num x => intro e h; simp [evaluate] at h
  | Plus l r ihl ihr =>
    intro e h
    rw [evaluate] at h
    cases hl : evaluate l with
    | error e2 =>
      simp only [hl, Except.error.injEq] at h
      exact h ▸ ihl e2 hl
    | ok x =>
      simp only [hl] at h
      cases hr : evaluate r with
      | error e2 =>
        simp only [hr, Except.error.injEq] at h
        exact h ▸ ihr e2 hr
      | ok y => simp only [hr] at h; exact absurd h (by simp)
  | Minus l r ihl ihr =>
    intro e h
    rw [evaluate] at h
    cases hl : evaluate l with
    | error e2 =>
      simp only [hl, Except.error.injEq] at h
      exact h ▸ ihl e2 hl
    | ok x =>
      simp only [hl] at h
      cases hr : evaluate r with
      | error e2 =>
        simp only [hr, Except.error.injEq] at h
        exact h ▸ ihr e2 hr
      | ok y => simp only [hr] at h; exact absurd h (by simp)
  | Times l r ihl ihr =>
    intro e h
    rw [evaluate] at h
    cases hl : evaluate l with
    | error e2 =>
      simp only [hl, Except.error.injEq] at h
      exact h ▸ ihl e2 hl
    | ok x =>
      simp only [hl] at h
      cases hr : evaluate r with
      | error e2 =>
        simp only [hr, Except.error.injEq] at h
        exact h ▸ ihr e2 hr
      | ok y => simp only [hr] at h; exact absurd h (by simp)
  | Divide l r ihl ihr =>
    intro e h
    rw [evaluate] at h
    cases hl : evaluate l with
    | error e2 =>
      simp only [hl, Except.error.injEq] at h
      exact h ▸ ihl e2 hl
    | ok x =>
      simp only [hl] at h
      cases hr : evaluate r with
      | error e2 =>
        simp only [hr, Except.error.injEq] at h
        exact h ▸ ihr e2 hr
      | ok y =>
        simp only [hr] at h
        by_cases hy : y = 0
        · rw [if_pos hy] at h
          simp only [Except.error.injEq] at h
          subst h
          exact ⟨by simp, by simp⟩
        · rw [if_neg hy] at h
          by_cases hxy : x = -2147483648 ∧ y = -1
          · rw [if_pos hxy] at h
            simp only [Except.error.injEq] at h
            subst h
            exact ⟨by simp, by simp⟩
          · rw [if_neg hxy] at h; exact absurd h (by simp)

theorem prodErr : ∀ n : Nat,
    (∀ p e, programF n p = some (.error e) →
      e ≠ Err.initReadLine ∧ e ≠ Err.advanceReadLine) ∧
    (∀ p e, expF n p = some (.error e) →
      e ≠ Err.initReadLine ∧ e ≠ Err.advanceReadLine) ∧
    (∀ t p e, expRF n t p = some (.error e) →
      e ≠ Err.initReadLine ∧ e ≠ Err.advanceReadLine) ∧
    (∀ p e, termF n p = some (.error e) →
      e ≠ Err.initReadLine ∧ e ≠ Err.advanceReadLine) ∧
    (∀ t p e, termRF n t p = some (.error e) →
      e ≠ Err.initReadLine ∧ e ≠ Err.advanceReadLine) ∧
    (∀ p e, factorF n p = some (.error e) →
      e ≠ Err.initReadLine ∧ e ≠ Err.advanceReadLine) := by
  intro n
  induction n with
  | zero =>
    refine ⟨fun p e h => ?_, fun p e h => ?_, fun t p e h => ?_,
      fun p e h => ?_, fun t p e h => ?_, fun p e h => ?_⟩ <;>
      simp [programF, expF, expRF, termF, termRF, factorF] at h
  | succ n ih =>
    obtain ⟨ihP, ihE, ihER, ihT, ihTR, ihF⟩ := ih
    refine ⟨?_, ?_, ?_, ?_, ?_, ?_⟩
    · intro p e h
      rw [programF] at h
      cases hE : expF n p with
      | none => simp only [hE] at h; exact absurd h (by simp)
      | some x =>
        simp only [hE] at h
        cases x with
        | error e2 =>
          simp only [Option.some.injEq, Except.error.injEq] at h
          exact h ▸ ihE p e2 hE
        | ok ap => obtain ⟨a, p1⟩ := ap; exact absurd h (by simp [semi])
    · intro p e h
      rw [expF] at h
      cases hT : termF n p with
      | none => simp only [hT] at h; exact absurd h (by simp)
      | some x =>
        simp only [hT] at h
        cases x with
        | error e2 =>
          simp only [Option.some.injEq, Except.error.injEq] at h
          exact h ▸ ihT p e2 hT
        | ok tp =>
          obtain ⟨t, p1⟩ := tp
          exact ihER t p1 e h
    · intro t p e h
      rw [expRF] at h
      cases htok : p.tok <;> simp only [htok] at h <;>
        try exact absurd h (by simp)
      case Plus =>
        cases hE : eat .Plus p with
        | error e2 =>
          simp only [hE, Option.some.injEq, Except.error.injEq] at h
          exact h ▸ eat_err .Plus p e2 hE
        | ok p1 =>
          simp only [hE] at h
          cases hT : termF n p1 with
          | none => simp only [hT] at h; exact absurd h (by simp)
          | some x =>
            simp only [hT] at h
            cases x with
            | error e2 =>
              simp only [Option.some.injEq, Except.error.injEq] at h
              exact h ▸ ihT p1 e2 hT
            | ok sp =>
              obtain ⟨s, p2⟩ := sp
              exact ihER (.Plus t s) p2 e h
      case Minus =>
        cases hE : eat .Minus p with
        | error e2 =>
          simp only [hE, Option.some.injEq, Except.error.injEq] at h
          exact h ▸ eat_err .Minus p e2 hE
        | ok p1 =>
          simp only [hE] at h
          cases hT : termF n p1 with
          | none => simp only [hT] at h; exact absurd h (by simp)
          | some x =>
            simp only [hT] at h
            cases x with
            | error e2 =>
              simp only [Option.some.injEq, Except.error.injEq] at h
              exact h ▸ ihT p1 e2 hT
            | ok sp =>
              obtain ⟨s, p2⟩ := sp
              exact ihER (.Minus t s) p2 e h
    · intro p e h
      rw [termF] at h
      cases hF : factorF n p with
      | none => simp only [hF] at h; exact absurd h (by simp)
      | some x =>
        simp only [hF] at h
        cases x with
        | error e2 =>
          simp only [Option.some.injEq, Except.error.injEq] at h
          exact h ▸ ihF p e2 hF
        | ok fp =>
          obtain ⟨f, p1⟩ := fp
          exact ihTR f p1 e h
    · intro t p e h
      rw [termRF] at h
      cases htok : p.tok <;> simp only [htok] at h <;>
        try exact absurd h (by simp)
      case Times =>
        cases hE : eat .Times p with
        | error e2 =>
          simp only [hE, Option.some.injEq, Except.error.injEq] at h
          exact h ▸ eat_err .Times p e2 hE
        | ok p1 =>
          simp only [hE] at h
          cases hF : factorF n p1 with
          | none => simp only [hF] at h; exact absurd h (by simp)
          | some x =>
            simp only [hF] at h
            cases x with
            | error e2 =>
              simp only [Option.some.injEq, Except.error.injEq] at h
              exact h ▸ ihF p1 e2 hF
            | ok gp =>
              obtain ⟨g, p2⟩ := gp
              exact ihTR (.Times t g) p2 e h
      case Divide =>
        cases hE : eat .Divide p with
        | error e2 =>
          simp only [hE, Option.some.injEq, Except.error.injEq] at h
          exact h ▸ eat_err .Divide p e2 hE
        | ok p1 =>
          simp only [hE] at h
          cases hF : factorF n p1 with
          | none => simp only [hF] at h; exact absurd h (by simp)
          | some x =>
            simp only [hF] at h
            cases x with
            | error e2 =>
              simp only [Option.some.injEq, Except.error.injEq] at h
              exact h ▸ ihF p1 e2 hF
            | ok gp =>
              obtain ⟨g, p2⟩ := gp
              exact ihTR (.Divide t g) p2 e h
    · intro p e h
      rw [factorF] at h
      cases htok : p.tok <;> simp only [htok] at h <;>
        first
        | (simp only [Option.some.injEq, Except.error.injEq] at h
           exact h ▸ ⟨by simp, by simp⟩)
        | skip
      case Num ds =>
        cases hq : pGetToken p with
        | error e2 =>
          simp only [hq, Option.some.injEq, Except.error.injEq] at h
          exact h ▸ pGetToken_err p e2 hq
        | ok p1 =>
          simp only [hq] at h
          cases hv : parseI32 ds with
          | error e2 =>
            simp only [hv, Option.some.injEq, Except.error.injEq] at h
            exact h ▸ parseI32_err ds e2 hv
          | ok v => simp only [hv] at h; exact absurd h (by simp)
      case LParen =>
        cases hE : eat .LParen p with
        | error e2 =>
          simp only [hE, Option.some.injEq, Except.error.injEq] at h
          exact h ▸ eat_err .LParen p e2 hE
        | ok p1 =>
          simp only [hE] at h
          cases hX : expF n p1 with
          | none => simp only [hX] at h; exact absurd h (by simp)
          | some x =>
            simp only [hX] at h
            cases x with
            | error e2 =>
              simp only [Option.some.injEq, Except.error.injEq] at h
              exact h ▸ ihE p1 e2 hX
            | ok ap =>
              obtain ⟨a, p2⟩ := ap
              cases hE2 : eat .RParen p2 with
              | error e2 =>
                simp only [hE2, Option.some.injEq, Except.error.injEq] at h
                exact h ▸ eat_err .RParen p2 e2 hE2
              | ok p3 => simp only [hE2] at h; exact absurd h (by simp)

/-- Claim C8, amended: in the pure-input model (where `read_line` reports
end-of-stream as a successful zero-byte read, as Rust's `Stdin::read_line`
does), no run of `main` ever terminates with either "unable to read line"
panic: every fatal error is one of the lexer/parser/evaluator errors, never
`Err.initReadLine` or `Err.advanceReadLine`.  End-of-input while more input
is required instead surfaces as the `Lexer::current` panic
(`Err.nonsensicalChar`), as the counterexample run shows. -/
theorem claim_C8 (fuel : Nat) (input : List (List Char))
    (out : List Out) (e : Err)
    (h : mainRun fuel input = some (out, some e)) :
    e ≠ Err.initReadLine ∧ e ≠ Err.advanceReadLine := by
  rw [mainRun] at h
  cases hg : getToken (lexerNew input) with
  | error e2 =>
    simp only [hg, Option.some.injEq, Prod.mk.injEq] at h
    obtain ⟨h1, h2⟩ := h
    subst h2
    rcases getToken_err _ e2 hg with h3 | ⟨c, h3⟩ <;> subst h3 <;>
      exact ⟨by simp, by simp⟩
  | ok ts =>
    obtain ⟨t, st1⟩ := ts
    simp only [hg] at h
    cases hp : programF fuel ⟨t, st1⟩ with
    | none => simp only [hp] at h; exact absurd h (by simp)
    | some x =>
      simp only [hp] at h
      cases x with
      | error e2 =>
        simp only [Option.some.injEq, Prod.mk.injEq] at h
        obtain ⟨h1, h2⟩ := h
        subst h2
        exact (prodErr fuel).1 ⟨t, st1⟩ e2 hp
      | ok ap =>
        obtain ⟨a, pE⟩ := ap
        cases hev : evaluate a with
        | error e2 =>
          simp only [hev, Option.some.injEq, Prod.mk.injEq] at h
          obtain ⟨h1, h2⟩ := h
          subst h2
          exact evaluate_err a e2 hev
        | ok v => simp only [hev] at h; exact absurd h (by simp)

/-- Claim C8, witness: the amended no-read-line-panic theorem applied to the
concrete failing run on input `&` (which dies with the unrecognized
character error before the prompt). -/
theorem claim_C8_witness :
    Err.unrecognizedChar '&' ≠ Err.initReadLine ∧
    Err.unrecognizedChar '&' ≠ Err.advanceReadLine :=
  claim_C8 30 ["&\n".toList] [] (Err.unrecognizedChar '&') (by decide)
